import Mathlib

/-!
# tgshell: session registry, event loop and history utilities

A shallow embedding of the parts of `sagan/tgshell` that own the session table
and the active-session map (`telegram/telegram.go`, `telegram/event_loop.go`),
the configuration lookups they call (`config/config.go`), the history
helpers of `util/util.go`, and of the two executors (`executor/shell/shell.go`,
`executor/ssh/ssh.go`) the methods `Exec`, `Clear` and `runBuiltin`, the
constructor `NewExecutor` of the SSH executor and the port-forwarding loops of
its `Open`, followed by theorems about them.

Conventions of the embedding.

* A Go `string` is a Lean `String` (valid UTF-8 text).  Byte-level library
  functions that are only ever applied with ASCII separators are modelled on
  the character list, which agrees with the byte-level result on valid UTF-8.
* A Go `map[K]V` is an association list read by first match (`GoMap.get`);
  `delete` removes every binding of the key and an assignment replaces the
  binding in place or appends it.  Go iterates a map in an unspecified order;
  the embedding iterates in list order.
* A Go `int64`/`int` that is only compared or printed is a Lean `Int`.
* A nil-pointer dereference or slice-bounds failure is a run-time panic of the
  Go program; handlers therefore return `Option`, `none` being the panic.  The
  call `Executor.Close()` is among them: `Ssh.Close` dereferences the session
  that `Open()` creates, so whether a call returns is an input (`Env.Closes`).
* Pointers to executors are modelled by instance numbers (`ExecutorRef.id`).
  The calls of executor methods and of constructors, the tasks started, the
  messages put on `messenger`, and the texts that the registry handlers and
  `command_run` write to a command's `Output` or send with `bot.Send` are
  recorded, newest first, in `State.trace`.  Of the closing of `Output` only
  the `close(output)` statements of `command_run` are recorded; the cases of
  the loop close `tgcmd.Output` when they end.
* Library functions outside the repository that the code calls with
  arbitrary text (`strconv.Unquote`, `strings.ToUpper`, `shlex.Split`, the
  go-flags parser, `user.Current`, the forwarding methods of the SSH
  connection) are parameters (`Env`, `ssh.Linked`, the argument `con`).
* Channels are unbounded: a send never blocks.  The loop is the only reader of
  `messenger` (capacity 5) and also writes to it; the blocking of such a write
  on a full channel is not modelled.
-/

namespace Tgshell

/-! ## Go maps -/

namespace GoMap

/-- Reading `m[k]`: the first binding of `k`, if any. -/
def get {K V : Type} [DecidableEq K] : List (K × V) → K → Option V
  | [], _ => none
  | (k', v) :: m, k => if k' = k then some v else get m k

/-- The builtin `delete(m, k)`. -/
def delete {K V : Type} [DecidableEq K] (m : List (K × V)) (k : K) : List (K × V) :=
  m.filter (fun e => decide (e.1 ≠ k))

/-- The assignment `m[k] = v`. -/
def set {K V : Type} [DecidableEq K] : List (K × V) → K → V → List (K × V)
  | [], k, v => [(k, v)]
  | (k', v') :: m, k, v => if k' = k then (k, v) :: m else (k', v') :: set m k v

end GoMap

/-! ## Go library functions used by the sources -/

namespace unicode

/-- The function `unicode.IsSpace`: the Latin-1 cases listed in its source and
the `White_Space` range table beyond Latin-1. -/
def IsSpace (r : Char) : Bool :=
  let n := r.toNat
  if n ≤ 0xFF then
    n == 0x09 || n == 0x0A || n == 0x0B || n == 0x0C || n == 0x0D || n == 0x20 ||
      n == 0x85 || n == 0xA0
  else
    n == 0x1680 || (0x2000 ≤ n && n ≤ 0x200A) || n == 0x2028 || n == 0x2029 ||
      n == 0x202F || n == 0x205F || n == 0x3000

end unicode

namespace strings

/-- The function `strings.TrimSpace`. -/
def TrimSpace (s : String) : String :=
  ⟨((s.data.dropWhile unicode.IsSpace).reverse.dropWhile unicode.IsSpace).reverse⟩

/-- The function `strings.HasPrefix(s, p)`. -/
def StartsWith (s p : String) : Bool :=
  p.data.isPrefixOf s.data

/-- The function `strings.TrimPrefix(s, p)`. -/
def TrimLeading (s p : String) : String :=
  if StartsWith s p then ⟨s.data.drop p.data.length⟩ else s

/-- The function `strings.IndexAny(s, chars)`, as an index into the characters
of `s` (the separators it is called with are ASCII, so cutting at this index
cuts at the byte index Go returns); `none` is Go's `-1`. -/
def IndexAny (s chars : String) : Option Nat :=
  let i := s.data.findIdx (fun c => decide (c ∈ chars.data))
  if i < s.data.length then some i else none

/-- Splitting a character list at every occurrence of `sep`. -/
def splitChars (sep : Char) : List Char → List (List Char)
  | [] => [[]]
  | c :: cs =>
    if c = sep then [] :: splitChars sep cs
    else
      match splitChars sep cs with
      | [] => [[c]]
      | w :: ws => (c :: w) :: ws

/-- The function `strings.Split(s, sep)` for a one-character separator. -/
def Split (s : String) (sep : Char) : List String :=
  (splitChars sep s.data).map String.mk

/-- The function `strings.Index(s, sep)` for a one-character ASCII separator,
as an index into the characters of `s` (cutting there cuts at the byte index Go
returns); `none` is Go's `-1`. -/
def Index (s : String) (sep : Char) : Option Nat :=
  let i := s.data.findIdx (fun c => c == sep)
  if i < s.data.length then some i else none

/-- The function `strings.Join(elems, sep)`. -/
def Join (elems : List String) (sep : String) : String :=
  String.mk (List.intercalate sep.data (elems.map String.data))

end strings

namespace fmt

/-- The verb `%d` of `fmt.Sprintf` on an integer. -/
def d (n : Int) : String :=
  match n with
  | Int.ofNat m => Nat.repr m
  | Int.negSucc m => "-" ++ Nat.repr (m + 1)

end fmt

namespace strconv

/-- The function `strconv.Atoi`: an optional sign and at least one decimal
digit, with a value that fits a 64-bit `int`; `none` is a non-nil error. -/
def Atoi (s : String) : Option Int :=
  let body : Bool × List Char :=
    match s.data with
    | '-' :: r => (true, r)
    | '+' :: r => (false, r)
    | r => (false, r)
  if body.2.isEmpty || !(body.2.all Char.isDigit) then none
  else
    let n : Int := body.2.foldl (fun a c => 10 * a + ((c.toNat : Int) - 48)) 0
    let v : Int := if body.1 then -n else n
    if v < -(2 ^ 63) || 2 ^ 63 ≤ v then none else some v

end strconv

/-! ## constants -/

namespace constants

/-- The constant `MAX_HISTORY`. -/
def MAX_HISTORY : Int := 50

/-- The constant `TG_TEXT_LIMIT`. -/
def TG_TEXT_LIMIT : Int := 4096

end constants

/-! ## util -/

namespace util

/-- The function `SplitFirstAndOthers`. -/
def SplitFirstAndOthers (str : String) : String × String :=
  match strings.IndexAny str " \r\n\t\x0c" with
  | some i => (⟨str.data.take i⟩, strings.TrimSpace ⟨str.data.drop (i + 1)⟩)
  | none => (strings.TrimSpace str, "")

/-- The loop of `UniqueSlice`: `keys` is the key set of the Go map `keys`,
`list` the result built so far. -/
def UniqueSliceLoop {T : Type} [DecidableEq T] (except : Option T) :
    List T → List T → List T → List T
  | [], _, list => list
  | entry :: s, keys, list =>
    if !(decide (entry ∈ keys)) || decide (except = some entry) then
      UniqueSliceLoop except s (entry :: keys) (list ++ [entry])
    else UniqueSliceLoop except s keys list

/-- The function `UniqueSlice`; the pointer `except` is an `Option`. -/
def UniqueSlice {T : Type} [DecidableEq T] (s : List T) (except : Option T) : List T :=
  UniqueSliceLoop except s [] []

/-- The function `UniqueSliceInLastOrder`. -/
def UniqueSliceInLastOrder {T : Type} [DecidableEq T] (s : List T) (except : Option T) :
    List T :=
  (UniqueSlice s.reverse except).reverse

/-- The function `AppendUniqueCapSlice`. -/
def AppendUniqueCapSlice {T : Type} [DecidableEq T] (s : List T) (cap : Int) (els : List T) :
    List T :=
  let ns := UniqueSliceInLastOrder (s ++ els) none
  if cap > 0 ∧ (ns.length : Int) > cap then ns.drop (ns.length - cap.toNat) else ns

/-- The loop `for i := range s` of `Chunks`: `cur` holds the characters of
`s[currentStart:i]`, `currentLen` their number. -/
def ChunksLoop (chunkSize : Int) : List Char → List Char → Int → List String → List String
  | [], cur, _, chunks => chunks ++ [String.mk cur]
  | c :: rest, cur, currentLen, chunks =>
    if currentLen = chunkSize then ChunksLoop chunkSize rest [c] 1 (chunks ++ [String.mk cur])
    else ChunksLoop chunkSize rest (cur ++ [c]) (currentLen + 1) chunks

/-- The function `Chunks`.  `len(s)` is the UTF-8 byte length.  `none` is the
panic of `make` when its capacity `(len(s)-1)/chunkSize+1` divides by zero or
is negative. -/
def Chunks (s : String) (chunkSize : Int) : Option (List String) :=
  let len : Int := s.utf8ByteSize
  if len = 0 then some []
  else if chunkSize ≥ len then some [s]
  else if chunkSize = 0 then none
  else if Int.tdiv (len - 1) chunkSize + 1 < 0 then none
  else some (ChunksLoop chunkSize s.data [] 0 [])

/-- The function `FindLineDataByFirstField`. -/
def FindLineDataByFirstField : List String → String → String
  | [], _ => ""
  | line :: lines, index =>
    if (SplitFirstAndOthers line).1 = index then (SplitFirstAndOthers line).2
    else FindLineDataByFirstField lines index

/-- The words of the history rule: keeping only the last occurrence of each
value, in the original relative order. -/
def keepLastOccurrences {T : Type} [DecidableEq T] : List T → List T
  | [] => []
  | a :: l => if a ∈ l then keepLastOccurrences l else a :: keepLastOccurrences l

/-- The words of the doc comment of `AppendUniqueCapSlice`: the last `cap`
elements of a list, the whole list when `cap <= 0`. -/
def lastElements {T : Type} (cap : Int) (l : List T) : List T :=
  if cap ≤ 0 then l else l.drop (l.length - cap.toNat)

end util

/-! ## config

`ConfigData`, the package variable, is threaded explicitly.  The package maps
`executorConfigMap` and `cmdConfigMap` hold pointers into `ConfigData` and are
rebuilt by `sideeffect` after every change of the lists, so they are modelled as
functions of `ConfigData`.  `viper.WriteConfig` and the file read of `Reload`
are inputs (`Disk`). -/

namespace config

/-- The constant `DEFAULT_EXECUTOR`. -/
def DEFAULT_EXECUTOR : String := "shell"

/-- The constant `PTY_EXECUTOR`. -/
def PTY_EXECUTOR : String := "pty"

/-- The struct `ConfigCmdStruct`. -/
structure ConfigCmdStruct where
  Name : String
  Cmd : String
  deriving DecidableEq, Repr

/-- The struct `ConfigExecutorStruct` (`Type'` is the field `Type`). -/
structure ConfigExecutorStruct where
  Name : String
  Type' : String := ""
  Config : String := ""
  Secret : String := ""
  Buttons : List String := []
  Comment : String := ""
  Internal : Bool := false
  Global : Bool := false
  deriving DecidableEq, Repr

/-- The fields of `ConfigStruct` that the registry and its handlers read or write. -/
structure ConfigStruct where
  ShellExecutorButtons : List String := []
  Cmds : List ConfigCmdStruct := []
  Executors : List ConfigExecutorStruct := []
  deriving DecidableEq, Repr

/-- What the configuration file layer answers during one call: the error of
`viper.WriteConfig()` (`none` is nil) and, for `Reload`, the error of reading
and unmarshalling or the `ConfigData` that results. -/
structure Disk where
  WriteConfig : Option String := none
  Reload : Except String ConfigStruct := Except.error "failed to read config"

/-- The variable `InternalExecutors`.  The two entries share their `Buttons`
with `ConfigData.ShellExecutorButtons`, which every writer of that field
re-assigns.  `Start` may prepend `ConfigData.ShellExecutor` to their `Config`;
that text is only handed to the executor constructor and is left as declared. -/
def InternalExecutors (cs : ConfigStruct) : List ConfigExecutorStruct :=
  [ { Name := DEFAULT_EXECUTOR, Type' := "shell", Config := "--ts-oneshot", Internal := true,
      Global := true, Buttons := cs.ShellExecutorButtons,
      Comment := "The default executor. Exec cmdline using system shell. It's always open and can not be closed." },
    { Name := PTY_EXECUTOR, Type' := "shell", Internal := true,
      Buttons := cs.ShellExecutorButtons,
      Comment := "The system shell pty (pseudo terminal) executor." } ]

/-- The value of `executorConfigMap` after `sideeffect`. -/
def executorConfigMap (cs : ConfigStruct) : List (String × ConfigExecutorStruct) :=
  cs.Executors.foldl (fun m c => GoMap.set m c.Name c)
    ((InternalExecutors cs).foldl (fun m c => GoMap.set m c.Name c) [])

/-- The value of `cmdConfigMap` after `sideeffect`. -/
def cmdConfigMap (cs : ConfigStruct) : List (String × ConfigCmdStruct) :=
  cs.Cmds.foldl (fun m c => GoMap.set m c.Name c) []

/-- The function `GetCmd`; `none` is nil. -/
def GetCmd (cs : ConfigStruct) (name : String) : Option ConfigCmdStruct :=
  GoMap.get (cmdConfigMap cs) name

/-- The function `GetExecutor`; `none` is nil. -/
def GetExecutor (cs : ConfigStruct) (name : String) : Option ConfigExecutorStruct :=
  GoMap.get (executorConfigMap cs) name

/-- Go's `<` on strings (bytewise, which on UTF-8 is the order of the code points). -/
def strLess (a b : String) : Bool :=
  decide (a.data < b.data)

/-- The `less` closure of `AddCmd`. -/
def cmdLess (a b : ConfigCmdStruct) : Bool :=
  if a.Name ≠ b.Name then strLess a.Name b.Name else strLess a.Cmd b.Cmd

/-- The `less` closure of `AddExecutor`. -/
def executorLess (a b : ConfigExecutorStruct) : Bool :=
  if a.Name ≠ b.Name then strLess a.Name b.Name else strLess a.Config b.Config

/-- The function `AddCmd`: the new `ConfigData` and the returned error. -/
def AddCmd (disk : Disk) (cs : ConfigStruct) (cmd : ConfigCmdStruct) :
    ConfigStruct × Option String :=
  if (GetCmd cs cmd.Name).isSome then (cs, some ("'" ++ cmd.Name ++ "' cmd already exists"))
  else
    ({ cs with Cmds := List.insertionSort (fun a b => cmdLess b a = false) (cs.Cmds ++ [cmd]) },
      disk.WriteConfig)

/-- The function `Reload`. -/
def Reload (disk : Disk) (cs : ConfigStruct) : ConfigStruct × Option String :=
  match disk.Reload with
  | Except.error e => (cs, some e)
  | Except.ok cs' => (cs', none)

/-- The function `AddExecutor`; `sort.SliceStable` is a stable insertion sort. -/
def AddExecutor (disk : Disk) (cs : ConfigStruct) (executor : ConfigExecutorStruct) :
    ConfigStruct × Option String :=
  if (GetExecutor cs executor.Name).isSome then
    (cs, some ("'" ++ executor.Name ++ "' executor already exists"))
  else
    ({ cs with Executors :=
        List.insertionSort (fun a b => executorLess b a = false) (cs.Executors ++ [executor]) },
      disk.WriteConfig)

/-- The function `DelCmd`. -/
def DelCmd (disk : Disk) (cs : ConfigStruct) (name : String) : ConfigStruct × Option String :=
  if (GetCmd cs name).isNone then (cs, some ("'" ++ name ++ "' cmd does NOT exist"))
  else ({ cs with Cmds := cs.Cmds.filter (fun cmd => decide (cmd.Name ≠ name)) }, disk.WriteConfig)

/-- The function `DelExecutor`. -/
def DelExecutor (disk : Disk) (cs : ConfigStruct) (name : String) :
    ConfigStruct × Option String :=
  match GetExecutor cs name with
  | none => (cs, some ("'" ++ name ++ "' executor does NOT exist"))
  | some executor =>
    if executor.Internal then
      (cs, some ("'" ++ name ++ "' is a internal executor and can NOT be deleted"))
    else
      ({ cs with Executors := cs.Executors.filter (fun executor => decide (executor.Name ≠ name)) },
        disk.WriteConfig)

/-- The function `SetExecutorSecret`. -/
def SetExecutorSecret (disk : Disk) (cs : ConfigStruct) (name secret : String) :
    ConfigStruct × Option String :=
  match GetExecutor cs name with
  | none => (cs, some ("'" ++ name ++ "' executor does NOT exist"))
  | some executor =>
    if executor.Internal then
      (cs, some ("'" ++ name ++
        "' executor does NOT support secret because it's an internal executor)"))
    else
      ({ cs with Executors := cs.Executors.map (fun executor =>
          if executor.Name = name then { executor with Secret := secret } else executor) },
        disk.WriteConfig)

/-- The function `AddExecutorButton`; `slices.Sort` is an insertion sort. -/
def AddExecutorButton (disk : Disk) (cs : ConfigStruct) (name button : String) :
    ConfigStruct × Option String :=
  if name = DEFAULT_EXECUTOR ∨ name = PTY_EXECUTOR then
    if button ∉ cs.ShellExecutorButtons then
      ({ cs with ShellExecutorButtons := cs.ShellExecutorButtons ++ [button] }, disk.WriteConfig)
    else (cs, disk.WriteConfig)
  else
    ({ cs with Executors := cs.Executors.map (fun executor =>
        if executor.Name = name ∧ button ∉ executor.Buttons then
          { executor with Buttons :=
              List.insertionSort (fun a b => strLess b a = false) (executor.Buttons ++ [button]) }
        else executor) },
      disk.WriteConfig)

/-- The index expression of `DelExecutorButton`: the parsed `payload` when
`indexError == nil`, else `slices.IndexFunc` with the text-or-prefix test
(`-1` when no button matches). -/
def buttonIndex (payload : String) (buttons : List String) : Int :=
  match strconv.Atoi payload with
  | some index => index
  | none =>
    let i := buttons.findIdx (fun s => s == payload || strings.StartsWith s (payload ++ " "))
    if i < buttons.length then (i : Int) else -1

/-- The guarded removal `if index >= 0 && len(buttons) > index { ... }`. -/
def removeButton (buttons : List String) (index : Int) : List String :=
  if index ≥ 0 ∧ (buttons.length : Int) > index then
    buttons.take index.toNat ++ buttons.drop (index.toNat + 1)
  else buttons

/-- The function `DelExecutorButton`. -/
def DelExecutorButton (disk : Disk) (cs : ConfigStruct) (name payload : String) :
    ConfigStruct × Option String :=
  if (match strconv.Atoi payload with
      | some index => decide (index < 0)
      | none => false) then
    (cs, some ("invalid payload '" ++ payload ++ "'"))
  else if name = DEFAULT_EXECUTOR ∨ name = PTY_EXECUTOR then
    ({ cs with ShellExecutorButtons :=
        removeButton cs.ShellExecutorButtons (buttonIndex payload cs.ShellExecutorButtons) },
      disk.WriteConfig)
  else
    ({ cs with Executors := cs.Executors.map (fun executor =>
        if executor.Name = name then
          { executor with Buttons :=
              removeButton executor.Buttons (buttonIndex payload executor.Buttons) }
        else executor) },
      disk.WriteConfig)

/-- The function `ClearExecutorButtons`. -/
def ClearExecutorButtons (disk : Disk) (cs : ConfigStruct) (name : String) :
    ConfigStruct × Option String :=
  if name = DEFAULT_EXECUTOR ∨ name = PTY_EXECUTOR then
    ({ cs with ShellExecutorButtons := [] }, disk.WriteConfig)
  else
    ({ cs with Executors := cs.Executors.map (fun executor =>
        if executor.Name = name then { executor with Buttons := [] } else executor) },
      disk.WriteConfig)

end config

/-! ## executor: the registry of constructors -/

namespace executor

/-- The struct `RegInfo`.  A `Creator` returns an error text or a new executor;
of the new executor the registry code reads `Name()`, which both registered
implementations (`shell`, `ssh`) answer with `executorConfig.Name`, and whether
`Chan()` is non-nil, which is the `Bool` returned here. -/
structure RegInfo where
  Name : String
  Creator : config.ConfigExecutorStruct → String → Except String Bool

/-- The function `Create` over the package variable `Registry`. -/
def Create (Registry : List RegInfo) (executorConfig : config.ConfigExecutorStruct)
    (extraOption : String) : Except String Bool :=
  match Registry.find? (fun reg => reg.Name == executorConfig.Type') with
  | some reg => reg.Creator executorConfig extraOption
  | none => Except.error ("no executor of type '" ++ executorConfig.Type' ++ "' found")

/-- The function `GetRegInfo`; `none` is nil. -/
def GetRegInfo (Registry : List RegInfo) (executorType : String) : Option RegInfo :=
  Registry.find? (fun reg => reg.Name == executorType)

end executor

/-! ## executor/shell and executor/ssh: history -/

namespace shell

/-- The fields of `Shell` that `Exec` reads or writes. -/
structure Shell where
  history : List String := []
  pty : Bool := true
  deriving DecidableEq, Repr

/-- What the operating system answers to a builtin: `util.Cd(dir)` (the new
working directory or an error text) and `os.Getwd()`. -/
structure OS where
  Cd : String → Except String String
  Getwd : String

/-- Where `Exec` sends a command line. -/
inductive Submitted where
  | builtin (data : String)
  | ptmx (bytes : String)
  | process (cmdline : String)
  deriving DecidableEq, Repr

/-- The method `runBuiltin`: output and `handled`. -/
def runBuiltin (os : OS) (cmdline : String) : String × Bool :=
  let i := cmdline.data.findIdx (fun c => c == ';')
  if i < cmdline.data.length ∧ i + 1 < cmdline.data.length then ("", false)
  else
    let builtinName := (util.SplitFirstAndOthers cmdline).1
    let builtinParameters := (util.SplitFirstAndOthers cmdline).2
    if builtinName = "cd" then
      match os.Cd builtinParameters with
      | Except.ok cwd => ("cd " ++ cwd, true)
      | Except.error err => ("Failed to cd " ++ builtinParameters ++ ": " ++ err, true)
    else if builtinName = "pwd" then (os.Getwd, true)
    else ("", false)

/-- The method `exec`. -/
def exec (s : Shell) (cmdline : String) : Submitted :=
  if s.pty then Submitted.ptmx cmdline else Submitted.process (strings.TrimSpace cmdline)

/-- The method `Exec`: the executor afterwards and where the line went. -/
def Exec (os : OS) (s : Shell) (cmdline : String) (isRaw : Bool) : Shell × Submitted :=
  if !isRaw then
    let s1 : Shell :=
      { s with history := util.AppendUniqueCapSlice s.history constants.MAX_HISTORY [cmdline] }
    if !s1.pty then
      if (runBuiltin os cmdline).2 then (s1, Submitted.builtin (runBuiltin os cmdline).1)
      else (s1, exec s1 cmdline)
    else (s1, exec s1 (cmdline ++ "\n"))
  else (s, exec s cmdline)

/-- The method `Clear`. -/
def Clear (s : Shell) : Shell :=
  { s with history := [] }

end shell

namespace ssh

/-- The type `optionsStruct`: the flags of the executor's configuration line. -/
structure optionsStruct where
  IdentityFiles : List String := []
  Port : Int := 0
  NoPty : Bool := false
  LocalForwards : List String := []
  RemoteForwards : List String := []
  DynamicForwards : List String := []
  SshOptions : List String := []
  Insecure : Bool := false
  deriving DecidableEq, Repr

/-- The fields of `Ssh` that `NewExecutor` sets and `Exec` reads or writes
(the connection, its streams and the channels are left out). -/
structure Ssh where
  executorConfig : config.ConfigExecutorStruct := { Name := "" }
  username : String := ""
  hostname : String := ""
  password : String := ""
  command : String := ""
  options : optionsStruct := {}
  history : List String := []
  pty : Bool := false
  deriving DecidableEq, Repr

/-- What `NewExecutor` is linked with: `shlex.Split`, the `ParseArgs` of a
go-flags parser for `optionsStruct` (the options it fills in and the remaining
arguments) and the `Username` of `user.Current()`; `none` is a non-nil error. -/
structure Linked where
  Split : String → Option (List String)
  ParseArgs : List String → Option (optionsStruct × List String)
  Current : Option String

/-- The function `NewExecutor`; `none` is a non-nil error. -/
def NewExecutor (lib : Linked) (executorConfig : config.ConfigExecutorStruct)
    (extraOption : String) : Option Ssh :=
  let executorConfigStr := executorConfig.Config
  let executorConfigStr :=
    if executorConfigStr ≠ "" ∧ extraOption ≠ "" then executorConfigStr ++ " "
    else executorConfigStr
  let executorConfigStr := executorConfigStr ++ extraOption
  match lib.Split executorConfigStr with
  | none => none
  | some args =>
    match lib.ParseArgs args with
    | none => none
    | some (options, args) =>
      match args with
      | [] => none
      | destination :: more =>
        if more.length + 1 > 2 then none
        else
          let command := more.headD ""
          let named : String × String :=
            match strings.Index destination '@' with
            | some i => (String.mk (destination.data.take i), String.mk (destination.data.drop (i + 1)))
            | none =>
              (match lib.Current with
                | none => "root"
                | some Username => Username, destination)
          let username := named.1
          let hostname := named.2
          let ported : Option (Int × String) :=
            match strings.Index hostname ':' with
            | some i =>
              match strconv.Atoi (String.mk (hostname.data.drop (i + 1))) with
              | none => none
              | some Port =>
                if Port ≤ 0 ∨ Port > 65535 then none
                else some (Port, String.mk (hostname.data.take i))
            | none => if options.Port = 0 then some (22, hostname) else some (options.Port, hostname)
          match ported with
          | none => none
          | some (Port, hostname) =>
            if username = "" ∨ hostname = "" ∨ Port ≤ 0 ∨ Port > 65535 then none
            else
              some { executorConfig := executorConfig,
                     username := username,
                     password := executorConfig.Secret,
                     hostname := hostname,
                     command := command,
                     options := { options with Port := Port } }

/-- A call of one of the four forwarding methods of the connection `con`. -/
inductive Forward where
  | TCPLocalForward (localAddr remoteAddr : String)
  | TCPRemoteForward (localAddr remoteAddr : String)
  | TCPDynamicForward (address port : String)
  | TCPReverseDynamicForward (address port : String)
  deriving DecidableEq, Repr

/-- The body of the loop of `Open` over `LocalForwards`, on the fields `args`
of one argument: the call it makes, `none` for the error "invalid
local_forward".  `strings.Split` returns at least one field, so the last case
is that of four or more fields. -/
def localForwardArgs (args : List String) : Option Forward :=
  match args with
  | [_] => none
  | [a0, a1] => some (Forward.TCPLocalForward a0 a1)
  | [a0, a1, a2] => some (Forward.TCPLocalForward a0 (strings.Join [a1, a2] ":"))
  | args =>
    some (Forward.TCPLocalForward (strings.Join (args.take 2) ":") (strings.Join (args.drop 2) ":"))

/-- The body of the loop of `Open` over `RemoteForwards`, on the fields `args`
of one argument; the last case is that of four or more fields. -/
def remoteForwardArgs (args : List String) : Option Forward :=
  match args with
  | [a0] => some (Forward.TCPReverseDynamicForward "0.0.0.0" a0)
  | [_, a1] => some (Forward.TCPReverseDynamicForward "0.0.0.0" a1)
  | [a0, a1, a2] => some (Forward.TCPRemoteForward (strings.Join [a1, a2] ":") a0)
  | args =>
    some (Forward.TCPRemoteForward (strings.Join (args.drop 2) ":") (strings.Join (args.take 2) ":"))

/-- The body of the loop of `Open` over `DynamicForwards`, on the fields `args`
of one argument: `none` for the error "invalid dynamic_forward". -/
def dynamicForwardArgs (args : List String) : Option Forward :=
  match args with
  | [a0] => some (Forward.TCPDynamicForward "0.0.0.0" a0)
  | [a0, a1] => some (Forward.TCPDynamicForward a0 a1)
  | _ => none

/-- One of the three loops of `Open`: each argument is split at `:` and the
call of `body` is made on `con` (`con f` tells whether call `f` returns a nil
error); the loop breaks at the first error.  The calls made, in order, and
whether `err == nil` afterwards. -/
def forwardLoop (con : Forward → Bool) (body : List String → Option Forward) :
    List String → List Forward × Bool
  | [] => ([], true)
  | arg :: more =>
    match body (strings.Split arg ':') with
    | none => ([], false)
    | some f =>
      if con f then ((f :: (forwardLoop con body more).1), (forwardLoop con body more).2)
      else ([f], false)

/-- The port-forwarding part of `Open` (after the client is created): the
calls made on the connection, in order, and whether `err == nil` afterwards. -/
def openForwards (con : Forward → Bool) (options : optionsStruct) : List Forward × Bool :=
  let l := forwardLoop con localForwardArgs options.LocalForwards
  if !l.2 then l
  else
    let r := forwardLoop con remoteForwardArgs options.RemoteForwards
    if !r.2 then (l.1 ++ r.1, false)
    else
      let d := forwardLoop con dynamicForwardArgs options.DynamicForwards
      (l.1 ++ r.1 ++ d.1, d.2)

/-- The method `Exec`: the executor afterwards and the bytes written to stdin. -/
def Exec (s : Ssh) (cmdline : String) (isRaw : Bool) : Ssh × String :=
  if !isRaw then
    ({ s with history := util.AppendUniqueCapSlice s.history constants.MAX_HISTORY [cmdline] },
      cmdline ++ "\n")
  else (s, cmdline)

/-- The method `Clear`. -/
def Clear (s : Ssh) : Ssh :=
  { s with history := [] }

end ssh

/-! ## telegram: the active-session map -/

namespace telegram

/-- The type `TgActiveSessions`: chatid => sessionName. -/
abbrev TgActiveSessions := List (Int × String)

/-- The Go expression `as[chatid]`: the zero value `""` when there is no entry. -/
def TgActiveSessions.index (as : TgActiveSessions) (chatid : Int) : String :=
  (GoMap.get as chatid).getD ""

/-- Method `IsDefaultExecutorActive`. -/
def TgActiveSessions.IsDefaultExecutorActive (as : TgActiveSessions) (chatid : Int) : Bool :=
  chatid == 0 || as.index chatid == ""

/-- Method `GetActiveSessionName`. -/
def TgActiveSessions.GetActiveSessionName (as : TgActiveSessions) (chatid : Int) : String :=
  if as.IsDefaultExecutorActive chatid then config.DEFAULT_EXECUTOR else as.index chatid

/-- Method `IsActiveSession`. -/
def TgActiveSessions.IsActiveSession (as : TgActiveSessions) (chatid : Int)
    (sessionName : String) : Bool :=
  if as.IsDefaultExecutorActive chatid then sessionName == config.DEFAULT_EXECUTOR
  else sessionName == as.index chatid

/-- The struct `TgGlobalMsg`; the telebot context `C` is left out. -/
structure TgGlobalMsg where
  Type' : String := ""
  Executor : String := ""
  Data : String := ""
  Chatid : Int := 0
  deriving DecidableEq, Repr

/-- Method `GetSessionName`. -/
def TgGlobalMsg.GetSessionName (tgm : TgGlobalMsg) : String :=
  if tgm.Executor = "" ∨ tgm.Executor = config.DEFAULT_EXECUTOR then tgm.Executor
  else tgm.Executor ++ "_" ++ fmt.d tgm.Chatid

/-- An `executor.Executor` value as the loop sees it: which constructed
instance it is, its `Name()` and whether its `Chan()` is non-nil. -/
structure ExecutorRef where
  id : Nat
  Name : String
  Chan : Bool
  deriving DecidableEq, Repr

/-- The struct `TgExecutorSession`. -/
structure TgExecutorSession where
  Executor : ExecutorRef
  Chatid : Int := 0
  Ready : Bool := false
  deriving DecidableEq, Repr

/-- What the loop reads of the telebot context `C` of a command: the callback
data and the text of the message the callback belongs to (`none`: nil message). -/
structure TeleContext where
  CallbackData : String := ""
  CallbackMessage : Option String := none
  deriving DecidableEq, Repr

/-- The struct `TgCommad`; `ctx` and the `Output` channel are left out (what is
written to `Output` is recorded in the trace). -/
structure TgCommad where
  Name : String
  Payload : String := ""
  Chatid : Int := 0
  C : TeleContext := {}
  deriving DecidableEq, Repr

/-- One observable action of the loop or of a task it starts. -/
inductive Effect where
  /-- `tgcmd.Output <- text` for the command of conversation `chatid`. -/
  | Output (chatid : Int) (text : String)
  /-- `close(output)` written out in `command_run`, for the command of conversation `chatid`. -/
  | CloseOutput (chatid : Int)
  /-- An answer to conversation `chatid` whose text is not modelled (listings,
  usage texts and the answers of the configuration commands). -/
  | Answer (chatid : Int)
  /-- `messenger <- msg`. -/
  | Messenger (msg : TgGlobalMsg)
  /-- `bot.Send(&tele.Chat{ID: chatid}, text, ...)`. -/
  | Send (chatid : Int) (text : String)
  /-- `msg.C.Reply(data, ...)` or `msg.C.Send(data, ...)` of a reply message. -/
  | Reply (chatid : Int) (text : String)
  /-- A call of `executor.Create` for the configuration named `name`, and whether it returned an executor. -/
  | Create (name : String) (extraOption : String) (ok : Bool)
  /-- `go` of the task that forwards `Chan()` of executor `id` to `messenger`. -/
  | Forward (id : Nat)
  /-- `go` of the task that calls `Open()` on executor `id`. -/
  | Open (id : Nat)
  /-- `Executor.Clear()` on executor `id`. -/
  | Clear (id : Nat)
  /-- `Executor.Close()` on executor `id`. -/
  | Close (id : Nat)
  /-- `Executor.Cancel()` on executor `id`. -/
  | Cancel (id : Nat)
  /-- `Executor.Exec(ctx, cmdline, isRaw)` on executor `id`. -/
  | Exec (id : Nat) (cmdline : String) (isRaw : Bool)
  deriving DecidableEq, Repr

/-- The variables the loop owns or reaches: `executorSessions`,
`activeSessions`, `config.ConfigData`, the number of executors constructed so
far, and the actions performed so far, newest first. -/
structure State where
  executorSessions : List (String × TgExecutorSession)
  activeSessions : TgActiveSessions := []
  ConfigData : config.ConfigStruct := {}
  nextId : Nat := 1
  trace : List Effect := []
  deriving DecidableEq, Repr

/-- Recording one action. -/
def State.emit (s : State) (e : Effect) : State :=
  { s with trace := e :: s.trace }

/-- Recording several actions, the first of `es` being the oldest. -/
def State.emits (s : State) (es : List Effect) : State :=
  { s with trace := es.reverse ++ s.trace }

/-- What the loop is linked with: the registry of constructors, the two
library functions `strconv.Unquote` (`none`: error) and `strings.ToUpper`, and
for each executor instance whether the one call of `Close()` that the loop may
make on it returns: `Ssh.Close` calls `s.session.Close()`, and `s.session` is
nil until `Open()` has created it, so before that the call panics. -/
structure Env where
  Registry : List executor.RegInfo
  Unquote : String → Option String
  ToUpper : String → String
  Closes : Nat → Bool

/-- The constant `MSG_RESET_EXECUTOR`. -/
def MSG_RESET_EXECUTOR : String := "Active executor changed to default"

/-- The constant `MSG_EXECUTOR_NOT_FOUND_TPL` applied to a name. -/
def MSG_EXECUTOR_NOT_FOUND_TPL (name : String) : String :=
  "Executor '" ++ name ++ "' not found"

/-- The constant `TYPE_GLOBAL`. -/
def TYPE_GLOBAL : String := "global"

/-- The constant `TYPE_REPLY`. -/
def TYPE_REPLY : String := "reply"

/-- The constant `TYPE_CLOSE`. -/
def TYPE_CLOSE : String := "close"

/-- The state `Start` hands to `event_loop`: the table holds the default
session (executor instance 0, ready) and the active-session map is empty. -/
def Start (ConfigData : config.ConfigStruct) : State :=
  { executorSessions :=
      [(config.DEFAULT_EXECUTOR,
        { Executor := { id := 0, Name := config.DEFAULT_EXECUTOR, Chan := false }, Ready := true })],
    activeSessions := [],
    ConfigData := ConfigData,
    nextId := 1,
    trace := [] }

/-- The session key `fmt.Sprintf("%s_%d", name, chatid)`. -/
def sessionKey (name : String) (chatid : Int) : String :=
  name ++ "_" ++ fmt.d chatid

/-- The loop body `case "/close"`; `none` is a panic: the nil session of a
missing default entry, or a `Close()` that panics. -/
def handleClose (env : Env) (s : State) (tgcmd : TgCommad) (tgcmdPayload : String) :
    Option State :=
  let sessionName : String :=
    if tgcmdPayload = "" then s.activeSessions.GetActiveSessionName tgcmd.Chatid
    else if (GoMap.get s.executorSessions (sessionKey tgcmdPayload tgcmd.Chatid)).isSome then
      sessionKey tgcmdPayload tgcmd.Chatid
    else tgcmdPayload
  if sessionName = config.DEFAULT_EXECUTOR then
    match GoMap.get s.executorSessions sessionName with
    | none => none
    | some session =>
      some ((s.emit (Effect.Clear session.Executor.id)).emit
        (Effect.Output tgcmd.Chatid "Using default executor"))
  else
    match GoMap.get s.executorSessions sessionName with
    | none => some (s.emit (Effect.Output tgcmd.Chatid (MSG_EXECUTOR_NOT_FOUND_TPL sessionName)))
    | some session =>
      if !env.Closes session.Executor.id then none
      else
        let s1 : State :=
          { s.emit (Effect.Close session.Executor.id) with
            executorSessions := GoMap.delete s.executorSessions sessionName }
        if s1.activeSessions.IsActiveSession tgcmd.Chatid sessionName then
          some ({ s1 with activeSessions := GoMap.delete s1.activeSessions tgcmd.Chatid }.emit
            (Effect.Output tgcmd.Chatid MSG_RESET_EXECUTOR))
        else some s1

/-- The loop body `case "/closeall"`: every session but the default one is
closed and deleted, every conversation with an entry is notified, and the
active-session map is cleared; `none` is the panic of a `Close()`.  The
notices are written to `messenger`, whose blocking is not modelled. -/
def handleCloseAll (env : Env) (s : State) : Option State :=
  let closed := s.executorSessions.filter (fun e => decide (e.1 ≠ config.DEFAULT_EXECUTOR))
  if !closed.all (fun e => env.Closes e.2.Executor.id) then none
  else
    let s1 : State :=
      { s.emits (closed.map (fun e => Effect.Close e.2.Executor.id)) with
        executorSessions :=
          s.executorSessions.filter (fun e => decide (e.1 = config.DEFAULT_EXECUTOR)) }
    let s2 : State :=
      s1.emits (s1.activeSessions.map (fun e =>
        Effect.Messenger { Chatid := e.1, Data := MSG_RESET_EXECUTOR }))
    some { s2 with activeSessions := [] }

/-- The test of `/delexecutor` on a session name. -/
def belongsTo (sessionName name : String) : Bool :=
  sessionName == name || strings.StartsWith sessionName (name ++ "_")

/-- The loop body `case "/delexecutor"`; `none` is the panic of a `Close()`.
The notices are written to `messenger`, whose blocking is not modelled. -/
def handleDelExecutor (env : Env) (disk : config.Disk) (s : State) (tgcmd : TgCommad)
    (tgcmdPayload : String) : Option State :=
  let name := tgcmdPayload
  if name = "" then some (s.emit (Effect.Output tgcmd.Chatid "Usage: /delexecutor <name>\nE.g.: /delexecutor myssh"))
  else if name = config.DEFAULT_EXECUTOR then
    some (s.emit (Effect.Output tgcmd.Chatid "default executor can NOT be deleted"))
  else
    match config.DelExecutor disk s.ConfigData name with
    | (cs, some err) =>
      some ({ s with ConfigData := cs }.emit
        (Effect.Output tgcmd.Chatid ("Failed to delete executor '" ++ name ++ "': " ++ err)))
    | (cs, none) =>
      let s1 : State :=
        { s with ConfigData := cs }.emit
          (Effect.Output tgcmd.Chatid ("Successfully deleted executor " ++ name))
      let closed := s1.executorSessions.filter (fun e => belongsTo e.1 name)
      if !closed.all (fun e => env.Closes e.2.Executor.id) then none
      else
        let s2 : State :=
          { s1.emits (closed.map (fun e => Effect.Close e.2.Executor.id)) with
            executorSessions := s1.executorSessions.filter (fun e => !(belongsTo e.1 name)) }
        let reset := s2.activeSessions.filter (fun e => strings.StartsWith e.2 (name ++ "_"))
        some { s2.emits (reset.map (fun e =>
                Effect.Messenger { Chatid := e.1, Data := MSG_RESET_EXECUTOR })) with
              activeSessions :=
                s2.activeSessions.filter (fun e => !(strings.StartsWith e.2 (name ++ "_"))) }

/-- The loop body `case "/executor"`. -/
def handleExecutor (env : Env) (s : State) (tgcmd : TgCommad) (tgcmdPayload : String) :
    Option State :=
  let sessionName := s.activeSessions.GetActiveSessionName tgcmd.Chatid
  let name := (util.SplitFirstAndOthers tgcmdPayload).1
  let extraOption := (util.SplitFirstAndOthers tgcmdPayload).2
  if name = "" then
    match GoMap.get s.executorSessions sessionName with
    | none => none
    | some _ => some (s.emit (Effect.Answer tgcmd.Chatid))
  else if sessionName = name ∨ strings.StartsWith sessionName (name ++ "_") then
    some (s.emit (Effect.Output tgcmd.Chatid ("Already using " ++ name ++ " executor")))
  else if name = config.DEFAULT_EXECUTOR then
    some ({ s with activeSessions := GoMap.delete s.activeSessions tgcmd.Chatid }.emit
      (Effect.Output tgcmd.Chatid MSG_RESET_EXECUTOR))
  else
    match config.GetExecutor s.ConfigData name with
    | none => some (s.emit (Effect.Output tgcmd.Chatid (MSG_EXECUTOR_NOT_FOUND_TPL name)))
    | some executorConfig =>
      let newSessionName : String :=
        if !executorConfig.Global then executorConfig.Name ++ ("_" ++ fmt.d tgcmd.Chatid)
        else executorConfig.Name
      match GoMap.get s.executorSessions newSessionName with
      | some executorSession =>
        some ({ s with activeSessions := GoMap.set s.activeSessions tgcmd.Chatid newSessionName }.emit
          (Effect.Output tgcmd.Chatid
            ("Active executor changed to '" ++ executorSession.Executor.Name ++ "'")))
      | none =>
        match executor.Create env.Registry executorConfig extraOption with
        | Except.error err =>
          some ((s.emit (Effect.Create executorConfig.Name extraOption false)).emit
            (Effect.Output tgcmd.Chatid
              ("Failed to create executor '" ++ executorConfig.Name ++ "': " ++ err)))
        | Except.ok chan =>
          let newExecutor : ExecutorRef :=
            { id := s.nextId, Name := executorConfig.Name, Chan := chan }
          let executorSession : TgExecutorSession :=
            { Executor := newExecutor, Chatid := tgcmd.Chatid, Ready := false }
          let s1 : State :=
            { s.emit (Effect.Create executorConfig.Name extraOption true) with
              nextId := s.nextId + 1,
              executorSessions := GoMap.set s.executorSessions newSessionName executorSession }
          let s2 : State := if chan then s1.emit (Effect.Forward newExecutor.id) else s1
          let s3 : State := s2.emit (Effect.Open newExecutor.id)
          some ({ s3 with
              activeSessions := GoMap.set s3.activeSessions tgcmd.Chatid newSessionName }.emit
            (Effect.Output tgcmd.Chatid
              ("Active executor changed to '" ++ executorSession.Executor.Name ++ "'")))

/-- The variable `CTRL_SEQUENCE_REGEXP`, the pattern
`^(?i)(Ctrl[-\+]|\^)(?P<char>\S)$`, applied with `FindStringSubmatch`: the
submatch `char` when the whole line matches.  `\S` is any character other than
tab, newline, form feed, carriage return and space. -/
def CTRL_SEQUENCE_REGEXP (cmdline : String) : Option String :=
  let nonSpace (c : Char) : Bool :=
    !(c == '\t' || c == '\n' || c == '\x0c' || c == '\r' || c == ' ')
  match cmdline.data with
  | [a, c] => if a = '^' ∧ nonSpace c then some (String.mk [c]) else none
  | [c1, c2, c3, c4, sep, c] =>
    if (c1 = 'C' ∨ c1 = 'c') ∧ (c2 = 'T' ∨ c2 = 't') ∧ (c3 = 'R' ∨ c3 = 'r') ∧
        (c4 = 'L' ∨ c4 = 'l') ∧ (sep = '-' ∨ sep = '+') ∧ nonSpace c then
      some (String.mk [c])
    else none
  | _ => none

/-- The function `strings.ReplaceAll(s, "\n", "\\n")` of `command_run`. -/
def escapeNewlines (s : String) : String :=
  String.mk (s.data.flatMap (fun c => if c = '\n' then ['\\', 'n'] else [c]))

/-- The function `command_run`.  `session` is `none` for a nil pointer.  After
`Exec` the channel it returns is relayed into `output`, which is closed when
that channel is (at once when it is nil); this relay is not modelled. -/
def command_run (env : Env) (s : State) (session : Option TgExecutorSession) (chatid : Int)
    (cmdline : String) : Option State :=
  match session with
  | none => none
  | some session =>
    let cmdline := strings.TrimSpace cmdline
    if !session.Ready then
      some ((s.emit (Effect.Output chatid
        "The executor is not ready (still openning). To stop it, send /close")).emit
        (Effect.CloseOutput chatid))
    else if cmdline = "" then
      some ((s.emit (Effect.Output chatid
        "You must pass a cmdline to /run. E.g.: \"/run pwd\"")).emit (Effect.CloseOutput chatid))
    else if strings.StartsWith cmdline "^|" then
      let rawdata := escapeNewlines (String.mk (cmdline.data.drop 2))
      let rawdata := if '"' ∉ rawdata.data then "\"" ++ rawdata ++ "\"" else rawdata
      match env.Unquote rawdata with
      | none =>
        some ((s.emit (Effect.Output chatid "Invalid raw input")).emit (Effect.CloseOutput chatid))
      | some cmdline => some (s.emit (Effect.Exec session.Executor.id cmdline true))
    else
      match CTRL_SEQUENCE_REGEXP cmdline with
      | some char =>
        match (env.ToUpper char).data with
        | [] => none
        | c :: _ =>
          let charByte : Nat := ((String.utf8EncodeChar c).headD 0).toNat &&& 0b0111111
          some (s.emit (Effect.Exec session.Executor.id (String.mk [Char.ofNat charByte]) true))
      | none => some (s.emit (Effect.Exec session.Executor.id cmdline false))

/-- The session `executorSessions[activeSessions.GetActiveSessionName(chatid)]`. -/
def activeSession (s : State) (chatid : Int) : Option TgExecutorSession :=
  GoMap.get s.executorSessions (s.activeSessions.GetActiveSessionName chatid)

/-- The loop body `case "callback"`. -/
def handleCallback (env : Env) (disk : config.Disk) (s : State) (tgcmd : TgCommad) :
    Option State :=
  let session := activeSession s tgcmd.Chatid
  match strings.Split tgcmd.C.CallbackData '_' with
  | [action, index] =>
    if action = "" ∨ index = "" then some s
    else
      match tgcmd.C.CallbackMessage with
      | none => some s
      | some text =>
        let lines := strings.Split text '\n'
        if strings.StartsWith text "History " then
          let cmdline := util.FindLineDataByFirstField lines index
          if cmdline = "" then some s
          else if action = "run" then
            command_run env (s.emit (Effect.Output tgcmd.Chatid cmdline)) session tgcmd.Chatid
              cmdline
          else if action = "add" then
            match session with
            | none => none
            | some session =>
              some ({ s with ConfigData :=
                  (config.AddExecutorButton disk s.ConfigData session.Executor.Name cmdline).1 }.emit
                (Effect.Output tgcmd.Chatid ("Add '" ++ cmdline ++ "' to buttons")))
          else some s
        else if strings.StartsWith text "Buttons " then
          let cmdline := util.FindLineDataByFirstField lines index
          if cmdline = "" then some s
          else if action = "del" then
            match session with
            | none => none
            | some session =>
              match config.DelExecutorButton disk s.ConfigData session.Executor.Name cmdline with
              | (cs, none) =>
                some ({ s with ConfigData := cs }.emit
                  (Effect.Output tgcmd.Chatid ("Del button '" ++ cmdline ++ "'")))
              | (cs, some _) => some { s with ConfigData := cs }
          else some s
        else if strings.StartsWith text "Commands " then
          some { s with ConfigData := (config.DelCmd disk s.ConfigData index).1 }
        else if strings.StartsWith text "Executors " then
          if action = "del" then
            some { s with ConfigData := (config.DelExecutor disk s.ConfigData index).1 }
          else some s
        else if strings.StartsWith text "Files " then
          if (lines.headD "").utf8ByteSize < 8 then none else some s
        else some s
  | _ => some s

/-- The first column of the variable `commands`. -/
def commands : List String :=
  ["cancel", "close", "executor", "run", "addcmd", "delcmd", "addexecutor", "delexecutor",
   "setsecret", "addbtn", "delbtn", "clearbtn", "getfile", "resetsecret", "refresh", "raw", "pwd",
   "cd", "buttons", "executors", "history", "files", "services", "closeall", "help", "start"]

/-- The loop bodies that change only `config.ConfigData`: `/reload`,
`/addexecutor`, `/setsecret`, `/clearbtn`, `/addcmd` and `/delcmd`. -/
def handleConfig (env : Env) (disk : config.Disk) (s : State) (tgcmd : TgCommad)
    (tgcmdName tgcmdPayload : String) : State :=
  let first := (util.SplitFirstAndOthers tgcmdPayload).1
  let others := (util.SplitFirstAndOthers tgcmdPayload).2
  if tgcmdName = "/reload" then
    { s with ConfigData := (config.Reload disk s.ConfigData).1 }.emit (Effect.Answer tgcmd.Chatid)
  else if tgcmdName = "/addexecutor" then
    let executorType := (util.SplitFirstAndOthers others).1
    let executorConfig := (util.SplitFirstAndOthers others).2
    if first = "" ∨ executorType = "" then s.emit (Effect.Answer tgcmd.Chatid)
    else if (executor.GetRegInfo env.Registry executorType).isNone then
      s.emit (Effect.Answer tgcmd.Chatid)
    else
      { s with ConfigData :=
          (config.AddExecutor disk s.ConfigData
            { Name := first, Type' := executorType, Config := executorConfig }).1 }.emit
        (Effect.Answer tgcmd.Chatid)
  else if tgcmdName = "/setsecret" then
    if first = "" then s.emit (Effect.Answer tgcmd.Chatid)
    else
      match config.SetExecutorSecret disk s.ConfigData first others with
      | (cs, some _) => { s with ConfigData := cs }.emit (Effect.Answer tgcmd.Chatid)
      | (cs, none) =>
        if others ≠ "" then
          let notice : TgGlobalMsg :=
            { Type' := TYPE_GLOBAL, Chatid := tgcmd.Chatid,
              Data := "Successfully set executor '" ++ first ++ "' secret." }
          { s with ConfigData := cs }.emit (Effect.Messenger notice)
        else { s with ConfigData := cs }.emit (Effect.Answer tgcmd.Chatid)
  else if tgcmdName = "/clearbtn" then
    if first = "" then s.emit (Effect.Answer tgcmd.Chatid)
    else
      { s with ConfigData := (config.ClearExecutorButtons disk s.ConfigData first).1 }.emit
        (Effect.Answer tgcmd.Chatid)
  else if tgcmdName = "/addcmd" then
    if first = "" ∨ others = "" then s.emit (Effect.Answer tgcmd.Chatid)
    else if first ∈ commands then s.emit (Effect.Answer tgcmd.Chatid)
    else
      { s with ConfigData := (config.AddCmd disk s.ConfigData { Name := first, Cmd := others }).1 }.emit
        (Effect.Answer tgcmd.Chatid)
  else if tgcmdName = "/delcmd" then
    if tgcmdPayload = "" then s.emit (Effect.Answer tgcmd.Chatid)
    else
      { s with ConfigData := (config.DelCmd disk s.ConfigData tgcmdPayload).1 }.emit
        (Effect.Answer tgcmd.Chatid)
  else s

/-- The loop bodies that use the active session of the conversation and leave
the registry alone: `/buttons`, `/history`, `/addbtn`, `/delbtn`, `/cancel`,
`/run` and `/raw`. -/
def handleActive (env : Env) (disk : config.Disk) (s : State) (tgcmd : TgCommad)
    (tgcmdName tgcmdPayload : String) : Option State :=
  if tgcmdName = "/run" then
    if tgcmdPayload = "" then some (s.emit (Effect.Answer tgcmd.Chatid))
    else command_run env s (activeSession s tgcmd.Chatid) tgcmd.Chatid tgcmdPayload
  else if tgcmdName = "/raw" then
    if tgcmdPayload = "" then some (s.emit (Effect.Answer tgcmd.Chatid))
    else command_run env s (activeSession s tgcmd.Chatid) tgcmd.Chatid ("^|" ++ tgcmdPayload)
  else
    match activeSession s tgcmd.Chatid with
    | none => none
    | some session =>
      if tgcmdName = "/cancel" then some (s.emit (Effect.Cancel session.Executor.id))
      else if tgcmdName = "/addbtn" then
        if tgcmdPayload = "" then some (s.emit (Effect.Answer tgcmd.Chatid))
        else
          some ({ s with ConfigData :=
              (config.AddExecutorButton disk s.ConfigData session.Executor.Name tgcmdPayload).1 }.emit
            (Effect.Answer tgcmd.Chatid))
      else if tgcmdName = "/delbtn" then
        if tgcmdPayload = "" then some (s.emit (Effect.Answer tgcmd.Chatid))
        else
          some ({ s with ConfigData :=
              (config.DelExecutorButton disk s.ConfigData session.Executor.Name tgcmdPayload).1 }.emit
            (Effect.Answer tgcmd.Chatid))
      else some (s.emit (Effect.Answer tgcmd.Chatid))

/-- The `switch tgcmdName` of `event_loop`.  The cases that only answer from
the file system, the services proxy or fixed texts (`/executors`, `/files`,
`/services`, `/cmds`, `/getfile`, `document`, `/help`, `/start`, `/refresh`,
`/resetsecret`, `/cd`, `/pwd`) and unknown names leave the state as it is. -/
def dispatch (env : Env) (disk : config.Disk) (s : State) (tgcmd : TgCommad)
    (tgcmdName tgcmdPayload : String) : Option State :=
  if tgcmdName = "/close" then handleClose env s tgcmd tgcmdPayload
  else if tgcmdName = "/closeall" then handleCloseAll env s
  else if tgcmdName = "/delexecutor" then handleDelExecutor env disk s tgcmd tgcmdPayload
  else if tgcmdName = "/executor" then handleExecutor env s tgcmd tgcmdPayload
  else if tgcmdName = "callback" then handleCallback env disk s tgcmd
  else if tgcmdName ∈ ["/buttons", "/history", "/addbtn", "/delbtn", "/cancel", "/run", "/raw"] then
    handleActive env disk s tgcmd tgcmdName tgcmdPayload
  else if tgcmdName ∈ ["/reload", "/addexecutor", "/setsecret", "/clearbtn", "/addcmd", "/delcmd"] then
    some (handleConfig env disk s tgcmd tgcmdName tgcmdPayload)
  else some s

/-- The `case tgcmd := <-commander` branch of `event_loop`: a command named
`/executor_<name>` is rewritten to `/executor` with `<name>` put in front of
the payload, then the `switch` is taken. -/
def handleCommand (env : Env) (disk : config.Disk) (s : State) (tgcmd : TgCommad) :
    Option State :=
  if strings.StartsWith tgcmd.Name "/executor_" then
    dispatch env disk s tgcmd "/executor"
      ((if strings.TrimLeading tgcmd.Name "/executor_" ≠ "" ∧ tgcmd.Payload ≠ "" then
          strings.TrimLeading tgcmd.Name "/executor_" ++ " "
        else strings.TrimLeading tgcmd.Name "/executor_") ++ tgcmd.Payload)
  else dispatch env disk s tgcmd tgcmd.Name tgcmd.Payload

/-- The `case msg := <-messenger` branch of `event_loop`. -/
def handleMessage (s : State) (msg : TgGlobalMsg) : Option State :=
  let sessionName : String :=
    if msg.GetSessionName = "" then s.activeSessions.GetActiveSessionName msg.Chatid
    else msg.GetSessionName
  let isFromActiveSession := s.activeSessions.IsActiveSession msg.Chatid sessionName
  match util.Chunks msg.Data constants.TG_TEXT_LIMIT with
  | none => none
  | some datas =>
    if msg.Type' = TYPE_REPLY then
      match GoMap.get s.executorSessions sessionName with
      | some _ => some (s.emits (datas.map (fun data => Effect.Reply msg.Chatid data)))
      | none => some s
    else if msg.Type' = TYPE_CLOSE then
      match GoMap.get s.executorSessions sessionName with
      | none => some s
      | some _ =>
        let s1 : State :=
          { s with executorSessions := GoMap.delete s.executorSessions sessionName }.emit
            (Effect.Send msg.Chatid ("Executor '" ++ msg.Executor ++ "' closed"))
        if isFromActiveSession then
          let s2 : State := { s1 with activeSessions := GoMap.delete s1.activeSessions msg.Chatid }
          match GoMap.get s2.executorSessions (s2.activeSessions.GetActiveSessionName msg.Chatid) with
          | none => none
          | some _ => some (s2.emit (Effect.Send msg.Chatid MSG_RESET_EXECUTOR))
        else some s1
    else if msg.Type' = TYPE_GLOBAL then
      some (s.emits (datas.map (fun data => Effect.Send msg.Chatid data)))
    else if isFromActiveSession then
      match datas, GoMap.get s.executorSessions sessionName with
      | [], _ => some s
      | _ :: _, none => none
      | _ :: _, some _ => some (s.emits (datas.map (fun data => Effect.Send msg.Chatid data)))
    else some s

/-- The task started by `/executor` that forwards `newExecutor.Chan()`: the
message it puts on `messenger` for a received `data` (`some data`) and when the
channel is closed (`none`), after which it ends. -/
def forwardTask (newExecutor : ExecutorRef) (chatid : Int) (received : Option String) :
    TgGlobalMsg :=
  match received with
  | none => { Type' := TYPE_CLOSE, Executor := newExecutor.Name, Chatid := chatid }
  | some data => { Executor := newExecutor.Name, Data := data, Chatid := chatid }

/-- The task started by `/executor` that calls `Open()`, when `Open()` returned
the error `err`: the message it puts on `messenger` before it returns. -/
def openTaskFailed (executorSession : TgExecutorSession) (err : String) : TgGlobalMsg :=
  { Executor := executorSession.Executor.Name, Chatid := executorSession.Chatid,
    Data := "Failed to open executor '" ++ executorSession.Executor.Name ++ "': " ++ err }

/-- The same task when `Open()` returned nil: `executorSession.Ready = true`,
seen through the table (the session object is the one that owns executor `id`). -/
def openTaskDone (s : State) (id : Nat) : State :=
  { s with executorSessions := s.executorSessions.map (fun e =>
      if e.2.Executor.id = id then (e.1, { e.2 with Ready := true }) else e) }

/-- One thing that happens to the loop's state: a command taken from
`commander` (with what the configuration file layer answers while it is
handled), a message taken from `messenger`, or the completion of a successful
`Open()` in its task. -/
inductive Event where
  | command (tgcmd : TgCommad) (disk : config.Disk)
  | message (msg : TgGlobalMsg)
  | opened (id : Nat)

/-- Handling one event; `none` is a panic of the process. -/
def step (env : Env) (s : State) (ev : Event) : Option State :=
  match ev with
  | Event.command tgcmd disk => handleCommand env disk s tgcmd
  | Event.message msg => handleMessage s msg
  | Event.opened id => some (openTaskDone s id)

/-- Handling a sequence of events one after another. -/
def run (env : Env) (s : State) : List Event → Option State
  | [] => some s
  | ev :: evs =>
    match step env s ev with
    | none => none
    | some s' => run env s' evs

/-! ### Vocabulary of the statements -/

/-- The trace `t'` is the trace `t` with further actions put in front (newer),
and each of those actions satisfies `P`. -/
def Extends (P : Effect → Prop) (t t' : List Effect) : Prop :=
  ∃ new : List Effect, t' = new ++ t ∧ ∀ e ∈ new, P e

/-- The number of successful constructor calls recorded in a trace. -/
def constructed (trace : List Effect) : Nat :=
  (trace.filter (fun e =>
    match e with
    | Effect.Create _ _ true => true
    | _ => false)).length

/-- The number of constructor calls, successful or not, recorded in a trace. -/
def createCalls (trace : List Effect) : Nat :=
  (trace.filter (fun e =>
    match e with
    | Effect.Create _ _ _ => true
    | _ => false)).length

/-- The sessions of the table whose executor answers `name` to `Name()`. -/
def sessionsOf (s : State) (name : String) : List (String × TgExecutorSession) :=
  s.executorSessions.filter (fun e => e.2.Executor.Name == name)

/-- The `Shell` executor of instance `id`, first in state `sh`, after the
method calls on it that a trace records (the newest action is first): `Exec`
and `Clear` are the recorded methods that write its fields. -/
def shellAfter (os : shell.OS) (id : Nat) (sh : shell.Shell) : List Effect → shell.Shell
  | [] => sh
  | Effect.Exec i cmdline isRaw :: t =>
    if i = id then (shell.Exec os (shellAfter os id sh t) cmdline isRaw).1
    else shellAfter os id sh t
  | Effect.Clear i :: t =>
    if i = id then shell.Clear (shellAfter os id sh t) else shellAfter os id sh t
  | _ :: t => shellAfter os id sh t

/-- The `Ssh` executor of instance `id`, first in state `sh`, after the method
calls on it that a trace records (the newest action is first). -/
def sshAfter (id : Nat) (sh : ssh.Ssh) : List Effect → ssh.Ssh
  | [] => sh
  | Effect.Exec i cmdline isRaw :: t =>
    if i = id then (ssh.Exec (sshAfter id sh t) cmdline isRaw).1 else sshAfter id sh t
  | Effect.Clear i :: t =>
    if i = id then ssh.Clear (sshAfter id sh t) else sshAfter id sh t
  | _ :: t => sshAfter id sh t

/-- The number of `Exec` calls that a trace records. -/
def execCalls (trace : List Effect) : Nat :=
  (trace.filter (fun e =>
    match e with
    | Effect.Exec _ _ _ => true
    | _ => false)).length

/-! ### Sample inputs of the witnesses -/

/-- The text between the quotes of a double-quoted literal with the escapes
backslash-n, backslash-t, backslash-r, backslash-backslash and backslash-quote
replaced; `none` for any other backslash, a bare quote or a bare newline. -/
def sampleUnescape : List Char → Option (List Char)
  | [] => some []
  | c :: t =>
    if c = '\\' then
      match t with
      | [] => none
      | e :: u =>
        if e = 'n' then (sampleUnescape u).map (fun r => '\n' :: r)
        else if e = 't' then (sampleUnescape u).map (fun r => '\t' :: r)
        else if e = 'r' then (sampleUnescape u).map (fun r => '\r' :: r)
        else if e = '\\' then (sampleUnescape u).map (fun r => '\\' :: r)
        else if e = '"' then (sampleUnescape u).map (fun r => '"' :: r)
        else none
    else if c = '"' ∨ c = '\n' then none
    else (sampleUnescape t).map (fun r => c :: r)

/-- A sample for the parameter `Unquote`: double-quoted literals with
single-character escapes are unescaped, every other input is an error. -/
def sampleUnquote (s : String) : Option String :=
  match s.data with
  | [] => none
  | q :: r =>
    if q = '"' ∧ r.getLast? = some '"' then (sampleUnescape r.dropLast).map String.mk
    else none

/-- A sample of what the loop is linked with for raw input: no registered
type, the sample `Unquote`, a `ToUpper` that maps the letters `a`..`z`, and
executors whose `Close()` returns. -/
def sampleRawEnv : Env :=
  { Registry := [],
    Unquote := sampleUnquote,
    ToUpper := fun s => String.mk (s.data.map Char.toUpper),
    Closes := fun _ => true }

/-- A sample operating system for the builtins: the working directory is
`/root`, and `cd` succeeds into every directory with a non-empty name. -/
def sampleOS : shell.OS :=
  { Cd := fun dir => if dir = "" then Except.error "no such file or directory" else Except.ok dir,
    Getwd := "/root" }

/-- A sample of what `NewExecutor` is linked with: tokens are separated by
single spaces, no token is a flag, and the current user is `alice`. -/
def sampleLinked : ssh.Linked :=
  { Split := fun s => some ((strings.Split s ' ').filter (fun w => w ≠ "")),
    ParseArgs := fun args => some ({}, args),
    Current := some "alice" }

/-- A registry with the two registered types, whose constructors succeed with a
persistent channel, and executors whose `Close()` returns; the two library
functions are not used by the samples. -/
def sampleEnv : Env :=
  { Registry := [{ Name := "shell", Creator := fun _ _ => Except.ok true },
                 { Name := "ssh", Creator := fun _ _ => Except.ok true }],
    Unquote := fun _ => none,
    ToUpper := fun s => s,
    Closes := fun _ => true }

/-- A configuration with a global executor `g` and a per-conversation executor `x`. -/
def sampleConfig : config.ConfigStruct :=
  { Executors := [{ Name := "g", Type' := "ssh", Config := "example.com", Global := true },
                  { Name := "x", Type' := "ssh", Config := "example.org" }] }

/-- A configuration with two per-conversation executors, `a` and `a_b`. -/
def sampleUnderscore : config.ConfigStruct :=
  { Executors := [{ Name := "a", Type' := "ssh", Config := "example.com" },
                  { Name := "a_b", Type' := "ssh", Config := "example.org" }] }

/-- The default session of `Start`. -/
def sampleShell : TgExecutorSession :=
  { Executor := { id := 0, Name := "shell", Chan := false }, Ready := true }

/-- A state in which conversation 42 uses its session of `x`. -/
def sampleBusy : State :=
  { executorSessions :=
      [("shell", sampleShell),
       ("x_42", { Executor := { id := 1, Name := "x", Chan := true }, Chatid := 42, Ready := true })],
    activeSessions := [(42, "x_42")],
    ConfigData := sampleConfig,
    nextId := 2 }

/-- The session that `/executor g` from conversation 42 creates at the start state. -/
def sampleGlobal : TgExecutorSession :=
  { Executor := { id := 1, Name := "g", Chan := true }, Chatid := 42, Ready := false }

/-- The command `/executor g` from conversation 42. -/
def sampleSwitch : Event :=
  Event.command { Name := "/executor", Payload := "g", Chatid := 42 } {}

end telegram

end Tgshell

/-! ## Theorems -/

namespace Tgshell

namespace GoMap

theorem get_delete_ne {K V : Type} [DecidableEq K] (m : List (K × V)) {k k' : K} (h : k' ≠ k) :
    get (delete m k) k' = get m k' := by
  induction m with
  | nil => rfl
  | cons e m ih =>
    obtain ⟨a, v⟩ := e
    by_cases ha : a = k
    · subst ha
      have : a ≠ k' := fun h' => h h'.symm
      simp [delete, get, this] at ih ⊢
      exact ih
    · by_cases hk : a = k'
      · subst hk
        simp [delete, get, List.filter, ha]
      · simp [delete, get, ha, hk] at ih ⊢
        exact ih

theorem get_delete_self {K V : Type} [DecidableEq K] (m : List (K × V)) (k : K) :
    get (delete m k) k = none := by
  induction m with
  | nil => rfl
  | cons e m ih =>
    obtain ⟨a, v⟩ := e
    by_cases ha : a = k
    · simp [delete, get, ha] at ih ⊢
      exact ih
    · simp [delete, get, ha] at ih ⊢
      exact ih

theorem get_set_self {K V : Type} [DecidableEq K] (m : List (K × V)) (k : K) (v : V) :
    get (set m k v) k = some v := by
  induction m with
  | nil => simp [set, get]
  | cons e m ih =>
    obtain ⟨a, w⟩ := e
    by_cases ha : a = k
    · simp [set, get, ha]
    · simp [set, get, ha, ih]

theorem get_set_ne {K V : Type} [DecidableEq K] (m : List (K × V)) {k k' : K} (v : V)
    (h : k' ≠ k) : get (set m k v) k' = get m k' := by
  induction m with
  | nil =>
    have : k ≠ k' := fun h' => h h'.symm
    simp [set, get, this]
  | cons e m ih =>
    obtain ⟨a, w⟩ := e
    by_cases ha : a = k
    · subst ha
      have : a ≠ k' := fun h' => h h'.symm
      simp [set, get, this]
    · by_cases hk : a = k'
      · subst hk
        simp [set, get, ha]
      · simp [set, get, ha, hk, ih]

theorem get_filter_key {K V : Type} [DecidableEq K] (m : List (K × V)) (q : K → Bool) (k : K) :
    get (m.filter (fun e => q e.1)) k = if q k then get m k else none := by
  induction m with
  | nil => simp [get]
  | cons e m ih =>
    obtain ⟨a, v⟩ := e
    by_cases hq : q a = true
    · by_cases hk : a = k
      · subst hk
        simp [List.filter, get, hq]
      · simp [List.filter, get, hq, hk, ih]
    · have hq' : q a = false := by simpa using hq
      by_cases hk : a = k
      · subst hk
        simp [List.filter, hq', ih]
      · simp [List.filter, get, hq', hk, ih]

theorem mem_of_get {K V : Type} [DecidableEq K] {m : List (K × V)} {k : K} {v : V}
    (h : get m k = some v) : (k, v) ∈ m := by
  induction m with
  | nil => simp [get] at h
  | cons e m ih =>
    obtain ⟨a, w⟩ := e
    by_cases ha : a = k
    · simp [get, ha] at h
      simp [ha, h]
    · simp [get, ha] at h
      exact List.mem_cons_of_mem _ (ih h)

end GoMap

theorem not_startsWith_shell (name : String) :
    strings.StartsWith config.DEFAULT_EXECUTOR (name ++ "_") = false := by
  cases hb : strings.StartsWith config.DEFAULT_EXECUTOR (name ++ "_") with
  | false => rfl
  | true =>
    exfalso
    unfold strings.StartsWith at hb
    rw [ List.isPrefixOf_iff_prefix] at hb
    have hmem : '_' ∈ config.DEFAULT_EXECUTOR.data := by
      apply hb.subset
      simp [String.data_append]
    revert hmem
    decide

end Tgshell

namespace Tgshell
namespace telegram

theorem Extends.refl (P : Effect → Prop) (t : List Effect) : Extends P t t :=
  ⟨[], rfl, by simp⟩

theorem Extends.cons {P : Effect → Prop} {t t' : List Effect} {e : Effect}
    (he : P e) (h : Extends P t t') : Extends P t (e :: t') := by
  obtain ⟨new, hn, hp⟩ := h
  refine ⟨e :: new, by simp [hn], ?_⟩
  intro x hx
  rcases List.mem_cons.mp hx with rfl | hx
  · exact he
  · exact hp x hx

theorem Extends.append {P : Effect → Prop} {t t' : List Effect} {es : List Effect}
    (he : ∀ e ∈ es, P e) (h : Extends P t t') : Extends P t (es ++ t') := by
  obtain ⟨new, hn, hp⟩ := h
  refine ⟨es ++ new, by simp [hn], ?_⟩
  intro x hx
  rcases List.mem_append.mp hx with hx | hx
  · exact he x hx
  · exact hp x hx

theorem Extends.mono {P Q : Effect → Prop} {t t' : List Effect} (h : Extends P t t')
    (hpq : ∀ e, P e → Q e) : Extends Q t t' := by
  obtain ⟨new, hn, hp⟩ := h
  exact ⟨new, hn, fun e he => hpq e (hp e he)⟩

theorem Extends.trans {P : Effect → Prop} {t t' t'' : List Effect} (h : Extends P t t')
    (h' : Extends P t' t'') : Extends P t t'' := by
  obtain ⟨new, hn, hp⟩ := h
  obtain ⟨new', hn', hp'⟩ := h'
  refine ⟨new' ++ new, by simp [hn', hn], ?_⟩
  intro x hx
  rcases List.mem_append.mp hx with hx | hx
  · exact hp' x hx
  · exact hp x hx

/-- Handlers other than the registry handlers: the registry is untouched and nothing is closed. -/
theorem command_run_keeps (env : Env) (s s' : State) (session : Option TgExecutorSession)
    (chatid : Int) (cmdline : String) (h : command_run env s session chatid cmdline = some s') :
    s'.executorSessions = s.executorSessions ∧ s'.activeSessions = s.activeSessions ∧
      s'.ConfigData = s.ConfigData ∧ s'.nextId = s.nextId ∧
      Extends (fun e => (∀ id, e ≠ Effect.Close id) ∧ ∀ n x b, e ≠ Effect.Create n x b)
        s.trace s'.trace := by
  unfold command_run at h
  repeat' (first | split at h | (dsimp only at h; split at h))
  all_goals first | (simp at h; done) | skip
  all_goals
    injection h with h
    subst h
    refine ⟨rfl, rfl, rfl, rfl, ?_⟩
    try simp only [State.emit, State.emits]
    repeat (first | exact Extends.refl _ _ | apply Extends.cons (by simp))


theorem handleCallback_keeps (env : Env) (disk : config.Disk) (s s' : State) (tgcmd : TgCommad)
    (h : handleCallback env disk s tgcmd = some s') :
    s'.executorSessions = s.executorSessions ∧ s'.activeSessions = s.activeSessions ∧
      s'.nextId = s.nextId ∧
      Extends (fun e => (∀ id, e ≠ Effect.Close id) ∧ ∀ n x b, e ≠ Effect.Create n x b)
        s.trace s'.trace := by
  unfold handleCallback at h
  repeat' (first | split at h | (dsimp only at h; split at h))
  all_goals try dsimp only at h
  all_goals first | (simp at h; done) | skip
  all_goals first
    | (injection h with h
       subst h
       refine ⟨rfl, rfl, rfl, ?_⟩
       try simp only [State.emit, State.emits]
       repeat (first | exact Extends.refl _ _ | apply Extends.cons (by simp)))
    | (obtain ⟨h1, h2, _, h4, h5⟩ := command_run_keeps _ _ _ _ _ _ h
       refine ⟨h1, h2, h4, ?_⟩
       exact Extends.trans (Extends.cons (by simp) (Extends.refl _ _)) h5)

theorem handleActive_keeps (env : Env) (disk : config.Disk) (s s' : State) (tgcmd : TgCommad)
    (tgcmdName tgcmdPayload : String)
    (h : handleActive env disk s tgcmd tgcmdName tgcmdPayload = some s') :
    s'.executorSessions = s.executorSessions ∧ s'.activeSessions = s.activeSessions ∧
      s'.nextId = s.nextId ∧
      Extends (fun e => (∀ id, e ≠ Effect.Close id) ∧ ∀ n x b, e ≠ Effect.Create n x b)
        s.trace s'.trace := by
  unfold handleActive at h
  repeat' split at h
  all_goals first | (simp at h; done) | skip
  all_goals first
    | (injection h with h
       subst h
       refine ⟨rfl, rfl, rfl, ?_⟩
       try simp only [State.emit, State.emits]
       repeat (first | exact Extends.refl _ _ | apply Extends.cons (by simp)))
    | (obtain ⟨h1, h2, _, h4, h5⟩ := command_run_keeps _ _ _ _ _ _ h
       exact ⟨h1, h2, h4, h5⟩)

theorem handleConfig_keeps (env : Env) (disk : config.Disk) (s : State) (tgcmd : TgCommad)
    (tgcmdName tgcmdPayload : String) :
    (handleConfig env disk s tgcmd tgcmdName tgcmdPayload).executorSessions = s.executorSessions ∧
      (handleConfig env disk s tgcmd tgcmdName tgcmdPayload).activeSessions = s.activeSessions ∧
      (handleConfig env disk s tgcmd tgcmdName tgcmdPayload).nextId = s.nextId ∧
      Extends (fun e => (∀ id, e ≠ Effect.Close id) ∧ ∀ n x b, e ≠ Effect.Create n x b)
        s.trace (handleConfig env disk s tgcmd tgcmdName tgcmdPayload).trace := by
  unfold handleConfig
  repeat' (first | split | (dsimp only; split))
  all_goals
    refine ⟨rfl, rfl, rfl, ?_⟩
    try simp only [State.emit, State.emits]
    repeat (first | exact Extends.refl _ _ | apply Extends.cons (by simp))

end telegram
end Tgshell

namespace Tgshell
namespace util

theorem UniqueSliceLoop_spec {T : Type} [DecidableEq T] (s keys list : List T)
    (hnd : list.Nodup) (hk : ∀ x, x ∈ list → x ∈ keys) :
    (UniqueSliceLoop none s keys list).Nodup ∧
      (UniqueSliceLoop none s keys list).length ≤ list.length + s.length := by
  induction s generalizing keys list with
  | nil => simp [UniqueSliceLoop, hnd]
  | cons entry s ih =>
    unfold UniqueSliceLoop
    by_cases hmem : entry ∈ keys
    · simp only [hmem, decide_True, Bool.not_true, Bool.false_or]
      have h := ih keys list hnd hk
      simp at h ⊢
      exact ⟨h.1, by omega⟩
    · simp only [hmem, decide_False, Bool.not_false, Bool.true_or, if_true]
      have hnd' : (list ++ [entry]).Nodup := by
        rw [List.nodup_append]
        refine ⟨hnd, List.nodup_singleton _, ?_⟩
        intro a ha hb
        simp at hb
        subst hb
        exact hmem (hk _ ha)
      have hk' : ∀ x, x ∈ list ++ [entry] → x ∈ entry :: keys := by
        intro x hx
        rcases List.mem_append.mp hx with hx | hx
        · exact List.mem_cons_of_mem _ (hk x hx)
        · simp at hx
          simp [hx]
      have h := ih (entry :: keys) (list ++ [entry]) hnd' hk'
      simp at h ⊢
      exact ⟨h.1, by omega⟩

theorem AppendUniqueCapSlice_nodup {T : Type} [DecidableEq T] (s : List T) (cap : Int)
    (els : List T) : (AppendUniqueCapSlice s cap els).Nodup := by
  have h := (UniqueSliceLoop_spec (s ++ els).reverse [] [] List.nodup_nil (by simp)).1
  have hns : (UniqueSliceInLastOrder (s ++ els) none).Nodup := by
    unfold UniqueSliceInLastOrder UniqueSlice
    exact List.nodup_reverse.mpr h
  unfold AppendUniqueCapSlice
  simp only []
  split_ifs
  · exact (List.drop_sublist _ _).nodup hns
  · exact hns

theorem AppendUniqueCapSlice_length {T : Type} [DecidableEq T] (s : List T) (cap : Int)
    (els : List T) (hcap : cap > 0) : ((AppendUniqueCapSlice s cap els).length : Int) ≤ cap := by
  unfold AppendUniqueCapSlice
  simp only []
  split_ifs with h
  · rw [List.length_drop]
    omega
  · have : ¬ ((UniqueSliceInLastOrder (s ++ els) none).length : Int) > cap := fun h' => h ⟨hcap, h'⟩
    omega

end util
end Tgshell

namespace Tgshell

namespace GoMap

theorem mem_set {K V : Type} [DecidableEq K] (m : List (K × V)) (k : K) (v : V) (e : K × V)
    (h : e ∈ set m k v) : e = (k, v) ∨ e ∈ m := by
  induction m with
  | nil => simpa [set] using h
  | cons x m ih =>
    obtain ⟨a, w⟩ := x
    by_cases ha : a = k
    · simp [set, ha] at h
      rcases h with h | h
      · exact Or.inl h
      · exact Or.inr (List.mem_cons_of_mem _ h)
    · simp [set, ha] at h
      rcases h with h | h
      · exact Or.inr (by simp [h])
      · rcases ih h with h | h
        · exact Or.inl h
        · exact Or.inr (List.mem_cons_of_mem _ h)

theorem set_of_get_none {K V : Type} [DecidableEq K] (m : List (K × V)) (k : K) (v : V)
    (h : get m k = none) : set m k v = m ++ [(k, v)] := by
  induction m with
  | nil => rfl
  | cons x m ih =>
    obtain ⟨a, w⟩ := x
    by_cases ha : a = k
    · simp [get, ha] at h
    · simp [get, ha] at h
      simp [set, ha, ih h]

end GoMap

namespace config

theorem executorConfigMap_names (cs : ConfigStruct) :
    ∀ e ∈ executorConfigMap cs, e.2.Name = e.1 := by
  unfold executorConfigMap
  have key : ∀ (l : List ConfigExecutorStruct) (m : List (String × ConfigExecutorStruct)),
      (∀ e ∈ m, e.2.Name = e.1) →
      ∀ e ∈ l.foldl (fun m c => GoMap.set m c.Name c) m, e.2.Name = e.1 := by
    intro l
    induction l with
    | nil => intro m hm; simpa using hm
    | cons c l ih =>
      intro m hm
      simp only [List.foldl_cons]
      apply ih
      intro e he
      rcases GoMap.mem_set _ _ _ _ he with h | h
      · subst h; rfl
      · exact hm e h
  apply key
  apply key
  simp

theorem GetExecutor_name {cs : ConfigStruct} {name : String} {c : ConfigExecutorStruct}
    (h : GetExecutor cs name = some c) : c.Name = name :=
  executorConfigMap_names cs _ (GoMap.mem_of_get h)

end config
end Tgshell

namespace Tgshell
namespace telegram

theorem belongsTo_shell (name : String) (h : name ≠ config.DEFAULT_EXECUTOR) :
    belongsTo config.DEFAULT_EXECUTOR name = false := by
  unfold belongsTo
  rw [not_startsWith_shell]
  simp
  exact fun h' => h h'.symm

theorem handleClose_shell (env : Env) (s s' : State) (tgcmd : TgCommad) (p : String)
    (h : handleClose env s tgcmd p = some s') :
    GoMap.get s'.executorSessions config.DEFAULT_EXECUTOR =
        GoMap.get s.executorSessions config.DEFAULT_EXECUTOR ∧
      Extends (fun e => ∀ id, e = Effect.Close id →
          ∃ x ∈ s.executorSessions, x.1 ≠ config.DEFAULT_EXECUTOR ∧ x.2.Executor.id = id)
        s.trace s'.trace := by
  unfold handleClose at h
  generalize (if p = "" then s.activeSessions.GetActiveSessionName tgcmd.Chatid
    else if (GoMap.get s.executorSessions (sessionKey p tgcmd.Chatid)).isSome = true then
      sessionKey p tgcmd.Chatid
    else p) = sessionName at h
  dsimp only at h
  split at h
  · split at h
    · simp at h
    · injection h with h
      subst h
      refine ⟨rfl, ?_⟩
      simp only [State.emit]
      exact Extends.cons (by simp) (Extends.cons (by simp) (Extends.refl _ _))
  · rename_i hne
    split at h
    · injection h with h
      subst h
      refine ⟨rfl, ?_⟩
      simp only [State.emit]
      exact Extends.cons (by simp) (Extends.refl _ _)
    · rename_i session hget
      have hmem := GoMap.mem_of_get hget
      have hP : ∀ id, Effect.Close session.Executor.id = Effect.Close id →
          ∃ x ∈ s.executorSessions, x.1 ≠ config.DEFAULT_EXECUTOR ∧ x.2.Executor.id = id := by
        intro id hid
        injection hid with hid
        exact ⟨_, hmem, hne, hid⟩
      split at h
      · simp at h
      · split at h
        · injection h with h
          subst h
          refine ⟨GoMap.get_delete_ne _ (fun h' => hne h'.symm), ?_⟩
          simp only [State.emit]
          exact Extends.cons (by simp) (Extends.cons hP (Extends.refl _ _))
        · injection h with h
          subst h
          refine ⟨GoMap.get_delete_ne _ (fun h' => hne h'.symm), ?_⟩
          simp only [State.emit]
          exact Extends.cons hP (Extends.refl _ _)

theorem handleCloseAll_shell (env : Env) (s s' : State) (h : handleCloseAll env s = some s') :
    GoMap.get s'.executorSessions config.DEFAULT_EXECUTOR =
        GoMap.get s.executorSessions config.DEFAULT_EXECUTOR ∧
      Extends (fun e => ∀ id, e = Effect.Close id →
          ∃ x ∈ s.executorSessions, x.1 ≠ config.DEFAULT_EXECUTOR ∧ x.2.Executor.id = id)
        s.trace s'.trace := by
  unfold handleCloseAll at h
  dsimp only at h
  split at h
  · simp at h
  injection h with h
  subst h
  constructor
  · have := GoMap.get_filter_key s.executorSessions
      (fun k => decide (k = config.DEFAULT_EXECUTOR)) config.DEFAULT_EXECUTOR
    simpa using this
  · simp only [State.emits]
    apply Extends.append
    · intro e he
      simp at he
      obtain ⟨a, b, _, rfl⟩ := he
      simp
    · apply Extends.append
      · intro e he id hid
        simp at he
        obtain ⟨k, sess, ⟨hm, hk⟩, rfl⟩ := he
        injection hid with hid
        exact ⟨_, hm, hk, hid⟩
      · exact Extends.refl _ _

theorem handleDelExecutor_shell (env : Env) (disk : config.Disk) (s s' : State) (tgcmd : TgCommad)
    (p : String) (h : handleDelExecutor env disk s tgcmd p = some s') :
    GoMap.get s'.executorSessions config.DEFAULT_EXECUTOR =
        GoMap.get s.executorSessions config.DEFAULT_EXECUTOR ∧
      Extends (fun e => ∀ id, e = Effect.Close id →
          ∃ x ∈ s.executorSessions, x.1 ≠ config.DEFAULT_EXECUTOR ∧ x.2.Executor.id = id)
        s.trace s'.trace := by
  unfold handleDelExecutor at h
  dsimp only at h
  split at h
  · injection h with h
    subst h
    exact ⟨rfl, Extends.cons (by simp) (Extends.refl _ _)⟩
  · split at h
    · injection h with h
      subst h
      exact ⟨rfl, Extends.cons (by simp) (Extends.refl _ _)⟩
    · rename_i hne
      split at h
      · injection h with h
        subst h
        exact ⟨rfl, Extends.cons (by simp) (Extends.refl _ _)⟩
      · split at h
        · simp at h
        injection h with h
        subst h
        constructor
        · have := GoMap.get_filter_key s.executorSessions
            (fun k => !(belongsTo k p)) config.DEFAULT_EXECUTOR
          simp only [State.emit, State.emits]
          rw [this, belongsTo_shell p hne]
          simp
        · simp only [State.emit, State.emits]
          apply Extends.append
          · intro e he
            simp at he
            obtain ⟨a, b, _, rfl⟩ := he
            simp
          · apply Extends.append
            · intro e he id hid
              simp at he
              obtain ⟨k, sess, ⟨hm, hk⟩, rfl⟩ := he
              injection hid with hid
              refine ⟨_, hm, ?_, hid⟩
              intro hk'
              simp only at hk'
              rw [hk', belongsTo_shell p hne] at hk
              exact absurd hk (by simp)
            · exact Extends.cons (by simp) (Extends.refl _ _)

end telegram
end Tgshell

namespace Tgshell
namespace telegram

/-- The key `/executor` computes for a configuration and a conversation. -/
theorem handleExecutor_effect (env : Env) (s s' : State) (tgcmd : TgCommad) (p : String)
    (h : handleExecutor env s tgcmd p = some s') :
    (s'.executorSessions = s.executorSessions ∨
      ∃ k v, GoMap.get s.executorSessions k = none ∧
        s'.executorSessions = GoMap.set s.executorSessions k v) ∧
    (s'.activeSessions = s.activeSessions ∨
      s'.activeSessions = GoMap.delete s.activeSessions tgcmd.Chatid ∨
      ∃ c, (util.SplitFirstAndOthers p).1 ≠ "" ∧
        (util.SplitFirstAndOthers p).1 ≠ config.DEFAULT_EXECUTOR ∧
        config.GetExecutor s.ConfigData (util.SplitFirstAndOthers p).1 = some c ∧
        s'.activeSessions = GoMap.set s.activeSessions tgcmd.Chatid
          (if !c.Global then c.Name ++ ("_" ++ fmt.d tgcmd.Chatid) else c.Name)) ∧
    s'.ConfigData = s.ConfigData ∧
    Extends (fun e => ∀ id, e ≠ Effect.Close id) s.trace s'.trace := by
  unfold handleExecutor at h
  dsimp only at h
  split at h
  · split at h
    · simp at h
    · injection h with h
      subst h
      exact ⟨Or.inl rfl, Or.inl rfl, rfl, Extends.cons (by simp) (Extends.refl _ _)⟩
  · rename_i hname
    split at h
    · injection h with h
      subst h
      exact ⟨Or.inl rfl, Or.inl rfl, rfl, Extends.cons (by simp) (Extends.refl _ _)⟩
    · split at h
      · injection h with h
        subst h
        exact ⟨Or.inl rfl, Or.inr (Or.inl rfl), rfl, Extends.cons (by simp) (Extends.refl _ _)⟩
      · rename_i hdef
        split at h
        · injection h with h
          subst h
          exact ⟨Or.inl rfl, Or.inl rfl, rfl, Extends.cons (by simp) (Extends.refl _ _)⟩
        · rename_i c hc
          split at h
          · injection h with h
            subst h
            exact ⟨Or.inl rfl, Or.inr (Or.inr ⟨c, hname, hdef, hc, rfl⟩), rfl,
              Extends.cons (by simp) (Extends.refl _ _)⟩
          · rename_i hnone
            split at h
            · injection h with h
              subst h
              exact ⟨Or.inl rfl, Or.inl rfl, rfl,
                Extends.cons (by simp) (Extends.cons (by simp) (Extends.refl _ _))⟩
            · rename_i chan _
              injection h with h
              subst h
              cases chan
              all_goals
                refine ⟨Or.inr ⟨_, _, hnone, rfl⟩, Or.inr (Or.inr ⟨c, hname, hdef, hc, rfl⟩), rfl, ?_⟩
                simp only [State.emit, Bool.false_eq_true, if_false, if_true]
                repeat (first | exact Extends.refl _ _ | apply Extends.cons (by simp))

end telegram
end Tgshell

namespace Tgshell
namespace telegram

theorem dispatch_shell (env : Env) (disk : config.Disk) (s s' : State) (tgcmd : TgCommad)
    (tgcmdName tgcmdPayload : String) (session : TgExecutorSession)
    (hshell : GoMap.get s.executorSessions config.DEFAULT_EXECUTOR = some session)
    (h : dispatch env disk s tgcmd tgcmdName tgcmdPayload = some s') :
    GoMap.get s'.executorSessions config.DEFAULT_EXECUTOR = some session ∧
      Extends (fun e => ∀ id, e = Effect.Close id →
          ∃ x ∈ s.executorSessions, x.1 ≠ config.DEFAULT_EXECUTOR ∧ x.2.Executor.id = id)
        s.trace s'.trace := by
  unfold dispatch at h
  split at h
  · obtain ⟨h1, h2⟩ := handleClose_shell _ _ _ _ _ h
    exact ⟨h1.trans hshell, h2⟩
  · split at h
    · obtain ⟨h1, h2⟩ := handleCloseAll_shell _ _ _ h
      exact ⟨h1.trans hshell, h2⟩
    · split at h
      · obtain ⟨h1, h2⟩ := handleDelExecutor_shell _ _ _ _ _ _ h
        exact ⟨h1.trans hshell, h2⟩
      · split at h
        · obtain ⟨h1, _, _, h4⟩ := handleExecutor_effect _ _ _ _ _ h
          refine ⟨?_, h4.mono (fun e he id hid => absurd hid (he id))⟩
          rcases h1 with h1 | ⟨k, v, hk, h1⟩
          · rw [h1]; exact hshell
          · rw [h1, GoMap.get_set_ne _ _ (fun hk' => by rw [← hk', hshell] at hk; cases hk)]
            exact hshell
        · split at h
          · obtain ⟨h1, _, _, h4⟩ := handleCallback_keeps _ _ _ _ _ h
            exact ⟨by rw [h1]; exact hshell, h4.mono (fun e he id hid => absurd hid (he.1 id))⟩
          · split at h
            · obtain ⟨h1, _, _, h4⟩ := handleActive_keeps _ _ _ _ _ _ _ h
              exact ⟨by rw [h1]; exact hshell, h4.mono (fun e he id hid => absurd hid (he.1 id))⟩
            · split at h
              · injection h with h
                subst h
                obtain ⟨h1, _, _, h4⟩ := handleConfig_keeps env disk s tgcmd tgcmdName tgcmdPayload
                exact ⟨by rw [h1]; exact hshell, h4.mono (fun e he id hid => absurd hid (he.1 id))⟩
              · injection h with h
                subst h
                exact ⟨hshell, Extends.refl _ _⟩

theorem handleCommand_shell (env : Env) (disk : config.Disk) (s s' : State) (tgcmd : TgCommad)
    (session : TgExecutorSession)
    (hshell : GoMap.get s.executorSessions config.DEFAULT_EXECUTOR = some session)
    (h : handleCommand env disk s tgcmd = some s') :
    GoMap.get s'.executorSessions config.DEFAULT_EXECUTOR = some session ∧
      Extends (fun e => ∀ id, e = Effect.Close id →
          ∃ x ∈ s.executorSessions, x.1 ≠ config.DEFAULT_EXECUTOR ∧ x.2.Executor.id = id)
        s.trace s'.trace := by
  unfold handleCommand at h
  split at h
  · exact dispatch_shell _ _ _ _ _ _ _ _ hshell h
  · exact dispatch_shell _ _ _ _ _ _ _ _ hshell h

theorem handleCommand_plain (env : Env) (disk : config.Disk) (s : State) (tgcmd : TgCommad)
    (h : strings.StartsWith tgcmd.Name "/executor_" = false) :
    handleCommand env disk s tgcmd = dispatch env disk s tgcmd tgcmd.Name tgcmd.Payload := by
  unfold handleCommand
  simp [h]

/-- With the default session in the table, `/close` is handled to the end when
every `Close()` returns. -/
theorem handleClose_total (env : Env) (s : State) (tgcmd : TgCommad) (p : String)
    (session : TgExecutorSession)
    (hshell : GoMap.get s.executorSessions config.DEFAULT_EXECUTOR = some session)
    (hcloses : ∀ id, env.Closes id = true) :
    (handleClose env s tgcmd p).isSome = true := by
  unfold handleClose
  generalize (if p = "" then s.activeSessions.GetActiveSessionName tgcmd.Chatid
    else if (GoMap.get s.executorSessions (sessionKey p tgcmd.Chatid)).isSome = true then
      sessionKey p tgcmd.Chatid
    else p) = sessionName
  dsimp only
  split
  · rename_i h; rw [h, hshell]; rfl
  · split
    · rfl
    · simp only [hcloses, Bool.not_true, Bool.false_eq_true, if_false]
      split <;> rfl

/-- In the model, where a write to `messenger` does not block, `/delexecutor`
is handled to the end when every `Close()` returns. -/
theorem handleDelExecutor_total (env : Env) (disk : config.Disk) (s : State) (tgcmd : TgCommad)
    (p : String) (hcloses : ∀ id, env.Closes id = true) :
    (handleDelExecutor env disk s tgcmd p).isSome = true := by
  unfold handleDelExecutor
  dsimp only
  simp only [hcloses]
  repeat' split
  all_goals first | rfl | (rename_i h; simp at h)

/-- In the model, where a write to `messenger` does not block, the three
commands that close sessions are handled to the end when the default session
is in the table and every `Close()` returns. -/
theorem handleCommand_registry_total (env : Env) (disk : config.Disk) (s : State)
    (tgcmd : TgCommad) (session : TgExecutorSession)
    (hshell : GoMap.get s.executorSessions config.DEFAULT_EXECUTOR = some session)
    (hname : tgcmd.Name = "/close" ∨ tgcmd.Name = "/closeall" ∨ tgcmd.Name = "/delexecutor")
    (hcloses : ∀ id, env.Closes id = true) :
    (handleCommand env disk s tgcmd).isSome = true := by
  have h1 : strings.StartsWith tgcmd.Name "/executor_" = false := by
    rcases hname with hn | hn | hn <;> rw [hn] <;> decide
  rw [handleCommand_plain _ _ _ _ h1]
  unfold dispatch
  rcases hname with hn | hn | hn
  · rw [if_pos hn]
    exact handleClose_total _ _ _ _ _ hshell hcloses
  · rw [if_neg (by rw [hn]; decide), if_pos hn]
    unfold handleCloseAll
    simp [hcloses]
  · rw [if_neg (by rw [hn]; decide), if_neg (by rw [hn]; decide), if_pos hn]
    exact handleDelExecutor_total _ _ _ _ _ hcloses

end telegram
end Tgshell

namespace Tgshell
namespace telegram

theorem mem_delete {K V : Type} [DecidableEq K] {m : List (K × V)} {k : K} {e : K × V}
    (h : e ∈ GoMap.delete m k) : e ∈ m :=
  List.mem_of_mem_filter h

theorem sessionName_ok (c : config.ConfigExecutorStruct) (chatid : Int)
    (h1 : c.Name ≠ "") (h2 : c.Name ≠ config.DEFAULT_EXECUTOR) :
    (if !c.Global then c.Name ++ ("_" ++ fmt.d chatid) else c.Name) ≠ config.DEFAULT_EXECUTOR ∧
      (if !c.Global then c.Name ++ ("_" ++ fmt.d chatid) else c.Name) ≠ "" := by
  have hmem : '_' ∈ (c.Name ++ ("_" ++ fmt.d chatid)).data := by
    simp [String.data_append]
  cases hg : c.Global
  · simp only [Bool.not_false, if_true]
    constructor
    · intro h
      rw [h] at hmem
      revert hmem
      decide
    · intro h
      rw [h] at hmem
      simp at hmem
  · simp only [Bool.not_true, Bool.false_eq_true, if_false]
    exact ⟨h2, h1⟩

theorem handleClose_active (env : Env) (s s' : State) (tgcmd : TgCommad) (p : String)
    (h : handleClose env s tgcmd p = some s') :
    s'.activeSessions = s.activeSessions ∨
      s'.activeSessions = GoMap.delete s.activeSessions tgcmd.Chatid := by
  unfold handleClose at h
  generalize (if p = "" then s.activeSessions.GetActiveSessionName tgcmd.Chatid
    else if (GoMap.get s.executorSessions (sessionKey p tgcmd.Chatid)).isSome = true then
      sessionKey p tgcmd.Chatid
    else p) = sessionName at h
  dsimp only at h
  repeat' split at h
  all_goals first | (simp at h; done) | skip
  all_goals
    injection h with h
    subst h
    first | exact Or.inl rfl | exact Or.inr rfl

theorem handleDelExecutor_active (env : Env) (disk : config.Disk) (s s' : State) (tgcmd : TgCommad)
    (p : String) (h : handleDelExecutor env disk s tgcmd p = some s') :
    ∀ e ∈ s'.activeSessions, e ∈ s.activeSessions := by
  unfold handleDelExecutor at h
  dsimp only at h
  repeat' split at h
  all_goals first | (simp at h; done) | skip
  all_goals
    injection h with h
    subst h
    intro e he
    first | exact he | exact List.mem_of_mem_filter he

theorem handleMessage_active (s s' : State) (msg : TgGlobalMsg)
    (h : handleMessage s msg = some s') :
    s'.activeSessions = s.activeSessions ∨
      s'.activeSessions = GoMap.delete s.activeSessions msg.Chatid := by
  unfold handleMessage at h
  dsimp only at h
  repeat' split at h
  all_goals first | (simp at h; done) | skip
  all_goals
    injection h with h
    subst h
    first | exact Or.inl rfl | exact Or.inr rfl

theorem dispatch_active (env : Env) (disk : config.Disk) (s s' : State) (tgcmd : TgCommad)
    (tgcmdName tgcmdPayload : String)
    (h : dispatch env disk s tgcmd tgcmdName tgcmdPayload = some s') :
    ∀ e ∈ s'.activeSessions,
      e ∈ s.activeSessions ∨ (e.2 ≠ config.DEFAULT_EXECUTOR ∧ e.2 ≠ "") := by
  unfold dispatch at h
  intro e he
  split at h
  · rcases handleClose_active _ _ _ _ _ h with h1 | h1
    · rw [h1] at he; exact Or.inl he
    · rw [h1] at he; exact Or.inl (mem_delete he)
  · split at h
    · unfold handleCloseAll at h
      dsimp only at h
      split at h
      · simp at h
      injection h with h
      subst h
      simp at he
    · split at h
      · exact Or.inl (handleDelExecutor_active _ _ _ _ _ _ h e he)
      · split at h
        · obtain ⟨_, h2, _, _⟩ := handleExecutor_effect _ _ _ _ _ h
          rcases h2 with h2 | h2 | ⟨c, hn, hd, hc, h2⟩
          · rw [h2] at he; exact Or.inl he
          · rw [h2] at he; exact Or.inl (mem_delete he)
          · rw [h2] at he
            rcases GoMap.mem_set _ _ _ _ he with h3 | h3
            · right
              rw [h3]
              have hcn := config.GetExecutor_name hc
              exact sessionName_ok c tgcmd.Chatid (by rw [hcn]; exact hn) (by rw [hcn]; exact hd)
            · exact Or.inl h3
        · split at h
          · obtain ⟨_, h2, _, _⟩ := handleCallback_keeps _ _ _ _ _ h
            rw [h2] at he; exact Or.inl he
          · split at h
            · obtain ⟨_, h2, _, _⟩ := handleActive_keeps _ _ _ _ _ _ _ h
              rw [h2] at he; exact Or.inl he
            · split at h
              · injection h with h
                subst h
                obtain ⟨_, h2, _, _⟩ := handleConfig_keeps env disk s tgcmd tgcmdName tgcmdPayload
                rw [h2] at he; exact Or.inl he
              · injection h with h
                subst h
                exact Or.inl he

theorem step_active (env : Env) (s s' : State) (ev : Event) (h : step env s ev = some s') :
    ∀ e ∈ s'.activeSessions,
      e ∈ s.activeSessions ∨ (e.2 ≠ config.DEFAULT_EXECUTOR ∧ e.2 ≠ "") := by
  cases ev with
  | command tgcmd disk =>
    simp only [step, handleCommand] at h
    split at h <;> exact dispatch_active _ _ _ _ _ _ _ h
  | message msg =>
    simp only [step] at h
    intro e he
    rcases handleMessage_active _ _ _ h with h1 | h1
    · rw [h1] at he; exact Or.inl he
    · rw [h1] at he; exact Or.inl (mem_delete he)
  | opened id =>
    simp only [step, openTaskDone] at h
    injection h with h
    subst h
    intro e he
    exact Or.inl he

theorem run_active (env : Env) (evs : List Event) (s s' : State)
    (hs : ∀ e ∈ s.activeSessions, e.2 ≠ config.DEFAULT_EXECUTOR ∧ e.2 ≠ "")
    (h : run env s evs = some s') :
    ∀ e ∈ s'.activeSessions, e.2 ≠ config.DEFAULT_EXECUTOR ∧ e.2 ≠ "" := by
  induction evs generalizing s with
  | nil =>
    simp only [run] at h
    injection h with h
    subst h
    exact hs
  | cons ev evs ih =>
    simp only [run] at h
    split at h
    · simp at h
    · rename_i s1 hstep
      apply ih s1 _ h
      intro e he
      rcases step_active _ _ _ _ hstep e he with h1 | h1
      · exact hs e h1
      · exact h1

end telegram
end Tgshell

namespace Tgshell
namespace telegram

theorem dispatch_executor (env : Env) (disk : config.Disk) (s : State) (tgcmd : TgCommad)
    (p : String) : dispatch env disk s tgcmd "/executor" p = handleExecutor env s tgcmd p := by
  unfold dispatch
  rw [if_neg (by decide), if_neg (by decide), if_neg (by decide), if_pos rfl]

theorem handleCommand_executor (env : Env) (disk : config.Disk) (s : State) (payload : String)
    (chatid : Int) (ctx : TeleContext) :
    handleCommand env disk s { Name := "/executor", Payload := payload, Chatid := chatid, C := ctx } =
      handleExecutor env s
        { Name := "/executor", Payload := payload, Chatid := chatid, C := ctx } payload := by
  rw [handleCommand_plain _ _ _ _
    (show strings.StartsWith "/executor" "/executor_" = false by decide)]
  exact dispatch_executor _ _ _ _ _

/-- The key computed by `/executor`, in the two spellings used in the sources. -/
theorem newSessionName_eq (c : config.ConfigExecutorStruct) (chatid : Int) :
    (if !c.Global then c.Name ++ ("_" ++ fmt.d chatid) else c.Name) =
      (if c.Global then c.Name else sessionKey c.Name chatid) := by
  cases c.Global <;> simp [sessionKey, String.append_assoc]

/-- The registering branch of `/executor` when the session exists already. -/
theorem handleExecutor_existing (env : Env) (s : State) (tgcmd : TgCommad) (p : String)
    (c : config.ConfigExecutorStruct) (session : TgExecutorSession)
    (hname : (util.SplitFirstAndOthers p).1 ≠ "")
    (hnot : ¬ (s.activeSessions.GetActiveSessionName tgcmd.Chatid = (util.SplitFirstAndOthers p).1 ∨
      strings.StartsWith (s.activeSessions.GetActiveSessionName tgcmd.Chatid)
        ((util.SplitFirstAndOthers p).1 ++ "_") = true))
    (hdef : (util.SplitFirstAndOthers p).1 ≠ config.DEFAULT_EXECUTOR)
    (hcfg : config.GetExecutor s.ConfigData (util.SplitFirstAndOthers p).1 = some c)
    (hget : GoMap.get s.executorSessions
      (if c.Global then c.Name else sessionKey c.Name tgcmd.Chatid) = some session) :
    handleExecutor env s tgcmd p =
      some ({ s with
          activeSessions := GoMap.set s.activeSessions tgcmd.Chatid
            (if c.Global then c.Name else sessionKey c.Name tgcmd.Chatid) }.emit
        (Effect.Output tgcmd.Chatid
          ("Active executor changed to '" ++ session.Executor.Name ++ "'"))) := by
  unfold handleExecutor
  dsimp only
  rw [if_neg hname, if_neg hnot, if_neg hdef, hcfg]
  dsimp only
  rw [newSessionName_eq, hget]

/-- The registering branch of `/executor` when the session is constructed. -/
theorem handleExecutor_created (env : Env) (s : State) (tgcmd : TgCommad) (p : String)
    (c : config.ConfigExecutorStruct) (chan : Bool)
    (hname : (util.SplitFirstAndOthers p).1 ≠ "")
    (hnot : ¬ (s.activeSessions.GetActiveSessionName tgcmd.Chatid = (util.SplitFirstAndOthers p).1 ∨
      strings.StartsWith (s.activeSessions.GetActiveSessionName tgcmd.Chatid)
        ((util.SplitFirstAndOthers p).1 ++ "_") = true))
    (hdef : (util.SplitFirstAndOthers p).1 ≠ config.DEFAULT_EXECUTOR)
    (hcfg : config.GetExecutor s.ConfigData (util.SplitFirstAndOthers p).1 = some c)
    (hget : GoMap.get s.executorSessions
      (if c.Global then c.Name else sessionKey c.Name tgcmd.Chatid) = none)
    (hcreate : executor.Create env.Registry c (util.SplitFirstAndOthers p).2 = Except.ok chan) :
    handleExecutor env s tgcmd p =
      some {
        executorSessions := GoMap.set s.executorSessions
          (if c.Global then c.Name else sessionKey c.Name tgcmd.Chatid)
          { Executor := { id := s.nextId, Name := c.Name, Chan := chan },
            Chatid := tgcmd.Chatid, Ready := false },
        activeSessions := GoMap.set s.activeSessions tgcmd.Chatid
          (if c.Global then c.Name else sessionKey c.Name tgcmd.Chatid),
        ConfigData := s.ConfigData,
        nextId := s.nextId + 1,
        trace := Effect.Output tgcmd.Chatid ("Active executor changed to '" ++ c.Name ++ "'") ::
          Effect.Open s.nextId ::
          ((if chan then [Effect.Forward s.nextId] else []) ++
            Effect.Create c.Name (util.SplitFirstAndOthers p).2 true :: s.trace) } := by
  unfold handleExecutor
  dsimp only
  rw [if_neg hname, if_neg hnot, if_neg hdef, hcfg]
  dsimp only
  rw [newSessionName_eq, hget]
  dsimp only
  rw [hcreate]
  cases chan <;> rfl

end telegram
end Tgshell

namespace Tgshell
namespace telegram

theorem Chunks_limit (data : String) :
    ∃ datas, util.Chunks data constants.TG_TEXT_LIMIT = some datas := by
  unfold util.Chunks
  dsimp only
  split
  · exact ⟨_, rfl⟩
  · split
    · exact ⟨_, rfl⟩
    · split
      · rename_i h; exact absurd h (by decide)
      · split
        · rename_i h0 _ _ h
          exfalso
          have h1 : (0 : Int) ≤ (data.utf8ByteSize : Int) - 1 := by
            have : (0 : Int) ≤ (data.utf8ByteSize : Int) := Int.ofNat_nonneg _
            omega
          have h2 := Int.tdiv_nonneg h1 (show (0 : Int) ≤ constants.TG_TEXT_LIMIT by decide)
          omega
        · exact ⟨_, rfl⟩

theorem sessionKey_ne_default (name : String) (chatid : Int) :
    sessionKey name chatid ≠ config.DEFAULT_EXECUTOR := by
  intro h
  have hmem : '_' ∈ (sessionKey name chatid).data := by
    simp [sessionKey, String.data_append]
  rw [h] at hmem
  revert hmem
  decide

theorem GetSessionName_of_named (msg : TgGlobalMsg) (h1 : msg.Executor ≠ "")
    (h2 : msg.Executor ≠ config.DEFAULT_EXECUTOR) :
    msg.GetSessionName = sessionKey msg.Executor msg.Chatid := by
  unfold TgGlobalMsg.GetSessionName sessionKey
  rw [if_neg (by simp [h1, h2])]

theorem sessionKey_ne_empty (name : String) (chatid : Int) : sessionKey name chatid ≠ "" := by
  intro h
  have hmem : '_' ∈ (sessionKey name chatid).data := by
    simp [sessionKey, String.data_append]
  rw [h] at hmem
  simp at hmem

theorem IsActiveSession_iff (as : TgActiveSessions) (chatid : Int) (sessionName : String) :
    as.IsActiveSession chatid sessionName = true ↔
      sessionName = as.GetActiveSessionName chatid := by
  unfold TgActiveSessions.IsActiveSession TgActiveSessions.GetActiveSessionName
  split <;> simp

theorem GetActiveSessionName_delete (as : TgActiveSessions) (chatid : Int) :
    TgActiveSessions.GetActiveSessionName (GoMap.delete as chatid) chatid =
      config.DEFAULT_EXECUTOR := by
  simp [TgActiveSessions.GetActiveSessionName, TgActiveSessions.IsDefaultExecutorActive,
    TgActiveSessions.index, GoMap.get_delete_self]

/-- The close branch of the messenger for a session keyed `name_chatid`. -/
theorem handleMessage_close (s : State) (msg : TgGlobalMsg) (session shell : TgExecutorSession)
    (htype : msg.Type' = TYPE_CLOSE)
    (h1 : msg.Executor ≠ "") (h2 : msg.Executor ≠ config.DEFAULT_EXECUTOR)
    (hget : GoMap.get s.executorSessions (sessionKey msg.Executor msg.Chatid) = some session)
    (hshell : GoMap.get s.executorSessions config.DEFAULT_EXECUTOR = some shell) :
    ∃ s', handleMessage s msg = some s' ∧
      s'.executorSessions = GoMap.delete s.executorSessions (sessionKey msg.Executor msg.Chatid) ∧
      (s.activeSessions.GetActiveSessionName msg.Chatid = sessionKey msg.Executor msg.Chatid →
        s'.activeSessions = GoMap.delete s.activeSessions msg.Chatid) ∧
      (s.activeSessions.GetActiveSessionName msg.Chatid ≠ sessionKey msg.Executor msg.Chatid →
        s'.activeSessions = s.activeSessions) := by
  obtain ⟨datas, hd⟩ := Chunks_limit msg.Data
  unfold handleMessage
  dsimp only
  rw [hd]
  dsimp only
  have hne : msg.GetSessionName ≠ "" := by
    rw [GetSessionName_of_named msg h1 h2]; exact sessionKey_ne_empty _ _
  rw [if_neg hne, GetSessionName_of_named msg h1 h2, htype]
  rw [if_neg (by decide), if_pos rfl, hget]
  dsimp only
  by_cases hact : s.activeSessions.GetActiveSessionName msg.Chatid =
      sessionKey msg.Executor msg.Chatid
  · have hA : s.activeSessions.IsActiveSession msg.Chatid
        (sessionKey msg.Executor msg.Chatid) = true :=
      (IsActiveSession_iff _ _ _).mpr hact.symm
    rw [if_pos hA]
    simp only [State.emit]
    rw [GetActiveSessionName_delete,
      GoMap.get_delete_ne _ (fun h => sessionKey_ne_default _ _ h.symm), hshell]
    exact ⟨_, rfl, rfl, fun _ => rfl, fun h => absurd hact h⟩
  · have hA : ¬ s.activeSessions.IsActiveSession msg.Chatid
        (sessionKey msg.Executor msg.Chatid) = true :=
      fun h => hact ((IsActiveSession_iff _ _ _).mp h).symm
    rw [if_neg hA]
    exact ⟨_, rfl, rfl, fun h => absurd h hact, fun _ => rfl⟩

end telegram
end Tgshell

namespace Tgshell
namespace telegram

theorem GetActiveSessionName_set (as : TgActiveSessions) (chatid : Int) (key : String) :
    TgActiveSessions.GetActiveSessionName (GoMap.set as chatid key) chatid =
        config.DEFAULT_EXECUTOR ∨
      TgActiveSessions.GetActiveSessionName (GoMap.set as chatid key) chatid = key := by
  unfold TgActiveSessions.GetActiveSessionName
  split
  · exact Or.inl rfl
  · right
    simp [TgActiveSessions.index, GoMap.get_set_self]

theorem StartsWith_sessionKey (name : String) (chatid : Int) :
    strings.StartsWith (sessionKey name chatid) (name ++ "_") = true := by
  unfold strings.StartsWith sessionKey
  rw [ List.isPrefixOf_iff_prefix]
  simp [String.data_append]

/-- While the session of `name` for the conversation is registered and the
conversation's active session is that session or the default one, a further
`/executor name` constructs nothing and leaves the table as it is. -/
theorem handleExecutor_again (env : Env) (s : State) (tgcmd : TgCommad) (p : String)
    (c : config.ConfigExecutorStruct) (session : TgExecutorSession)
    (hname : (util.SplitFirstAndOthers p).1 ≠ "")
    (hdef : (util.SplitFirstAndOthers p).1 ≠ config.DEFAULT_EXECUTOR)
    (hcfg : config.GetExecutor s.ConfigData (util.SplitFirstAndOthers p).1 = some c)
    (hget : GoMap.get s.executorSessions
      (if c.Global then c.Name else sessionKey c.Name tgcmd.Chatid) = some session)
    (hact : s.activeSessions.GetActiveSessionName tgcmd.Chatid = config.DEFAULT_EXECUTOR ∨
      s.activeSessions.GetActiveSessionName tgcmd.Chatid =
        (if c.Global then c.Name else sessionKey c.Name tgcmd.Chatid)) :
    ∃ s', handleExecutor env s tgcmd p = some s' ∧
      s'.executorSessions = s.executorSessions ∧ s'.ConfigData = s.ConfigData ∧
      createCalls s'.trace = createCalls s.trace ∧ constructed s'.trace = constructed s.trace ∧
      (s'.activeSessions.GetActiveSessionName tgcmd.Chatid = config.DEFAULT_EXECUTOR ∨
        s'.activeSessions.GetActiveSessionName tgcmd.Chatid =
          (if c.Global then c.Name else sessionKey c.Name tgcmd.Chatid)) := by
  have hcn : c.Name = (util.SplitFirstAndOthers p).1 := config.GetExecutor_name hcfg
  by_cases hal : s.activeSessions.GetActiveSessionName tgcmd.Chatid = (util.SplitFirstAndOthers p).1 ∨
      strings.StartsWith (s.activeSessions.GetActiveSessionName tgcmd.Chatid)
        ((util.SplitFirstAndOthers p).1 ++ "_") = true
  · refine ⟨s.emit (Effect.Output tgcmd.Chatid
        ("Already using " ++ (util.SplitFirstAndOthers p).1 ++ " executor")), ?_, rfl, rfl, ?_, ?_, hact⟩
    · unfold handleExecutor
      dsimp only
      rw [if_neg hname, if_pos hal]
    · simp [createCalls, State.emit, List.filter]
    · simp [constructed, State.emit, List.filter]
  · rw [handleExecutor_existing env s tgcmd p c session hname hal hdef hcfg hget]
    refine ⟨_, rfl, rfl, rfl, ?_, ?_, ?_⟩
    · simp [createCalls, State.emit, List.filter]
    · simp [constructed, State.emit, List.filter]
    · exact GetActiveSessionName_set _ _ _

theorem run_executor_again (env : Env) (disk : config.Disk) (payload : String) (chatid : Int)
    (ctx : TeleContext) (c : config.ConfigExecutorStruct) (session : TgExecutorSession)
    (hname : (util.SplitFirstAndOthers payload).1 ≠ "")
    (hdef : (util.SplitFirstAndOthers payload).1 ≠ config.DEFAULT_EXECUTOR) (n : Nat) :
    ∀ s : State,
      config.GetExecutor s.ConfigData (util.SplitFirstAndOthers payload).1 = some c →
      GoMap.get s.executorSessions
        (if c.Global then c.Name else sessionKey c.Name chatid) = some session →
      (s.activeSessions.GetActiveSessionName chatid = config.DEFAULT_EXECUTOR ∨
        s.activeSessions.GetActiveSessionName chatid =
          (if c.Global then c.Name else sessionKey c.Name chatid)) →
      ∃ s', run env s (List.replicate n (Event.command
          { Name := "/executor", Payload := payload, Chatid := chatid, C := ctx } disk)) = some s' ∧
        s'.executorSessions = s.executorSessions ∧
        createCalls s'.trace = createCalls s.trace ∧ constructed s'.trace = constructed s.trace := by
  induction n with
  | zero =>
    intro s _ _ _
    exact ⟨s, rfl, rfl, rfl, rfl⟩
  | succ n ih =>
    intro s hcfg hget hact
    obtain ⟨s1, h1, h2, h3, h4, h5, h6⟩ := handleExecutor_again env s
      { Name := "/executor", Payload := payload, Chatid := chatid, C := ctx } payload c session
      hname hdef hcfg hget hact
    obtain ⟨s2, g1, g2, g3, g4⟩ := ih s1 (by rw [h3]; exact hcfg) (by rw [h2]; exact hget) h6
    refine ⟨s2, ?_, g2.trans h2, g3.trans h4, g4.trans h5⟩
    simp only [List.replicate_succ, run, step]
    rw [handleCommand_executor, h1]
    exact g1

end telegram
end Tgshell

namespace Tgshell
namespace telegram

/-- Shape of the session table after `/executor`: unchanged, or one entry for
the executor instance numbered `nextId` is appended and `nextId` advances. -/
theorem handleExecutor_table (env : Env) (s s' : State) (tgcmd : TgCommad) (p : String)
    (h : handleExecutor env s tgcmd p = some s') :
    (s'.executorSessions = s.executorSessions ∧ s'.nextId = s.nextId) ∨
      ∃ k v, v.Executor.id = s.nextId ∧ s'.executorSessions = s.executorSessions ++ [(k, v)] ∧
        s'.nextId = s.nextId + 1 := by
  unfold handleExecutor at h
  dsimp only at h
  split at h
  · split at h
    · simp at h
    · injection h with h
      subst h
      exact Or.inl ⟨rfl, rfl⟩
  · split at h
    · injection h with h
      subst h
      exact Or.inl ⟨rfl, rfl⟩
    · split at h
      · injection h with h
        subst h
        exact Or.inl ⟨rfl, rfl⟩
      · split at h
        · injection h with h
          subst h
          exact Or.inl ⟨rfl, rfl⟩
        · rename_i c _
          generalize (if (!c.Global) = true then c.Name ++ ("_" ++ fmt.d tgcmd.Chatid)
            else c.Name) = key at h
          split at h
          · injection h with h
            subst h
            exact Or.inl ⟨rfl, rfl⟩
          · rename_i hnone
            split at h
            · injection h with h
              subst h
              exact Or.inl ⟨rfl, rfl⟩
            · rename_i chan _
              injection h with h
              subst h
              right
              cases chan
              all_goals exact ⟨_, _, rfl, GoMap.set_of_get_none _ _ _ hnone, rfl⟩

theorem handleDelExecutor_table (env : Env) (disk : config.Disk) (s s' : State) (tgcmd : TgCommad)
    (p : String) (h : handleDelExecutor env disk s tgcmd p = some s') :
    s'.nextId = s.nextId ∧ ∃ q, s'.executorSessions = s.executorSessions.filter q := by
  unfold handleDelExecutor at h
  dsimp only at h
  repeat' split at h
  all_goals first | (simp at h; done) | skip
  all_goals
    injection h with h
    subst h
    refine ⟨rfl, ?_⟩
    first
      | exact ⟨_, rfl⟩
      | exact ⟨fun _ => true, (List.filter_true _).symm⟩

theorem handleClose_table_filter (env : Env) (s s' : State) (tgcmd : TgCommad) (p : String)
    (h : handleClose env s tgcmd p = some s') :
    s'.nextId = s.nextId ∧ ∃ q, s'.executorSessions = s.executorSessions.filter q := by
  unfold handleClose at h
  generalize (if p = "" then s.activeSessions.GetActiveSessionName tgcmd.Chatid
    else if (GoMap.get s.executorSessions (sessionKey p tgcmd.Chatid)).isSome = true then
      sessionKey p tgcmd.Chatid
    else p) = sessionName at h
  dsimp only at h
  repeat' split at h
  all_goals first | (simp at h; done) | skip
  all_goals
    injection h with h
    subst h
    refine ⟨rfl, ?_⟩
    first
      | exact ⟨_, rfl⟩
      | exact ⟨fun _ => true, (List.filter_true _).symm⟩

theorem handleMessage_table (s s' : State) (msg : TgGlobalMsg)
    (h : handleMessage s msg = some s') :
    s'.nextId = s.nextId ∧ ∃ q, s'.executorSessions = s.executorSessions.filter q := by
  unfold handleMessage at h
  dsimp only at h
  repeat' split at h
  all_goals first | (simp at h; done) | skip
  all_goals
    injection h with h
    subst h
    refine ⟨rfl, ?_⟩
    first
      | exact ⟨_, rfl⟩
      | exact ⟨fun _ => true, (List.filter_true _).symm⟩

/-- Every executor instance in the table has a number below `nextId`, and no
two entries hold the same instance. -/
theorem step_owned (env : Env) (s s' : State) (ev : Event) (h : step env s ev = some s')
    (hlt : ∀ x ∈ s.executorSessions, x.2.Executor.id < s.nextId)
    (hnd : (s.executorSessions.map (fun x => x.2.Executor.id)).Nodup) :
    (∀ x ∈ s'.executorSessions, x.2.Executor.id < s'.nextId) ∧
      (s'.executorSessions.map (fun x => x.2.Executor.id)).Nodup := by
  have same : ∀ t : State, t.executorSessions = s.executorSessions → t.nextId = s.nextId →
      (∀ x ∈ t.executorSessions, x.2.Executor.id < t.nextId) ∧
        (t.executorSessions.map (fun x => x.2.Executor.id)).Nodup := by
    intro t h1 h2
    rw [h1, h2]
    exact ⟨hlt, hnd⟩
  have filt : ∀ t : State, t.nextId = s.nextId →
      (∃ q, t.executorSessions = s.executorSessions.filter q) →
      (∀ x ∈ t.executorSessions, x.2.Executor.id < t.nextId) ∧
        (t.executorSessions.map (fun x => x.2.Executor.id)).Nodup := by
    intro t h2 ⟨q, h1⟩
    rw [h1, h2]
    exact ⟨fun x hx => hlt x (List.mem_of_mem_filter hx),
      (List.Sublist.map _ (List.filter_sublist _)).nodup hnd⟩
  cases ev with
  | opened id =>
    simp only [step] at h
    injection h with h
    subst h
    simp only [openTaskDone]
    constructor
    · intro x hx
      simp only [List.mem_map] at hx
      obtain ⟨y, hy, rfl⟩ := hx
      split <;> exact hlt y hy
    · have : (s.executorSessions.map (fun e =>
          if e.2.Executor.id = id then (e.1, { e.2 with Ready := true }) else e)).map
            (fun x => x.2.Executor.id) = s.executorSessions.map (fun x => x.2.Executor.id) := by
        rw [List.map_map]
        apply List.map_congr_left
        intro a _
        simp only [Function.comp]
        split <;> rfl
      rw [this]
      exact hnd
  | message msg =>
    simp only [step] at h
    obtain ⟨h1, h2⟩ := handleMessage_table _ _ _ h
    exact filt s' h1 h2
  | command tgcmd disk =>
    simp only [step, handleCommand] at h
    have key : ∀ n p, dispatch env disk s tgcmd n p = some s' →
        (∀ x ∈ s'.executorSessions, x.2.Executor.id < s'.nextId) ∧
          (s'.executorSessions.map (fun x => x.2.Executor.id)).Nodup := by
      intro n p h
      unfold dispatch at h
      split at h
      · obtain ⟨h1, h2⟩ := handleClose_table_filter _ _ _ _ _ h
        exact filt s' h1 h2
      · split at h
        · unfold handleCloseAll at h
          dsimp only at h
          split at h
          · simp at h
          injection h with h
          subst h
          exact filt _ rfl ⟨_, rfl⟩
        · split at h
          · obtain ⟨h1, h2⟩ := handleDelExecutor_table _ _ _ _ _ _ h
            exact filt s' h1 h2
          · split at h
            · rcases handleExecutor_table _ _ _ _ _ h with ⟨h1, h2⟩ | ⟨k, v, hv, h1, h2⟩
              · exact same s' h1 h2
              · rw [h1, h2]
                constructor
                · intro x hx
                  rcases List.mem_append.mp hx with hx | hx
                  · exact Nat.lt_succ_of_lt (hlt x hx)
                  · simp at hx
                    rw [hx, hv]
                    exact Nat.lt_succ_self _
                · rw [List.map_append, List.nodup_append]
                  refine ⟨hnd, by simp, ?_⟩
                  intro a ha hb
                  simp at hb
                  simp only [List.mem_map] at ha
                  obtain ⟨y, hy, rfl⟩ := ha
                  have := hlt y hy
                  rw [hb, hv] at this
                  exact Nat.lt_irrefl _ this
            · split at h
              · obtain ⟨h1, _, h3, _⟩ := handleCallback_keeps _ _ _ _ _ h
                exact same s' h1 h3
              · split at h
                · obtain ⟨h1, _, h3, _⟩ := handleActive_keeps _ _ _ _ _ _ _ h
                  exact same s' h1 h3
                · split at h
                  · injection h with h
                    subst h
                    obtain ⟨h1, _, h3, _⟩ := handleConfig_keeps env disk s tgcmd n p
                    exact same _ h1 h3
                  · injection h with h
                    subst h
                    exact ⟨hlt, hnd⟩
    split at h <;> exact key _ _ h

/-- In every state reached from `Start`, no table entry other than the default
session holds the default session's executor instance. -/
theorem run_from_Start_owned (env : Env) (ConfigData : config.ConfigStruct) (evs : List Event)
    (s' : State) (h : run env (Start ConfigData) evs = some s') :
    (s'.executorSessions.map (fun x => x.2.Executor.id)).Nodup := by
  have key : ∀ (evs : List Event) (s : State),
      (∀ x ∈ s.executorSessions, x.2.Executor.id < s.nextId) →
      (s.executorSessions.map (fun x => x.2.Executor.id)).Nodup →
      run env s evs = some s' →
      (s'.executorSessions.map (fun x => x.2.Executor.id)).Nodup := by
    intro evs
    induction evs with
    | nil =>
      intro s _ hnd h
      simp only [run] at h
      injection h with h
      subst h
      exact hnd
    | cons ev evs ih =>
      intro s hlt hnd h
      simp only [run] at h
      split at h
      · simp at h
      · rename_i s1 hstep
        obtain ⟨h1, h2⟩ := step_owned env s s1 ev hstep hlt hnd
        exact ih s1 h1 h2 h
  exact key evs (Start ConfigData) (by simp [Start]) (by simp [Start]) h

end telegram
end Tgshell
namespace Tgshell
namespace util

theorem UniqueSliceLoop_acc {T : Type} [DecidableEq T] (s keys list : List T) :
    UniqueSliceLoop none s keys list = list ++ UniqueSliceLoop none s keys [] := by
  induction s generalizing keys list with
  | nil => simp [UniqueSliceLoop]
  | cons entry s ih =>
    unfold UniqueSliceLoop
    by_cases hmem : entry ∈ keys
    · simp only [hmem, decide_True, Bool.not_true, Bool.false_or]
      simpa using ih keys list
    · simp only [hmem, decide_False, Bool.not_false, Bool.true_or, if_true]
      rw [ih (entry :: keys) (list ++ [entry]), ih (entry :: keys) ([] ++ [entry])]
      simp

theorem UniqueSliceLoop_snoc {T : Type} [DecidableEq T] (r keys : List T) (a : T) :
    UniqueSliceLoop none (r ++ [a]) keys [] =
      UniqueSliceLoop none r keys [] ++ (if a ∈ keys ∨ a ∈ r then [] else [a]) := by
  induction r generalizing keys with
  | nil =>
    by_cases h : a ∈ keys <;> simp [UniqueSliceLoop, h]
  | cons b r ih =>
    by_cases hb : b ∈ keys
    · have e1 : UniqueSliceLoop none (b :: r ++ [a]) keys [] =
          UniqueSliceLoop none (r ++ [a]) keys [] := by
        simp [UniqueSliceLoop, hb]
      have e2 : UniqueSliceLoop none (b :: r) keys [] = UniqueSliceLoop none r keys [] := by
        simp [UniqueSliceLoop, hb]
      rw [e1, e2, ih keys]
      congr 1
      by_cases hab : a = b
      · subst hab; simp [hb]
      · simp [hab]
    · have e1 : UniqueSliceLoop none (b :: r ++ [a]) keys [] =
          [b] ++ UniqueSliceLoop none (r ++ [a]) (b :: keys) [] := by
        have : UniqueSliceLoop none (b :: r ++ [a]) keys [] =
            UniqueSliceLoop none (r ++ [a]) (b :: keys) ([] ++ [b]) := by
          simp [UniqueSliceLoop, hb]
        rw [this, UniqueSliceLoop_acc]
        rfl
      have e2 : UniqueSliceLoop none (b :: r) keys [] =
          [b] ++ UniqueSliceLoop none r (b :: keys) [] := by
        have : UniqueSliceLoop none (b :: r) keys [] =
            UniqueSliceLoop none r (b :: keys) ([] ++ [b]) := by
          simp [UniqueSliceLoop, hb]
        rw [this, UniqueSliceLoop_acc]
        rfl
      rw [e1, e2, ih (b :: keys), List.append_assoc]
      congr 2
      by_cases hab : a = b
      · subst hab; simp
      · simp [hab]

theorem UniqueSliceInLastOrder_eq {T : Type} [DecidableEq T] (l : List T) :
    UniqueSliceInLastOrder l none = keepLastOccurrences l := by
  unfold UniqueSliceInLastOrder UniqueSlice
  induction l with
  | nil => rfl
  | cons a l ih =>
    rw [List.reverse_cons, UniqueSliceLoop_snoc, List.reverse_append, ih]
    by_cases h : a ∈ l <;> simp [keepLastOccurrences, h]

theorem AppendUniqueCapSlice_eq {T : Type} [DecidableEq T] (s : List T) (cap : Int)
    (els : List T) :
    AppendUniqueCapSlice s cap els = lastElements cap (keepLastOccurrences (s ++ els)) := by
  unfold AppendUniqueCapSlice lastElements
  rw [UniqueSliceInLastOrder_eq]
  dsimp only
  by_cases hcap : cap ≤ 0
  · rw [if_pos hcap, if_neg (by omega)]
  · rw [if_neg hcap]
    by_cases hlen : ((keepLastOccurrences (s ++ els)).length : Int) > cap
    · rw [if_pos ⟨by omega, hlen⟩]
    · rw [if_neg (fun h => hlen h.2)]
      have : (keepLastOccurrences (s ++ els)).length - cap.toNat = 0 := by omega
      rw [this, List.drop_zero]

theorem keepLastOccurrences_eq_dedup {T : Type} [DecidableEq T] (l : List T) :
    keepLastOccurrences l = l.dedup := by
  induction l with
  | nil => rfl
  | cons a l ih =>
    by_cases h : a ∈ l
    · simp [keepLastOccurrences, h, ih, List.dedup_cons_of_mem h]
    · simp [keepLastOccurrences, h, ih, List.dedup_cons_of_not_mem h]

theorem keepLastOccurrences_of_nodup {T : Type} [DecidableEq T] (l : List T) (h : l.Nodup) :
    keepLastOccurrences l = l := by
  rw [keepLastOccurrences_eq_dedup]
  exact h.dedup

theorem keepLastOccurrences_getLast {T : Type} [DecidableEq T] (l : List T) :
    (keepLastOccurrences l).getLast? = l.getLast? := by
  induction l with
  | nil => rfl
  | cons a l ih =>
    cases l with
    | nil => simp [keepLastOccurrences]
    | cons b l =>
      have hne : keepLastOccurrences (b :: l) ≠ [] := by
        intro h
        rw [h] at ih
        exact List.cons_ne_nil b l (List.getLast?_eq_none_iff.mp ih.symm)
      by_cases h : a ∈ b :: l
      · rw [keepLastOccurrences, if_pos h, ih]
        simp [List.getLast?_cons_cons]
      · rw [keepLastOccurrences, if_neg h]
        obtain ⟨c, t, hct⟩ := List.exists_cons_of_ne_nil hne
        rw [hct, List.getLast?_cons_cons, ← hct, ih]
        simp [List.getLast?_cons_cons]

theorem keepLastOccurrences_readd {T : Type} [DecidableEq T] (s : List T) (x : T)
    (hnd : s.Nodup) (hx : x ∈ s) :
    keepLastOccurrences (s ++ [x]) = s.filter (fun y => decide (y ≠ x)) ++ [x] ∧
      (s.filter (fun y => decide (y ≠ x))).length + 1 = s.length := by
  induction s with
  | nil => simp at hx
  | cons a s ih =>
    have ha : a ∉ s := (List.nodup_cons.mp hnd).1
    have hs : s.Nodup := (List.nodup_cons.mp hnd).2
    by_cases hax : a = x
    · subst hax
      have hnd' : (s ++ [a]).Nodup := by
        rw [List.nodup_append]
        refine ⟨hs, List.nodup_singleton _, ?_⟩
        intro y hy hy'
        simp at hy'
        subst hy'
        exact ha hy
      have hf : s.filter (fun y => decide (y ≠ a)) = s := by
        apply List.filter_eq_self.mpr
        intro y hy
        apply decide_eq_true
        intro h
        subst h
        exact ha hy
      have hc : (a :: s).filter (fun y => decide (y ≠ a)) = s := by
        rw [List.filter_cons_of_neg (by simp), hf]
      constructor
      · rw [List.cons_append, keepLastOccurrences, if_pos (by simp),
          keepLastOccurrences_of_nodup _ hnd', hc]
      · rw [hc]
        rfl
    · have hxs : x ∈ s := by
        rcases List.mem_cons.mp hx with h | h
        · exact absurd h.symm hax
        · exact h
      obtain ⟨ih1, ih2⟩ := ih hs hxs
      have hmem : a ∉ s ++ [x] := by
        simp [ha, hax]
      have hc : (a :: s).filter (fun y => decide (y ≠ x)) =
          a :: s.filter (fun y => decide (y ≠ x)) :=
        List.filter_cons_of_pos (decide_eq_true hax)
      constructor
      · rw [List.cons_append, keepLastOccurrences, if_neg hmem, ih1, hc]
        rfl
      · rw [hc]
        simp only [List.length_cons]
        omega

end util
end Tgshell

namespace Tgshell
namespace util

theorem lastElements_getLast {T : Type} (cap : Int) (l : List T) (h : l ≠ []) :
    (lastElements cap l).getLast? = l.getLast? := by
  unfold lastElements
  split
  · rfl
  · rw [List.getLast?_drop, if_neg]
    have : 0 < l.length := List.length_pos.mpr h
    omega

theorem AppendUniqueCapSlice_getLast {T : Type} [DecidableEq T] (s : List T) (cap : Int)
    (els : List T) (h : els ≠ []) :
    (AppendUniqueCapSlice s cap els).getLast? = els.getLast? := by
  have hne : s ++ els ≠ [] := by simp [h]
  have hk : keepLastOccurrences (s ++ els) ≠ [] := by
    intro h'
    have := keepLastOccurrences_getLast (s ++ els)
    rw [h'] at this
    exact hne (List.getLast?_eq_none_iff.mp this.symm)
  rw [AppendUniqueCapSlice_eq, lastElements_getLast _ _ hk, keepLastOccurrences_getLast,
    List.getLast?_append]
  obtain ⟨a, ha⟩ : ∃ a, els.getLast? = some a := by
    cases hl : els.getLast? with
    | none => exact absurd (List.getLast?_eq_none_iff.mp hl) h
    | some a => exact ⟨a, rfl⟩
  rw [ha]
  rfl

end util

end Tgshell

namespace Tgshell

namespace telegram

/-- A line whose trimmed text starts with `^|` is not empty after trimming. -/
theorem ne_empty_of_startsWith_raw (cmdline : String)
    (h : strings.StartsWith cmdline "^|" = true) : cmdline ≠ "" := by
  intro e
  subst e
  exact absurd h (by decide)

/-- The raw branch of `command_run`: what it does is decided by `Unquote` on
the quoted remainder. -/
theorem command_run_raw (env : Env) (s : State) (session : TgExecutorSession) (chatid : Int)
    (line : String) (hready : session.Ready = true)
    (hraw : strings.StartsWith (strings.TrimSpace line) "^|" = true) :
    command_run env s (some session) chatid line =
      match env.Unquote
        (if '"' ∈ (escapeNewlines (String.mk ((strings.TrimSpace line).data.drop 2))).data then
          escapeNewlines (String.mk ((strings.TrimSpace line).data.drop 2))
        else "\"" ++ escapeNewlines (String.mk ((strings.TrimSpace line).data.drop 2)) ++ "\"") with
      | none =>
        some ((s.emit (Effect.Output chatid "Invalid raw input")).emit (Effect.CloseOutput chatid))
      | some u => some (s.emit (Effect.Exec session.Executor.id u true)) := by
  have hne := ne_empty_of_startsWith_raw _ hraw
  unfold command_run
  simp only [hready, hraw, hne, Bool.not_true, Bool.false_eq_true, if_false, if_true]
  by_cases hq : '"' ∈ (escapeNewlines (String.mk ((strings.TrimSpace line).data.drop 2))).data
  · simp only [hq, not_true_eq_false, if_false, if_true]
  · simp only [hq, not_false_eq_true, if_false, if_true]

end telegram

end Tgshell

namespace Tgshell

namespace telegram

/-- An ASCII letter has a code in `A`..`Z` or `a`..`z`. -/
theorem isAlpha_range (x : Char) (hx : x.isAlpha = true) :
    (65 ≤ x.toNat ∧ x.toNat ≤ 90) ∨ (97 ≤ x.toNat ∧ x.toNat ≤ 122) := by
  simp only [Char.isAlpha, Char.isUpper, Char.isLower, Bool.or_eq_true, Bool.and_eq_true,
    decide_eq_true_eq] at hx
  rcases hx with ⟨h1, h2⟩ | ⟨h1, h2⟩
  · left
    exact ⟨h1, h2⟩
  · right
    exact ⟨h1, h2⟩

set_option maxRecDepth 100000 in
/-- What `command_run` needs of a letter: it is no space and not `|`, and
clearing bit 6 of the first byte of its upper case gives its rank in the
alphabet, a single byte between 1 and 26. -/
theorem letter_facts (x : Char) (hx : x.isAlpha = true) :
    unicode.IsSpace x = false ∧ x ≠ '|' ∧ x ≠ '\t' ∧ x ≠ '\n' ∧ x ≠ '\x0c' ∧ x ≠ '\r' ∧
      x ≠ ' ' ∧
      ((String.utf8EncodeChar x.toUpper).headD 0).toNat &&& 0b0111111 = x.toUpper.toNat - 64 ∧
      1 ≤ x.toUpper.toNat - 64 ∧ x.toUpper.toNat - 64 ≤ 26 ∧
      (String.utf8EncodeChar (Char.ofNat (x.toUpper.toNat - 64))).map UInt8.toNat =
        [x.toUpper.toNat - 64] := by
  have hall : ∀ n : Fin 123, (65 ≤ n.val ∧ n.val ≤ 90) ∨ (97 ≤ n.val ∧ n.val ≤ 122) →
      (unicode.IsSpace (Char.ofNat n.val) = false ∧ Char.ofNat n.val ≠ '|' ∧
        Char.ofNat n.val ≠ '\t' ∧ Char.ofNat n.val ≠ '\n' ∧ Char.ofNat n.val ≠ '\x0c' ∧
        Char.ofNat n.val ≠ '\r' ∧ Char.ofNat n.val ≠ ' ' ∧
        ((String.utf8EncodeChar (Char.ofNat n.val).toUpper).headD 0).toNat &&& 0b0111111 =
          (Char.ofNat n.val).toUpper.toNat - 64 ∧
        1 ≤ (Char.ofNat n.val).toUpper.toNat - 64 ∧ (Char.ofNat n.val).toUpper.toNat - 64 ≤ 26 ∧
        (String.utf8EncodeChar (Char.ofNat ((Char.ofNat n.val).toUpper.toNat - 64))).map
          UInt8.toNat = [(Char.ofNat n.val).toUpper.toNat - 64]) := by
    decide
  have hr := isAlpha_range x hx
  have hlt : x.toNat < 123 := by omega
  have h := hall ⟨x.toNat, hlt⟩ hr
  simpa only [Char.ofNat_toNat] using h

/-- A character whose lower case is `t` is `t` or the upper-case letter 32
below it. -/
theorem eq_of_toLower_eq (c t : Char) (h : c.toLower = t) :
    c = t ∨ (65 ≤ c.toNat ∧ c.toNat ≤ 90 ∧ c = Char.ofNat (t.toNat - 32)) := by
  unfold Char.toLower at h
  by_cases hc : c.toNat ≥ 65 ∧ c.toNat ≤ 90
  · right
    simp only [hc, ge_iff_le, and_self, if_true] at h
    have h2 : (Char.ofNat (c.toNat + 32)).toNat = t.toNat := by rw [h]
    have hv : (c.toNat + 32).isValidChar := by
      left
      omega
    have h4 : (Char.ofNat (c.toNat + 32)).toNat = c.toNat + 32 := by
      unfold Char.ofNat
      rw [dif_pos hv]
      rfl
    rw [h4] at h2
    have h3 : c.toNat = t.toNat - 32 := by omega
    refine ⟨hc.1, hc.2, ?_⟩
    rw [← h3, Char.ofNat_toNat]
  · left
    simpa only [hc, ge_iff_le, if_false] using h

/-- The texts that are `ctrl` and a separator when put in lower case. -/
theorem ctrl_of_map_toLower (l : List Char) (sep : Char) (hsep : sep = '-' ∨ sep = '+')
    (h : l.map Char.toLower = ['c', 't', 'r', 'l', sep]) :
    ∃ c1 c2 c3 c4, l = [c1, c2, c3, c4, sep] ∧
      (c1 = 'C' ∨ c1 = 'c') ∧ (c2 = 'T' ∨ c2 = 't') ∧ (c3 = 'R' ∨ c3 = 'r') ∧
      (c4 = 'L' ∨ c4 = 'l') := by
  rcases l with _ | ⟨c1, _ | ⟨c2, _ | ⟨c3, _ | ⟨c4, _ | ⟨c5, _ | ⟨c6, l⟩⟩⟩⟩⟩⟩
  all_goals first | (simp at h; done) | skip
  · simp only [List.map_cons, List.map_nil, List.cons.injEq, and_true] at h
    obtain ⟨e1, e2, e3, e4, e5⟩ := h
    have k1 := eq_of_toLower_eq c1 _ e1
    have k2 := eq_of_toLower_eq c2 _ e2
    have k3 := eq_of_toLower_eq c3 _ e3
    have k4 := eq_of_toLower_eq c4 _ e4
    have k5 : c5 = sep := by
      rcases eq_of_toLower_eq c5 _ e5 with k | ⟨a, b, k⟩
      · exact k
      · exfalso
        rcases hsep with e | e <;> subst e <;> subst k <;> revert a <;> decide
    subst k5
    refine ⟨c1, c2, c3, c4, rfl, ?_, ?_, ?_, ?_⟩
    · rcases k1 with k | ⟨-, -, k⟩
      · exact Or.inr k
      · exact Or.inl k
    · rcases k2 with k | ⟨-, -, k⟩
      · exact Or.inr k
      · exact Or.inl k
    · rcases k3 with k | ⟨-, -, k⟩
      · exact Or.inr k
      · exact Or.inl k
    · rcases k4 with k | ⟨-, -, k⟩
      · exact Or.inr k
      · exact Or.inl k

/-- Trimming leaves a text alone whose first and last characters are no spaces. -/
theorem TrimSpace_eq_self (a x : Char) (m : List Char) (ha : unicode.IsSpace a = false)
    (hx : unicode.IsSpace x = false) :
    strings.TrimSpace (String.mk (a :: (m ++ [x]))) = String.mk (a :: (m ++ [x])) := by
  unfold strings.TrimSpace
  have h1 : (a :: (m ++ [x])).dropWhile unicode.IsSpace = a :: (m ++ [x]) := by
    rw [List.dropWhile_cons_of_neg (by simp [ha])]
  have h2 : (a :: (m ++ [x])).reverse = x :: (a :: m).reverse := by simp
  have h3 : (x :: (a :: m).reverse).dropWhile unicode.IsSpace = x :: (a :: m).reverse := by
    rw [List.dropWhile_cons_of_neg (by simp [hx])]
  simp only [h1, h2, h3]
  simp

end telegram

end Tgshell

namespace Tgshell

namespace telegram

/-- The control branch of `command_run` for a letter after one of the
prefixes of the pattern. -/
theorem command_run_ctrl (env : Env) (s : State) (session : TgExecutorSession) (chatid : Int)
    (pre : List Char) (x : Char) (hready : session.Ready = true) (hx : x.isAlpha = true)
    (hpre : pre = ['^'] ∨ ∃ c1 c2 c3 c4 sep, pre = [c1, c2, c3, c4, sep] ∧
      (c1 = 'C' ∨ c1 = 'c') ∧ (c2 = 'T' ∨ c2 = 't') ∧ (c3 = 'R' ∨ c3 = 'r') ∧
      (c4 = 'L' ∨ c4 = 'l') ∧ (sep = '-' ∨ sep = '+'))
    (hupper : env.ToUpper (String.mk [x]) = String.mk [x.toUpper]) :
    command_run env s (some session) chatid (String.mk (pre ++ [x])) =
      some (s.emit (Effect.Exec session.Executor.id
        (String.mk [Char.ofNat (x.toUpper.toNat - 64)]) true)) := by
  obtain ⟨hsp, hbar, h1, h2, h3, h4, h5, hbyte, -, -, -⟩ := letter_facts x hx
  rcases hpre with hp | ⟨c1, c2, c3, c4, sep, hp, hc1, hc2, hc3, hc4, hsep⟩
  · subst hp
    have ht := TrimSpace_eq_self '^' x [] (by decide) hsp
    simp only [List.nil_append] at ht
    have hne : String.mk ['^', x] ≠ "" := by
      intro e
      have := congrArg String.data e
      simp at this
    have hst : strings.StartsWith (String.mk ['^', x]) "^|" = false := by
      have : "^|".data = ['^', '|'] := rfl
      simp [strings.StartsWith, this, List.isPrefixOf, Ne.symm hbar]
    have hre : CTRL_SEQUENCE_REGEXP (String.mk ['^', x]) = some (String.mk [x]) := by
      simp [CTRL_SEQUENCE_REGEXP, h1, h2, h3, h4, h5]
    unfold command_run
    simp only [List.cons_append, List.nil_append, ht, hready, hne, hst, hre, hupper, hbyte,
      Bool.not_true, Bool.false_eq_true, if_false]
  · subst hp
    have hsp1 : unicode.IsSpace c1 = false := by
      rcases hc1 with e | e <;> subst e <;> decide
    have ht := TrimSpace_eq_self c1 x [c2, c3, c4, sep] hsp1 hsp
    simp only [List.cons_append, List.nil_append] at ht
    have hne : String.mk [c1, c2, c3, c4, sep, x] ≠ "" := by
      intro e
      have := congrArg String.data e
      simp at this
    have hst : strings.StartsWith (String.mk [c1, c2, c3, c4, sep, x]) "^|" = false := by
      have : "^|".data = ['^', '|'] := rfl
      rcases hc1 with e | e <;> subst e <;> simp [strings.StartsWith, this, List.isPrefixOf]
    have hre : CTRL_SEQUENCE_REGEXP (String.mk [c1, c2, c3, c4, sep, x]) =
        some (String.mk [x]) := by
      simp [CTRL_SEQUENCE_REGEXP, h1, h2, h3, h4, h5, hc1, hc2, hc3, hc4, hsep]
    unfold command_run
    simp only [List.cons_append, List.nil_append, ht, hready, hne, hst, hre, hupper, hbyte,
      Bool.not_true, Bool.false_eq_true, if_false]

end telegram

end Tgshell

namespace Tgshell

namespace strings

/-- Cutting at the index `findIdx` gives is cutting where `takeWhile` stops. -/
theorem take_findIdx (p : Char → Bool) (l : List Char) :
    l.take (l.findIdx p) = l.takeWhile (fun c => !p c) ∧
      l.drop (l.findIdx p) = l.dropWhile (fun c => !p c) := by
  induction l with
  | nil => simp
  | cons a l ih =>
    by_cases h : p a = true
    · simp [List.findIdx_cons, h, List.takeWhile_cons, List.dropWhile_cons]
    · simp only [Bool.not_eq_true] at h
      simp [List.findIdx_cons, h, List.takeWhile_cons, List.dropWhile_cons, ih.1, ih.2]

/-- What `Index` answers: `-1` when the separator does not occur, and else an
index that cuts off the text before the first separator and, one further, the
text after it. -/
theorem Index_cases (s : String) (sep : Char) :
    (strings.Index s sep = none ∧ sep ∉ s.data ∧
        String.mk (s.data.takeWhile (fun c => decide (c ≠ sep))) = s) ∨
      (∃ i, strings.Index s sep = some i ∧ sep ∈ s.data ∧
        s.data.take i = s.data.takeWhile (fun c => decide (c ≠ sep)) ∧
        s.data.drop (i + 1) = (s.data.dropWhile (fun c => decide (c ≠ sep))).drop 1) := by
  have hf : (fun c : Char => !(c == sep)) = (fun c => decide (c ≠ sep)) := by
    funext c
    by_cases h : c = sep <;> simp [h]
  by_cases hm : sep ∈ s.data
  · right
    have hlt : s.data.findIdx (fun c => c == sep) < s.data.length :=
      List.findIdx_lt_length_of_exists ⟨sep, hm, by simp⟩
    refine ⟨s.data.findIdx (fun c => c == sep), ?_, hm, ?_, ?_⟩
    · simp only [strings.Index, hlt, if_true]
    · rw [(take_findIdx _ _).1, hf]
    · rw [← List.drop_drop, (take_findIdx _ _).2, hf]
  · left
    refine ⟨?_, hm, ?_⟩
    swap
    · have : s.data.takeWhile (fun c => decide (c ≠ sep)) = s.data := by
        rw [List.takeWhile_eq_self_iff]
        intro c hc
        simp only [ne_eq, decide_eq_true_eq]
        intro e
        exact hm (e ▸ hc)
      rw [this]
    have hge : ¬ s.data.findIdx (fun c => c == sep) < s.data.length := by
      intro hlt
      have := List.findIdx_getElem (w := hlt)
      simp only [beq_iff_eq] at this
      exact hm (this ▸ List.getElem_mem _)
    simp only [strings.Index, hge, if_false]

end strings

end Tgshell

namespace Tgshell

namespace shell

/-- The guard of `runBuiltin`: the first `;` is found before the last
character exactly when a `;` stands before the last character. -/
theorem separator_guard (l : List Char) :
    (l.findIdx (fun c => c == ';') < l.length ∧ l.findIdx (fun c => c == ';') + 1 < l.length) ↔
      ';' ∈ l.dropLast := by
  have hpre : l.dropLast <+: l := List.dropLast_prefix l
  have hlen : l.dropLast.length = l.length - 1 := List.length_dropLast l
  constructor
  · rintro ⟨-, h2⟩
    have hle := hpre.findIdx_le (p := fun c => c == ';')
    have hlt : l.dropLast.findIdx (fun c => c == ';') < l.dropLast.length := by omega
    obtain ⟨x, hx, hp⟩ := List.findIdx_lt_length.mp hlt
    simp only [beq_iff_eq] at hp
    exact hp ▸ hx
  · intro h
    have hlt : l.dropLast.findIdx (fun c => c == ';') < l.dropLast.length :=
      List.findIdx_lt_length_of_exists ⟨';', h, by simp⟩
    have heq := hpre.findIdx_eq_of_findIdx_lt_length hlt
    omega

end shell

end Tgshell

namespace Tgshell

namespace util

/-- The loop of `Chunks` loses nothing: the chunks it returns, put together,
are the chunks made so far, the current chunk and the rest of the text. -/
theorem ChunksLoop_flatten (chunkSize : Int) (rest cur : List Char) (currentLen : Int)
    (chunks : List String) :
    ((ChunksLoop chunkSize rest cur currentLen chunks).map String.data).flatten =
      (chunks.map String.data).flatten ++ cur ++ rest := by
  induction rest generalizing cur currentLen chunks with
  | nil => simp [ChunksLoop]
  | cons c rest ih =>
    unfold ChunksLoop
    split
    · rw [ih]
      simp
    · rw [ih]
      simp

/-- The loop of `Chunks` for a chunk size of at least 1: it returns a last
chunk of 1 to `chunkSize` characters after chunks of `chunkSize` characters. -/
theorem ChunksLoop_sizes (chunkSize : Int) (hsize : 1 ≤ chunkSize) (rest cur : List Char)
    (currentLen : Int) (chunks : List String)
    (hlen : currentLen = cur.length) (hle : currentLen ≤ chunkSize)
    (hne : cur ≠ [] ∨ rest ≠ [])
    (hfull : ∀ c ∈ chunks, (c.length : Int) = chunkSize) :
    ∃ init last, ChunksLoop chunkSize rest cur currentLen chunks = init ++ [last] ∧
      (∀ c ∈ init, (c.length : Int) = chunkSize) ∧
      1 ≤ (last.length : Int) ∧ (last.length : Int) ≤ chunkSize := by
  induction rest generalizing cur currentLen chunks with
  | nil =>
    refine ⟨chunks, String.mk cur, rfl, hfull, ?_, ?_⟩
    · have : cur ≠ [] := by
        rcases hne with h | h
        · exact h
        · exact absurd rfl h
      have : 0 < cur.length := List.length_pos.mpr this
      show (1 : Int) ≤ (cur.length : Int)
      omega
    · show (cur.length : Int) ≤ chunkSize
      omega
  | cons c rest ih =>
    unfold ChunksLoop
    split
    · rename_i heq
      apply ih
      · simp
      · simpa using hsize
      · left
        simp
      · intro x hx
        rcases List.mem_append.mp hx with h | h
        · exact hfull x h
        · simp only [List.mem_singleton] at h
          subst h
          show (cur.length : Int) = chunkSize
          omega
    · rename_i hneq
      apply ih
      · simp [hlen]
      · omega
      · left
        simp
      · exact hfull

/-- A text has at most as many characters as bytes. -/
theorem length_le_utf8ByteSize (s : String) : s.length ≤ s.utf8ByteSize := by
  obtain ⟨l⟩ := s
  show l.length ≤ String.utf8ByteSize ⟨l⟩
  rw [String.utf8ByteSize_mk]
  induction l with
  | nil => simp
  | cons c l ih =>
    have := Char.utf8Size_pos c
    simp only [List.length_cons, String.utf8Len_cons]
    omega

/-- Only the empty text has no bytes. -/
theorem utf8ByteSize_eq_zero (s : String) (h : s.utf8ByteSize = 0) : s = "" := by
  obtain ⟨l⟩ := s
  rw [String.utf8ByteSize_mk] at h
  cases l with
  | nil => rfl
  | cons c l =>
    have := Char.utf8Size_pos c
    simp only [String.utf8Len_cons] at h
    omega

end util

end Tgshell

namespace Tgshell

namespace config

/-- Storing the executors of a list keeps every name the map holds. -/
theorem isSome_get_foldl_set (l : List ConfigExecutorStruct)
    (m : List (String × ConfigExecutorStruct)) (k : String) (h : (GoMap.get m k).isSome = true) :
    (GoMap.get (l.foldl (fun m c => GoMap.set m c.Name c) m) k).isSome = true := by
  induction l generalizing m with
  | nil => exact h
  | cons c l ih =>
    apply ih
    by_cases hk : c.Name = k
    · subst hk
      rw [GoMap.get_set_self]
      rfl
    · rw [GoMap.get_set_ne _ _ (fun e => hk e.symm)]
      exact h

/-- Storing executors of other names leaves the binding of a name as it is. -/
theorem get_foldl_set_of_ne (l : List ConfigExecutorStruct)
    (m : List (String × ConfigExecutorStruct)) (k : String) (h : ∀ c ∈ l, c.Name ≠ k) :
    GoMap.get (l.foldl (fun m c => GoMap.set m c.Name c) m) k = GoMap.get m k := by
  induction l generalizing m with
  | nil => rfl
  | cons c l ih =>
    rw [List.foldl_cons, ih _ (fun x hx => h x (List.mem_cons_of_mem _ hx))]
    exact GoMap.get_set_ne _ _ (fun e => h c (List.mem_cons_self _ _) e.symm)

/-- The two internal names are always found by `GetExecutor`. -/
theorem GetExecutor_internal_isSome (cs : ConfigStruct) (name : String)
    (h : name = DEFAULT_EXECUTOR ∨ name = PTY_EXECUTOR) : (GetExecutor cs name).isSome = true := by
  unfold GetExecutor executorConfigMap
  apply isSome_get_foldl_set
  rcases h with h | h <;> subst h <;> rfl

/-- An internal name that no configured executor has is found as the internal
executor. -/
theorem GetExecutor_internal (cs : ConfigStruct) (name : String)
    (h : name = DEFAULT_EXECUTOR ∨ name = PTY_EXECUTOR) (hno : ∀ c ∈ cs.Executors, c.Name ≠ name) :
    ∃ c, GetExecutor cs name = some c ∧ c.Internal = true := by
  unfold GetExecutor executorConfigMap
  rw [get_foldl_set_of_ne _ _ _ hno]
  rcases h with h | h <;> subst h
  · exact ⟨_, rfl, rfl⟩
  · exact ⟨_, rfl, rfl⟩

end config

end Tgshell

namespace Tgshell

namespace config

/-- For a payload that is no number, `DelExecutorButton` removes the button at
the index `slices.IndexFunc` finds, and none when it finds none. -/
theorem removeButton_buttonIndex (payload : String) (buttons : List String)
    (h : strconv.Atoi payload = none) :
    removeButton buttons (buttonIndex payload buttons) =
      buttons.eraseIdx
        (buttons.findIdx (fun s => s == payload || strings.StartsWith s (payload ++ " "))) := by
  unfold buttonIndex removeButton
  rw [h]
  dsimp only
  by_cases hlt :
      buttons.findIdx (fun s => s == payload || strings.StartsWith s (payload ++ " ")) <
        buttons.length
  · rw [if_pos hlt, if_pos ⟨by omega, by omega⟩, List.eraseIdx_eq_take_drop_succ]
    rfl
  · rw [if_neg hlt, if_neg (by omega), List.eraseIdx_of_length_le (by omega)]

/-- The index `slices.IndexFunc` finds is that of the first button equal to
the payload when no earlier button starts with the payload and a blank. -/
theorem findIdx_eq_indexOf (payload : String) (buttons : List String)
    (hpre : ∀ b ∈ buttons.take (buttons.indexOf payload),
      strings.StartsWith b (payload ++ " ") = false) :
    buttons.findIdx (fun s => s == payload || strings.StartsWith s (payload ++ " ")) =
      buttons.indexOf payload := by
  induction buttons with
  | nil => rfl
  | cons b l ih =>
    by_cases hb : b = payload
    · subst hb
      simp [List.findIdx_cons, List.indexOf_cons]
    · have hidx : (b :: l).indexOf payload = l.indexOf payload + 1 := by
        simp [List.indexOf_cons, hb]
      rw [hidx] at hpre
      have hb2 : strings.StartsWith b (payload ++ " ") = false :=
        hpre b (by simp)
      have ih2 := ih (fun x hx => hpre x (by
        rw [List.take_succ_cons]
        exact List.mem_cons_of_mem _ hx))
      rw [hidx, List.findIdx_cons]
      have hb3 : (b == payload) = false := by simpa using hb
      simp only [hb2, hb3, Bool.or_self, cond_false, ih2]

end config

end Tgshell

namespace Tgshell

/-- The key of `/executor` past its guard: when the event loop handles
`/executor <name> ...` from conversation `chatid` for a configured executor
other than the default, past the "Already using" guard (line 658), and the
session exists already or its constructor succeeds, then
the key made active for the conversation, and the only key that may be new in
the session table, is `<name>` for a global configuration and
`<name>_<chatid>` (decimal) otherwise. -/
theorem executor_session_key_past_guard (env : telegram.Env) (disk : config.Disk) (s : telegram.State)
    (payload : String) (chatid : Int) (ctx : telegram.TeleContext) (name extraOption : String)
    (c : config.ConfigExecutorStruct)
    (hsplit : util.SplitFirstAndOthers payload = (name, extraOption))
    (hname : name ≠ "") (hdef : name ≠ "shell")
    (hnot : ¬ (s.activeSessions.GetActiveSessionName chatid = name ∨
      strings.StartsWith (s.activeSessions.GetActiveSessionName chatid) (name ++ "_") = true))
    (hcfg : config.GetExecutor s.ConfigData name = some c)
    (hsess : (GoMap.get s.executorSessions
        (if c.Global then name else name ++ "_" ++ fmt.d chatid)).isSome = true ∨
      ∃ chan, executor.Create env.Registry c extraOption = Except.ok chan) :
    ∃ s', telegram.handleCommand env disk s
        { Name := "/executor", Payload := payload, Chatid := chatid, C := ctx } = some s' ∧
      GoMap.get s'.activeSessions chatid =
        some (if c.Global then name else name ++ "_" ++ fmt.d chatid) ∧
      (GoMap.get s'.executorSessions
        (if c.Global then name else name ++ "_" ++ fmt.d chatid)).isSome = true ∧
      ∀ k, k ≠ (if c.Global then name else name ++ "_" ++ fmt.d chatid) →
        GoMap.get s'.executorSessions k = GoMap.get s.executorSessions k := by
  have hcn : c.Name = name := config.GetExecutor_name hcfg
  have h1 : (util.SplitFirstAndOthers payload).1 = name := by rw [hsplit]
  have h2 : (util.SplitFirstAndOthers payload).2 = extraOption := by rw [hsplit]
  have hkey : (if c.Global then c.Name else telegram.sessionKey c.Name chatid) =
      (if c.Global then name else name ++ "_" ++ fmt.d chatid) := by
    rw [hcn]; rfl
  rw [telegram.handleCommand_executor]
  cases hget : GoMap.get s.executorSessions
      (if c.Global then name else name ++ "_" ++ fmt.d chatid) with
  | some session =>
    rw [telegram.handleExecutor_existing env s _ payload c session (by rw [h1]; exact hname)
      (by rw [h1]; exact hnot) (by rw [h1]; exact hdef) (by rw [h1]; exact hcfg)
      (by rw [hkey]; exact hget)]
    refine ⟨_, rfl, ?_, ?_, ?_⟩
    · simp only [telegram.State.emit]
      rw [hkey]
      exact GoMap.get_set_self _ _ _
    · simp only [telegram.State.emit]
      rw [hget]; rfl
    · intro k _
      rfl
  | none =>
    rcases hsess with hsome | ⟨chan, hcreate⟩
    · rw [hget] at hsome
      cases hsome
    · rw [telegram.handleExecutor_created env s _ payload c chan (by rw [h1]; exact hname)
        (by rw [h1]; exact hnot) (by rw [h1]; exact hdef) (by rw [h1]; exact hcfg)
        (by rw [hkey]; exact hget) (by rw [h2]; exact hcreate)]
      refine ⟨_, rfl, ?_, ?_, ?_⟩
      · dsimp only
        rw [hkey]
        exact GoMap.get_set_self _ _ _
      · dsimp only
        rw [hkey, GoMap.get_set_self]; rfl
      · intro k hk
        dsimp only
        rw [hkey]
        exact GoMap.get_set_ne _ _ hk

/-- The key of `/executor` evaluated: from the start state, `/executor x` from conversation 42
registers and activates `x_42`, and `/executor g` registers and activates `g`. -/
theorem executor_session_key_past_guard_example :
    (∃ s', telegram.handleCommand telegram.sampleEnv {} (telegram.Start telegram.sampleConfig)
        { Name := "/executor", Payload := "x", Chatid := 42 } = some s' ∧
      GoMap.get s'.activeSessions 42 = some "x_42" ∧
      (GoMap.get s'.executorSessions "x_42").isSome = true ∧
      ∀ k, k ≠ "x_42" → GoMap.get s'.executorSessions k =
        GoMap.get (telegram.Start telegram.sampleConfig).executorSessions k) ∧
    (∃ s', telegram.handleCommand telegram.sampleEnv {} (telegram.Start telegram.sampleConfig)
        { Name := "/executor", Payload := "g", Chatid := 42 } = some s' ∧
      GoMap.get s'.activeSessions 42 = some "g" ∧
      (GoMap.get s'.executorSessions "g").isSome = true ∧
      ∀ k, k ≠ "g" → GoMap.get s'.executorSessions k =
        GoMap.get (telegram.Start telegram.sampleConfig).executorSessions k) :=
  ⟨executor_session_key_past_guard telegram.sampleEnv {} (telegram.Start telegram.sampleConfig) "x" 42 {}
      "x" "" { Name := "x", Type' := "ssh", Config := "example.org" }
      (by decide) (by decide) (by decide) (by decide) (by decide) (Or.inr ⟨true, rfl⟩),
   executor_session_key_past_guard telegram.sampleEnv {} (telegram.Start telegram.sampleConfig) "g" 42 {}
      "g" "" { Name := "g", Type' := "ssh", Config := "example.com", Global := true }
      (by decide) (by decide) (by decide) (by decide) (by decide) (Or.inr ⟨true, rfl⟩)⟩

end Tgshell

namespace Tgshell

namespace util

/-- The loop of `Chunks` for a negative chunk size never cuts: it returns the
chunks made so far and one chunk with the current chunk and the rest. -/
theorem ChunksLoop_of_neg (chunkSize : Int) (hneg : chunkSize < 0) (rest cur : List Char)
    (currentLen : Int) (chunks : List String) (hlen : 0 ≤ currentLen) :
    ChunksLoop chunkSize rest cur currentLen chunks = chunks ++ [String.mk (cur ++ rest)] := by
  induction rest generalizing cur currentLen with
  | nil => simp [ChunksLoop]
  | cons c rest ih =>
    unfold ChunksLoop
    rw [if_neg (by omega), ih _ _ (by omega)]
    simp

/-- The capacity `(len(s)-1)/chunkSize+1` of `Chunks` is negative for a negative
chunk size exactly when `len(s)-1` is at least twice its absolute value. -/
theorem capacity_neg_iff (a n : Int) (ha : 0 ≤ a) (hn : n < 0) :
    Int.tdiv a n + 1 < 0 ↔ -2 * n ≤ a := by
  have hm : (0 : Int) < -n := by omega
  have e : Int.tdiv a n = -(a / (-n)) := by
    have : n = -(-n) := by omega
    rw [this, Int.tdiv_neg, Int.tdiv_eq_ediv ha (by omega)]
    simp
  rw [e]
  have key : (2 : Int) ≤ a / (-n) ↔ 2 * (-n) ≤ a := Int.le_ediv_iff_mul_le hm
  constructor
  · intro h
    have := key.mp (by omega)
    omega
  · intro h
    have := key.mpr (by omega)
    omega

end util

end Tgshell

namespace Tgshell

namespace config

/-- The guarded removal at an index that is not negative removes the button at
that index, and none when the index is past the end. -/
theorem removeButton_of_nonneg (buttons : List String) (index : Int) (h : 0 ≤ index) :
    removeButton buttons index = buttons.eraseIdx index.toNat := by
  unfold removeButton
  by_cases hlt : (buttons.length : Int) > index
  · rw [if_pos ⟨h, hlt⟩, List.eraseIdx_eq_take_drop_succ]
  · rw [if_neg (fun hh => hlt hh.2), List.eraseIdx_of_length_le (by omega)]

/-- For a payload that is a number, the index used is that number. -/
theorem buttonIndex_of_number (payload : String) (buttons : List String) (index : Int)
    (h : strconv.Atoi payload = some index) : buttonIndex payload buttons = index := by
  unfold buttonIndex
  rw [h]

end config

end Tgshell
/-! ## The claims -/

namespace Tgshell

open telegram

/-- C1: for every active-session map and every conversation id without an entry
in it, `GetActiveSessionName` answers the default session key "shell" and
`IsDefaultExecutorActive` answers true. -/
theorem C1_no_entry_resolves_to_default (as : telegram.TgActiveSessions) (chatid : Int)
    (h : GoMap.get as chatid = none) :
    as.GetActiveSessionName chatid = "shell" ∧ as.IsDefaultExecutorActive chatid = true := by
  have hd : as.IsDefaultExecutorActive chatid = true := by
    simp [telegram.TgActiveSessions.IsDefaultExecutorActive, telegram.TgActiveSessions.index, h]
  refine ⟨?_, hd⟩
  simp [telegram.TgActiveSessions.GetActiveSessionName, hd, config.DEFAULT_EXECUTOR]

/-- Witness of C1: the map holding only an entry for conversation 7, asked for conversation 5. -/
theorem C1_no_entry_resolves_to_default_witness :
    GoMap.get ([(7, "x_7")] : telegram.TgActiveSessions) 5 = none ∧
      telegram.TgActiveSessions.GetActiveSessionName [(7, "x_7")] 5 = "shell" ∧
      telegram.TgActiveSessions.IsDefaultExecutorActive [(7, "x_7")] 5 = true :=
  ⟨by decide, C1_no_entry_resolves_to_default [(7, "x_7")] 5 (by decide)⟩

/-- C2: for every session table that holds the default key "shell" (its
executor being owned by that session alone) and every command of the event
loop, whatever its name, payload and conversation (`/close`, `/closeall` and
`/delexecutor` among them), once the command is handled the table still maps
"shell" to the same session and no `Close()` of that session's executor is
among the actions performed. -/
theorem C2_default_session_is_never_closed (env : telegram.Env) (disk : config.Disk)
    (s : telegram.State) (tgcmd : telegram.TgCommad) (session : telegram.TgExecutorSession)
    (hshell : GoMap.get s.executorSessions "shell" = some session)
    (hown : ∀ x ∈ s.executorSessions, x.1 ≠ "shell" → x.2.Executor.id ≠ session.Executor.id) :
    ∀ s', telegram.handleCommand env disk s tgcmd = some s' →
      GoMap.get s'.executorSessions "shell" = some session ∧
      ∃ new, s'.trace = new ++ s.trace ∧ telegram.Effect.Close session.Executor.id ∉ new := by
  intro s' h
  obtain ⟨h1, new, h2, h3⟩ := telegram.handleCommand_shell env disk s s' tgcmd session hshell h
  refine ⟨h1, new, h2, ?_⟩
  intro hmem
  obtain ⟨x, hx, hk, hid⟩ := h3 _ hmem _ rfl
  exact hown x hx hk hid

/-- Witness of C2: `/closeall`, and `/close x` from conversation 42, in a state
where conversation 42 uses its session of `x`, with executors whose `Close()`
returns. -/
theorem C2_default_session_is_never_closed_witness :
    GoMap.get telegram.sampleBusy.executorSessions "shell" = some telegram.sampleShell ∧
      (∃ s', telegram.handleCommand telegram.sampleEnv {} telegram.sampleBusy
          { Name := "/closeall" } = some s' ∧
        GoMap.get s'.executorSessions "shell" = some telegram.sampleShell) ∧
      (∃ s', telegram.handleCommand telegram.sampleEnv {} telegram.sampleBusy
          { Name := "/close", Payload := "x", Chatid := 42 } = some s' ∧
        GoMap.get s'.executorSessions "shell" = some telegram.sampleShell ∧
        s'.executorSessions.map Prod.fst = ["shell"]) :=
  ⟨by decide,
    (Option.isSome_iff_exists.mp (show (telegram.handleCommand telegram.sampleEnv {}
        telegram.sampleBusy { Name := "/closeall" }).isSome = true by decide)).elim
      (fun s' hs' => ⟨s', hs', (C2_default_session_is_never_closed telegram.sampleEnv {}
        telegram.sampleBusy { Name := "/closeall" } telegram.sampleShell (by decide) (by decide)
        s' hs').1⟩),
    (Option.isSome_iff_exists.mp (show (telegram.handleCommand telegram.sampleEnv {}
        telegram.sampleBusy { Name := "/close", Payload := "x", Chatid := 42 }).isSome = true
        by decide)).elim
      (fun s' hs' => ⟨s', hs', (C2_default_session_is_never_closed telegram.sampleEnv {}
        telegram.sampleBusy { Name := "/close", Payload := "x", Chatid := 42 }
        telegram.sampleShell (by decide) (by decide) s' hs').1, by
          have h : (telegram.handleCommand telegram.sampleEnv {} telegram.sampleBusy
              { Name := "/close", Payload := "x", Chatid := 42 }).map
              (fun s => s.executorSessions.map Prod.fst) = some ["shell"] := by decide
          rw [hs'] at h
          simpa using h⟩)⟩

/-- C3, evaluated where it fails: with the executors `a` and `a_b` configured
(neither is global), conversation 42 opens its session of `a` (key `a_42`) and
then its session of `a_b` (key `a_b_42`, which becomes active).  The command
`/executor a`, whose session exists, is answered "Already using a executor"
and the key `a_42` is not made active: the entry of 42 stays `a_b_42`. -/
theorem C3_existing_session_is_not_made_active :
    (config.GetExecutor sampleUnderscore "a").map (fun c => c.Global) = some false ∧
    sessionKey "a" 42 = "a_42" ∧
    (run sampleEnv (Start sampleUnderscore)
        [Event.command { Name := "/executor", Payload := "a", Chatid := 42 } {},
         Event.command { Name := "/executor", Payload := "a_b", Chatid := 42 } {}]).map
        (fun s => (s.executorSessions.map Prod.fst, s.activeSessions)) =
      some (["shell", "a_42", "a_b_42"], [(42, "a_b_42")]) ∧
    (run sampleEnv (Start sampleUnderscore)
        [Event.command { Name := "/executor", Payload := "a", Chatid := 42 } {},
         Event.command { Name := "/executor", Payload := "a_b", Chatid := 42 } {},
         Event.command { Name := "/executor", Payload := "a", Chatid := 42 } {}]).map
        (fun s => (s.trace.head?, s.executorSessions.map Prod.fst, s.activeSessions)) =
      some (some (Effect.Output 42 "Already using a executor"), ["shell", "a_42", "a_b_42"],
        [(42, "a_b_42")]) := by
  decide

/-- C4, evaluated where it fails: for the global executor `g`, `/executor g`
from conversation 42 registers and activates the key `g`, but the messages its
tasks put on `messenger` re-derive the key `g_42`, so an output message of `g`
is not shown (handling it changes nothing); for the non-global `x` both keys
are `x_42`. -/
theorem C4_message_key_of_global_executor :
    (telegram.run telegram.sampleEnv (telegram.Start telegram.sampleConfig)
        [telegram.sampleSwitch]).map
        (fun s => (s.executorSessions.map Prod.fst, s.activeSessions)) =
      some (["shell", "g"], [(42, "g")]) ∧
    (telegram.forwardTask telegram.sampleGlobal.Executor 42 (some "hello")).GetSessionName =
      "g_42" ∧
    (telegram.forwardTask telegram.sampleGlobal.Executor 42 none).GetSessionName = "g_42" ∧
    (telegram.openTaskFailed telegram.sampleGlobal "timeout").GetSessionName = "g_42" ∧
    telegram.run telegram.sampleEnv (telegram.Start telegram.sampleConfig)
        [telegram.sampleSwitch,
         telegram.Event.message (telegram.forwardTask telegram.sampleGlobal.Executor 42
           (some "hello"))] =
      telegram.run telegram.sampleEnv (telegram.Start telegram.sampleConfig)
        [telegram.sampleSwitch] ∧
    (telegram.forwardTask { id := 1, Name := "x", Chan := true } 42 none).GetSessionName =
      "x_42" := by
  decide

/-- C5: from a state where conversation `chatid` has the default executor
active and no session exists for the configured, non-default executor `name`
(none under its key, none owning an executor of that name) whose constructor
succeeds, handling `N >= 1` commands `/executor name ...` from that
conversation one after another is carried to the end, calls the constructor
exactly once, and leaves exactly one session of `name` in the session table. -/
theorem C5_repeated_switch_constructs_once (env : telegram.Env) (disk : config.Disk)
    (s : telegram.State) (payload : String) (chatid : Int) (ctx : telegram.TeleContext)
    (name extraOption : String) (c : config.ConfigExecutorStruct) (chan : Bool) (N : Nat)
    (hsplit : util.SplitFirstAndOthers payload = (name, extraOption))
    (hname : name ≠ "") (hdef : name ≠ "shell")
    (hcfg : config.GetExecutor s.ConfigData name = some c)
    (hactive : s.activeSessions.GetActiveSessionName chatid = "shell")
    (hnone : GoMap.get s.executorSessions
      (if c.Global then name else name ++ "_" ++ fmt.d chatid) = none)
    (hnosession : telegram.sessionsOf s name = [])
    (hcreate : executor.Create env.Registry c extraOption = Except.ok chan)
    (hN : 1 ≤ N) :
    ∃ s', telegram.run env s (List.replicate N (telegram.Event.command
        { Name := "/executor", Payload := payload, Chatid := chatid, C := ctx } disk)) = some s' ∧
      telegram.createCalls s'.trace = telegram.createCalls s.trace + 1 ∧
      telegram.constructed s'.trace = telegram.constructed s.trace + 1 ∧
      (telegram.sessionsOf s' name).length = 1 := by
  have hcn : c.Name = name := config.GetExecutor_name hcfg
  have h1 : (util.SplitFirstAndOthers payload).1 = name := by rw [hsplit]
  have h2 : (util.SplitFirstAndOthers payload).2 = extraOption := by rw [hsplit]
  have hkey : (if c.Global then c.Name else telegram.sessionKey c.Name chatid) =
      (if c.Global then name else name ++ "_" ++ fmt.d chatid) := by
    rw [hcn]; rfl
  have hnot : ¬ (s.activeSessions.GetActiveSessionName chatid = (util.SplitFirstAndOthers payload).1 ∨
      strings.StartsWith (s.activeSessions.GetActiveSessionName chatid)
        ((util.SplitFirstAndOthers payload).1 ++ "_") = true) := by
    rw [h1, hactive]
    intro h
    rcases h with h | h
    · exact hdef h.symm
    · have := not_startsWith_shell name
      rw [show config.DEFAULT_EXECUTOR = "shell" from rfl, h] at this
      cases this
  obtain ⟨n, rfl⟩ : ∃ n, N = n + 1 := ⟨N - 1, by omega⟩
  have hfirst := telegram.handleExecutor_created env s
    { Name := "/executor", Payload := payload, Chatid := chatid, C := ctx } payload c chan
    (by rw [h1]; exact hname) hnot (by rw [h1]; exact hdef) (by rw [h1]; exact hcfg)
    (by rw [hkey]; exact hnone) (by rw [h2]; exact hcreate)
  generalize hs1 : ({
      executorSessions := GoMap.set s.executorSessions
        (if c.Global then c.Name else telegram.sessionKey c.Name chatid)
        { Executor := { id := s.nextId, Name := c.Name, Chan := chan },
          Chatid := chatid, Ready := false },
      activeSessions := GoMap.set s.activeSessions chatid
        (if c.Global then c.Name else telegram.sessionKey c.Name chatid),
      ConfigData := s.ConfigData,
      nextId := s.nextId + 1,
      trace := telegram.Effect.Output chatid ("Active executor changed to '" ++ c.Name ++ "'") ::
        telegram.Effect.Open s.nextId ::
        ((if chan then [telegram.Effect.Forward s.nextId] else []) ++
          telegram.Effect.Create c.Name (util.SplitFirstAndOthers payload).2 true :: s.trace) } :
        telegram.State) = s1 at hfirst
  have e1 : s1.executorSessions = GoMap.set s.executorSessions
      (if c.Global then c.Name else telegram.sessionKey c.Name chatid)
      { Executor := { id := s.nextId, Name := c.Name, Chan := chan },
        Chatid := chatid, Ready := false } := by rw [← hs1]
  have e2 : s1.activeSessions = GoMap.set s.activeSessions chatid
      (if c.Global then c.Name else telegram.sessionKey c.Name chatid) := by rw [← hs1]
  have e3 : s1.ConfigData = s.ConfigData := by rw [← hs1]
  have e4 : telegram.createCalls s1.trace = telegram.createCalls s.trace + 1 := by
    rw [← hs1]; cases chan <;> simp [telegram.createCalls, List.filter]
  have e5 : telegram.constructed s1.trace = telegram.constructed s.trace + 1 := by
    rw [← hs1]; cases chan <;> simp [telegram.constructed, List.filter]
  obtain ⟨s2, g1, g2, g3, g4⟩ := telegram.run_executor_again env disk payload chatid ctx c
    { Executor := { id := s.nextId, Name := c.Name, Chan := chan }, Chatid := chatid, Ready := false }
    (by rw [h1]; exact hname) (by rw [h1]; exact hdef) n s1
    (by rw [e3, h1]; exact hcfg) (by rw [e1]; exact GoMap.get_set_self _ _ _)
    (by rw [e2]; exact telegram.GetActiveSessionName_set _ _ _)
  refine ⟨s2, ?_, by rw [g3, e4], by rw [g4, e5], ?_⟩
  · simp only [List.replicate_succ, telegram.run, telegram.step]
    rw [telegram.handleCommand_executor, hfirst]
    exact g1
  · unfold telegram.sessionsOf at hnosession ⊢
    rw [g2, e1, GoMap.set_of_get_none _ _ _ (by rw [hkey]; exact hnone), List.filter_append,
      hnosession]
    simp [List.filter, hcn]

/-- Witness of C5: three `/executor x` commands from conversation 42 at the start state. -/
theorem C5_repeated_switch_constructs_once_witness :
    ∃ s', telegram.run telegram.sampleEnv (telegram.Start telegram.sampleConfig)
        (List.replicate 3 (telegram.Event.command
          { Name := "/executor", Payload := "x", Chatid := 42 } {})) = some s' ∧
      telegram.createCalls s'.trace =
        telegram.createCalls (telegram.Start telegram.sampleConfig).trace + 1 ∧
      telegram.constructed s'.trace =
        telegram.constructed (telegram.Start telegram.sampleConfig).trace + 1 ∧
      (telegram.sessionsOf s' "x").length = 1 :=
  C5_repeated_switch_constructs_once telegram.sampleEnv {} (telegram.Start telegram.sampleConfig)
    "x" 42 {} "x" "" { Name := "x", Type' := "ssh", Config := "example.org" } true 3
    (by decide) (by decide) (by decide) (by decide) (by decide) (by decide) (by decide) rfl
    (by decide)

/-- C6: if the active session of conversation `chatid` belongs to executor
`name` (its key is `name` or `name_chatid`), then `/executor name ...` from
that conversation leaves the session table, the active-session map and the
configuration as they are, calls no constructor, and its only action is the
answer "Already using name executor". -/
theorem C6_switch_to_active_is_noop (env : telegram.Env) (disk : config.Disk)
    (s : telegram.State) (payload : String) (chatid : Int) (ctx : telegram.TeleContext)
    (name extraOption : String)
    (hsplit : util.SplitFirstAndOthers payload = (name, extraOption))
    (hname : name ≠ "")
    (hact : s.activeSessions.GetActiveSessionName chatid = name ∨
      s.activeSessions.GetActiveSessionName chatid = name ++ "_" ++ fmt.d chatid) :
    ∃ s', telegram.handleCommand env disk s
        { Name := "/executor", Payload := payload, Chatid := chatid, C := ctx } = some s' ∧
      s'.executorSessions = s.executorSessions ∧ s'.activeSessions = s.activeSessions ∧
      s'.ConfigData = s.ConfigData ∧ s'.nextId = s.nextId ∧
      s'.trace =
        telegram.Effect.Output chatid ("Already using " ++ name ++ " executor") :: s.trace := by
  have h1 : (util.SplitFirstAndOthers payload).1 = name := by rw [hsplit]
  rw [telegram.handleCommand_executor]
  unfold telegram.handleExecutor
  dsimp only
  rw [h1, if_neg hname]
  have hal : s.activeSessions.GetActiveSessionName chatid = name ∨
      strings.StartsWith (s.activeSessions.GetActiveSessionName chatid) (name ++ "_") = true := by
    rcases hact with h | h
    · exact Or.inl h
    · right
      rw [h]
      exact telegram.StartsWith_sessionKey name chatid
  rw [if_pos hal]
  exact ⟨_, rfl, rfl, rfl, rfl, rfl, rfl⟩

/-- Witness of C6: conversation 42 uses `x_42` and sends `/executor x`. -/
theorem C6_switch_to_active_is_noop_witness :
    ∃ s', telegram.handleCommand telegram.sampleEnv {} telegram.sampleBusy
        { Name := "/executor", Payload := "x", Chatid := 42 } = some s' ∧
      s'.executorSessions = telegram.sampleBusy.executorSessions ∧
      s'.activeSessions = telegram.sampleBusy.activeSessions ∧
      s'.ConfigData = telegram.sampleBusy.ConfigData ∧ s'.nextId = telegram.sampleBusy.nextId ∧
      s'.trace = telegram.Effect.Output 42 "Already using x executor" ::
        telegram.sampleBusy.trace :=
  C6_switch_to_active_is_noop telegram.sampleEnv {} telegram.sampleBusy "x" 42 {} "x" ""
    (by decide) (by decide) (Or.inr (by decide))

/-- C7: when the event loop handles a close message of executor `e` (an
executor started by `/executor`, so neither unnamed nor the default one) for
conversation `chatid`, the session `e_chatid` exists and the default session is
in the table, then that session is removed from the session table; if it was
the conversation's active session the conversation's entry is removed, so that
`GetActiveSessionName` answers "shell" afterwards; otherwise the
active-session map is unchanged. -/
theorem C7_close_message_tears_down (s : telegram.State) (e data : String) (chatid : Int)
    (session shell : telegram.TgExecutorSession)
    (he : e ≠ "") (hdef : e ≠ "shell")
    (hget : GoMap.get s.executorSessions (e ++ "_" ++ fmt.d chatid) = some session)
    (hshell : GoMap.get s.executorSessions "shell" = some shell) :
    ∃ s', telegram.handleMessage s
        { Type' := "close", Executor := e, Data := data, Chatid := chatid } = some s' ∧
      s'.executorSessions = GoMap.delete s.executorSessions (e ++ "_" ++ fmt.d chatid) ∧
      GoMap.get s'.executorSessions (e ++ "_" ++ fmt.d chatid) = none ∧
      (s.activeSessions.GetActiveSessionName chatid = e ++ "_" ++ fmt.d chatid →
        s'.activeSessions = GoMap.delete s.activeSessions chatid ∧
        s'.activeSessions.GetActiveSessionName chatid = "shell") ∧
      (s.activeSessions.GetActiveSessionName chatid ≠ e ++ "_" ++ fmt.d chatid →
        s'.activeSessions = s.activeSessions) := by
  obtain ⟨s', h1, h2, h3, h4⟩ := telegram.handleMessage_close s
    { Type' := "close", Executor := e, Data := data, Chatid := chatid } session shell rfl he hdef
    hget hshell
  refine ⟨s', h1, h2, ?_, ?_, h4⟩
  · rw [h2]; exact GoMap.get_delete_self _ _
  · intro hact
    have := h3 hact
    refine ⟨this, ?_⟩
    rw [this]
    exact telegram.GetActiveSessionName_delete _ _

/-- Witness of C7: the stream of `x` closes while conversation 42 uses `x_42`. -/
theorem C7_close_message_tears_down_witness :
    ∃ s', telegram.handleMessage telegram.sampleBusy
        { Type' := "close", Executor := "x", Data := "", Chatid := 42 } = some s' ∧
      s'.executorSessions = GoMap.delete telegram.sampleBusy.executorSessions "x_42" ∧
      GoMap.get s'.executorSessions "x_42" = none ∧
      (telegram.sampleBusy.activeSessions.GetActiveSessionName 42 = "x_42" →
        s'.activeSessions = GoMap.delete telegram.sampleBusy.activeSessions 42 ∧
        s'.activeSessions.GetActiveSessionName 42 = "shell") ∧
      (telegram.sampleBusy.activeSessions.GetActiveSessionName 42 ≠ "x_42" →
        s'.activeSessions = telegram.sampleBusy.activeSessions) :=
  C7_close_message_tears_down telegram.sampleBusy "x" "" 42
    { Executor := { id := 1, Name := "x", Chan := true }, Chatid := 42, Ready := true }
    telegram.sampleShell (by decide) (by decide) (by decide) (by decide)

/-- C8, evaluated where it fails: `/executor g` from conversation 42 creates the
session of the global executor `g`; when its `Open()` fails, the failure notice
and the close message reach the loop (in either order) and both are dropped:
the state is the one right after the command, with the session `g` still in the
table, not ready, and still active for conversation 42, and nothing was sent
to the conversation. -/
theorem C8_failed_open_of_global_executor :
    telegram.run telegram.sampleEnv (telegram.Start telegram.sampleConfig)
        [telegram.sampleSwitch,
         telegram.Event.message (telegram.openTaskFailed telegram.sampleGlobal "timeout"),
         telegram.Event.message (telegram.forwardTask telegram.sampleGlobal.Executor 42 none)] =
      telegram.run telegram.sampleEnv (telegram.Start telegram.sampleConfig)
        [telegram.sampleSwitch] ∧
    telegram.run telegram.sampleEnv (telegram.Start telegram.sampleConfig)
        [telegram.sampleSwitch,
         telegram.Event.message (telegram.forwardTask telegram.sampleGlobal.Executor 42 none),
         telegram.Event.message (telegram.openTaskFailed telegram.sampleGlobal "timeout")] =
      telegram.run telegram.sampleEnv (telegram.Start telegram.sampleConfig)
        [telegram.sampleSwitch] ∧
    (telegram.run telegram.sampleEnv (telegram.Start telegram.sampleConfig)
        [telegram.sampleSwitch]).map (fun s => (s.executorSessions, s.activeSessions)) =
      some ([("shell", telegram.sampleShell), ("g", telegram.sampleGlobal)], [(42, "g")]) := by
  decide

/-- C9: starting from an empty active-session map, after any sequence of
commands, messages and completed `Open()` calls that the event loop handles, no
entry of the active-session map has the default key "shell" or the empty string
as its value.  But `/executor shell` does not always delete the entry of the
conversation: it does so exactly when the active key is neither `shell` nor
starts with `shell_`, and else answers "Already using shell executor" and
leaves the map alone; so with an executor `shell_x` active for conversation
42, `/executor shell` keeps the entry `shell_x_42`. -/
theorem C9_default_never_stored_not_always_selected :
    (∀ (env : Env) (s s' : State) (evs : List Event),
        s.activeSessions = [] → run env s evs = some s' →
        ∀ e ∈ s'.activeSessions, e.2 ≠ "shell" ∧ e.2 ≠ "") ∧
    (∀ (env : Env) (disk : config.Disk) (s : State) (payload : String)
        (chatid : Int) (ctx : TeleContext) (extraOption : String),
        util.SplitFirstAndOthers payload = ("shell", extraOption) →
        handleCommand env disk s
            { Name := "/executor", Payload := payload, Chatid := chatid, C := ctx } =
          if s.activeSessions.GetActiveSessionName chatid = "shell" ∨
              strings.StartsWith (s.activeSessions.GetActiveSessionName chatid) "shell_" = true
          then some (s.emit (Effect.Output chatid "Already using shell executor"))
          else some ({ s with activeSessions := GoMap.delete s.activeSessions chatid }.emit
            (Effect.Output chatid MSG_RESET_EXECUTOR))) ∧
    (run sampleEnv (Start { Executors := [{ Name := "shell_x", Type' := "ssh" }] })
        [Event.command { Name := "/executor", Payload := "shell_x", Chatid := 42 } {},
         Event.command { Name := "/executor", Payload := "shell", Chatid := 42 } {}]).map
        (fun s => (s.trace.head?, s.executorSessions.map Prod.fst, s.activeSessions)) =
      some (some (Effect.Output 42 "Already using shell executor"), ["shell", "shell_x_42"],
        [(42, "shell_x_42")]) := by
  refine ⟨?_, ?_, by decide⟩
  · intro env s s' evs hempty hrun
    exact run_active env evs s s' (by rw [hempty]; simp) hrun
  · intro env disk s payload chatid ctx extraOption hsplit
    rw [handleCommand_executor]
    unfold handleExecutor
    dsimp only
    rw [hsplit]
    dsimp only
    rw [if_neg (by decide)]
    have e1 : ("shell" ++ "_" : String) = "shell_" := by decide
    have e2 : "Already using " ++ "shell" ++ " executor" = "Already using shell executor" := by
      decide
    rw [e1, e2]
    by_cases hg : s.activeSessions.GetActiveSessionName chatid = "shell" ∨
        strings.StartsWith (s.activeSessions.GetActiveSessionName chatid) "shell_" = true
    · rw [if_pos hg, if_pos hg]
    · rw [if_neg hg, if_neg hg, if_pos (show "shell" = config.DEFAULT_EXECUTOR from rfl)]

/-- Witness of C9: conversation 42 switches to `x`, conversation 7 to `g`, and 42 back to the default. -/
theorem C9_default_never_stored_not_always_selected_witness :
    ∃ s', run sampleEnv (Start sampleConfig)
        [Event.command { Name := "/executor", Payload := "x", Chatid := 42 } {},
         Event.command { Name := "/executor", Payload := "g", Chatid := 7 } {},
         Event.command { Name := "/executor", Payload := "shell", Chatid := 42 } {}]
        = some s' ∧
      s'.activeSessions = [(7, "g")] ∧
      ∀ e ∈ s'.activeSessions, e.2 ≠ "shell" ∧ e.2 ≠ "" := by
  have hsome : (run sampleEnv (Start sampleConfig)
        [Event.command { Name := "/executor", Payload := "x", Chatid := 42 } {},
         Event.command { Name := "/executor", Payload := "g", Chatid := 7 } {},
         Event.command { Name := "/executor", Payload := "shell", Chatid := 42 } {}]).isSome
        = true := by decide
  obtain ⟨s', hs'⟩ := Option.isSome_iff_exists.mp hsome
  have hact : (run sampleEnv (Start sampleConfig)
        [Event.command { Name := "/executor", Payload := "x", Chatid := 42 } {},
         Event.command { Name := "/executor", Payload := "g", Chatid := 7 } {},
         Event.command { Name := "/executor", Payload := "shell", Chatid := 42 } {}]).map
        (fun s => s.activeSessions) = some [(7, "g")] := by decide
  rw [hs'] at hact
  exact ⟨s', hs', by simpa using hact,
    C9_default_never_stored_not_always_selected.1 sampleEnv (Start sampleConfig) s' _
      rfl hs'⟩

/-- C10: for every list `s`, every `cap > 0` and every appended `els`,
`AppendUniqueCapSlice s cap els` has at most `cap` elements and holds no value
twice; hence the history of a `Shell` or `Ssh` executor that is within these
bounds (as the empty history of a new executor is) stays within 50 entries
without duplicates after any sequence of non-raw `Exec` calls. -/
theorem C10_history_capped_and_unique :
    (∀ (T : Type) [DecidableEq T] (s : List T) (cap : Int) (els : List T), cap > 0 →
        ((util.AppendUniqueCapSlice s cap els).length : Int) ≤ cap ∧
          (util.AppendUniqueCapSlice s cap els).Nodup) ∧
    (∀ (os : shell.OS) (sh : shell.Shell) (cmdlines : List String),
        sh.history.length ≤ 50 ∧ sh.history.Nodup →
        (cmdlines.foldl (fun e cmdline => (shell.Exec os e cmdline false).1) sh).history.length ≤ 50 ∧
          (cmdlines.foldl (fun e cmdline => (shell.Exec os e cmdline false).1) sh).history.Nodup) ∧
    (∀ (sh : ssh.Ssh) (cmdlines : List String),
        sh.history.length ≤ 50 ∧ sh.history.Nodup →
        (cmdlines.foldl (fun e cmdline => (ssh.Exec e cmdline false).1) sh).history.length ≤ 50 ∧
          (cmdlines.foldl (fun e cmdline => (ssh.Exec e cmdline false).1) sh).history.Nodup) := by
  have hcap : ∀ (h : List String) (c : String),
      (util.AppendUniqueCapSlice h constants.MAX_HISTORY [c]).length ≤ 50 ∧
        (util.AppendUniqueCapSlice h constants.MAX_HISTORY [c]).Nodup := by
    intro h c
    have h1 := util.AppendUniqueCapSlice_length h constants.MAX_HISTORY [c] (by decide)
    have h2 := util.AppendUniqueCapSlice_nodup h constants.MAX_HISTORY [c]
    refine ⟨?_, h2⟩
    have : constants.MAX_HISTORY = 50 := rfl
    omega
  refine ⟨?_, ?_, ?_⟩
  · intro T _ s cap els hpos
    exact ⟨util.AppendUniqueCapSlice_length s cap els hpos, util.AppendUniqueCapSlice_nodup s cap els⟩
  · intro os sh cmdlines
    induction cmdlines generalizing sh with
    | nil => intro h; exact h
    | cons c cs ih =>
      intro _
      simp only [List.foldl_cons]
      apply ih
      have hh : (shell.Exec os sh c false).1.history =
          util.AppendUniqueCapSlice sh.history constants.MAX_HISTORY [c] := by
        unfold shell.Exec
        simp only [Bool.not_false, if_true]
        split_ifs <;> rfl
      rw [hh]
      exact hcap _ _
  · intro sh cmdlines
    induction cmdlines generalizing sh with
    | nil => intro h; exact h
    | cons c cs ih =>
      intro _
      simp only [List.foldl_cons]
      apply ih
      have hh : (ssh.Exec sh c false).1.history =
          util.AppendUniqueCapSlice sh.history constants.MAX_HISTORY [c] := by
        simp [ssh.Exec]
      rw [hh]
      exact hcap _ _

/-- Witness of C10: appending `a` to `[a, b, c]` with cap 2, and a new `Shell`
and a new `Ssh` executor that run `a`, `b`, `a`. -/
theorem C10_history_capped_and_unique_witness :
    (((2 : Int) > 0) ∧
      ((util.AppendUniqueCapSlice ["a", "b", "c"] 2 ["a"]).length : Int) ≤ 2 ∧
      (util.AppendUniqueCapSlice ["a", "b", "c"] 2 ["a"]).Nodup) ∧
    ((["a", "b", "a"].foldl (fun e cmdline =>
        (shell.Exec { Cd := fun dir => Except.ok dir, Getwd := "/" } e cmdline false).1)
        { history := [], pty := false }).history.length ≤ 50 ∧
      (["a", "b", "a"].foldl (fun e cmdline =>
        (shell.Exec { Cd := fun dir => Except.ok dir, Getwd := "/" } e cmdline false).1)
        { history := [], pty := false }).history.Nodup) ∧
    ((["a", "b", "a"].foldl (fun e cmdline => (ssh.Exec e cmdline false).1)
        { history := [] }).history.length ≤ 50 ∧
      (["a", "b", "a"].foldl (fun e cmdline => (ssh.Exec e cmdline false).1)
        { history := [] }).history.Nodup) :=
  ⟨⟨by decide, C10_history_capped_and_unique.1 String ["a", "b", "c"] 2 ["a"] (by decide)⟩,
   C10_history_capped_and_unique.2.1 { Cd := fun dir => Except.ok dir, Getwd := "/" }
     { history := [], pty := false } ["a", "b", "a"] ⟨by decide, by decide⟩,
   C10_history_capped_and_unique.2.2 { history := [] } ["a", "b", "a"] ⟨by decide, by decide⟩⟩

/-- C11: for every duplicate-free list `s` of length at most `cap` (`cap > 0`)
and every `x` that occurs in `s`, `AppendUniqueCapSlice s cap [x]` is `s` with
`x` removed, followed by `x`: the other entries keep their relative order, the
length is that of `s`, and `x` is the last element. -/
theorem C11_resubmitted_entry_moves_to_the_end (T : Type) [DecidableEq T] (s : List T)
    (cap : Int) (x : T) (hnodup : s.Nodup) (hlen : (s.length : Int) ≤ cap) (hcap : cap > 0)
    (hx : x ∈ s) :
    util.AppendUniqueCapSlice s cap [x] = s.filter (fun y => decide (y ≠ x)) ++ [x] ∧
      (util.AppendUniqueCapSlice s cap [x]).length = s.length ∧
      (util.AppendUniqueCapSlice s cap [x]).getLast? = some x := by
  obtain ⟨h1, h2⟩ := util.keepLastOccurrences_readd s x hnodup hx
  have heq : util.AppendUniqueCapSlice s cap [x] = s.filter (fun y => decide (y ≠ x)) ++ [x] := by
    rw [util.AppendUniqueCapSlice_eq, h1]
    unfold util.lastElements
    rw [if_neg (by omega)]
    have : (s.filter (fun y => decide (y ≠ x)) ++ [x]).length - cap.toNat = 0 := by
      rw [List.length_append, List.length_singleton, h2]
      omega
    rw [this, List.drop_zero]
  refine ⟨heq, ?_, ?_⟩
  · rw [heq, List.length_append, List.length_singleton, h2]
  · rw [heq, List.getLast?_concat]

/-- Witness of C11: `b` is submitted again to the history `[a, b, c]` with cap 3. -/
theorem C11_resubmitted_entry_moves_to_the_end_witness :
    util.AppendUniqueCapSlice ["a", "b", "c"] 3 ["b"] =
        ["a", "b", "c"].filter (fun y => decide (y ≠ "b")) ++ ["b"] ∧
      (util.AppendUniqueCapSlice ["a", "b", "c"] 3 ["b"]).length = ["a", "b", "c"].length ∧
      (util.AppendUniqueCapSlice ["a", "b", "c"] 3 ["b"]).getLast? = some "b" :=
  C11_resubmitted_entry_moves_to_the_end String ["a", "b", "c"] 3 "b" (by decide) (by decide)
    (by decide) (by decide)

/-- C12: for every list `s`, every `cap` and every `els`,
`AppendUniqueCapSlice s cap els` is the last `cap` elements (all of them when
`cap <= 0`) of `s` followed by `els` with only the last occurrence of each
value kept in its original relative order; when `els` is not empty its final
element is the last element of the result; and when a new entry is added to a
duplicate-free history of exactly `cap` entries, the oldest entry is the one
dropped. -/
theorem C12_last_cap_of_last_occurrences :
    (∀ (T : Type) [DecidableEq T] (s : List T) (cap : Int) (els : List T),
        util.AppendUniqueCapSlice s cap els =
          util.lastElements cap (util.keepLastOccurrences (s ++ els))) ∧
    (∀ (T : Type) [DecidableEq T] (s : List T) (cap : Int) (els : List T), els ≠ [] →
        (util.AppendUniqueCapSlice s cap els).getLast? = els.getLast?) ∧
    (∀ (T : Type) [DecidableEq T] (s : List T) (cap : Int) (x : T),
        s.Nodup → (s.length : Int) = cap → x ∉ s →
        util.AppendUniqueCapSlice s cap [x] = s.drop 1 ++ [x]) := by
  refine ⟨?_, ?_, ?_⟩
  · intro T _ s cap els
    exact util.AppendUniqueCapSlice_eq s cap els
  · intro T _ s cap els h
    exact util.AppendUniqueCapSlice_getLast s cap els h
  · intro T _ s cap x hnd hlen hx
    have hnd' : (s ++ [x]).Nodup := by
      rw [List.nodup_append]
      refine ⟨hnd, List.nodup_singleton _, ?_⟩
      intro y hy hy'
      simp at hy'
      subst hy'
      exact hx hy
    rw [util.AppendUniqueCapSlice_eq, util.keepLastOccurrences_of_nodup _ hnd']
    unfold util.lastElements
    cases s with
    | nil =>
      simp at hlen
      subst hlen
      simp
    | cons a s =>
      have hpos : ¬ cap ≤ 0 := by
        simp at hlen
        omega
      rw [if_neg hpos]
      have : (a :: s ++ [x]).length - cap.toNat = 1 := by
        simp at hlen ⊢
        omega
      rw [this]
      rfl

/-- Witness of C12: the history `[a, b, c]` with cap 3 receives the new entry `d`, and the entries `b`, `a` with cap 2. -/
theorem C12_last_cap_of_last_occurrences_witness :
    util.AppendUniqueCapSlice ["a", "b", "c"] 3 ["d"] = ["b", "c", "d"] ∧
      (util.AppendUniqueCapSlice ["a", "b", "c"] 2 ["b", "a"]).getLast? = some "a" :=
  ⟨C12_last_cap_of_last_occurrences.2.2 String ["a", "b", "c"] 3 "d" (by decide) (by decide)
      (by decide),
    C12_last_cap_of_last_occurrences.2.1 String ["a", "b", "c"] 2 ["b", "a"] (by decide)⟩

/-- C13: for `Shell.Exec` and `Ssh.Exec` and every command line: with
`isRaw = true` the history after the call is the history before it; with
`isRaw = false` it is `AppendUniqueCapSlice` of the previous history, 50 and the
command line, whose last entry is the command line. -/
theorem C13_exec_history :
    (∀ (os : shell.OS) (s : shell.Shell) (cmdline : String),
        (shell.Exec os s cmdline true).1.history = s.history ∧
        (shell.Exec os s cmdline false).1.history =
          util.AppendUniqueCapSlice s.history 50 [cmdline] ∧
        (shell.Exec os s cmdline false).1.history.getLast? = some cmdline) ∧
    (∀ (s : ssh.Ssh) (cmdline : String),
        (ssh.Exec s cmdline true).1.history = s.history ∧
        (ssh.Exec s cmdline false).1.history =
          util.AppendUniqueCapSlice s.history 50 [cmdline] ∧
        (ssh.Exec s cmdline false).1.history.getLast? = some cmdline) := by
  constructor
  · intro os s cmdline
    have h2 : (shell.Exec os s cmdline false).1.history =
        util.AppendUniqueCapSlice s.history 50 [cmdline] := by
      unfold shell.Exec
      simp only [Bool.not_false, if_true]
      split_ifs <;> rfl
    refine ⟨?_, h2, ?_⟩
    · simp [shell.Exec]
    · rw [h2, util.AppendUniqueCapSlice_getLast _ _ _ (by simp)]
      rfl
  · intro s cmdline
    have h2 : (ssh.Exec s cmdline false).1.history =
        util.AppendUniqueCapSlice s.history 50 [cmdline] := by
      simp [ssh.Exec, constants.MAX_HISTORY]
    refine ⟨?_, h2, ?_⟩
    · simp [ssh.Exec]
    · rw [h2, util.AppendUniqueCapSlice_getLast _ _ _ (by simp)]
      rfl

/-- C14: for a ready session and every line whose trimmed text starts with
`^|`: if `Unquote` accepts the remainder (newlines replaced by backslash-n,
wrapped in double quotes when it holds no double quote) and returns `u`, then
`command_run` returns having recorded exactly one more action, the call
`Exec(u, isRaw = true)` on the session's executor, which leaves the history of
a `Shell` or `Ssh` executor as it was.  For the line `^|pwd\n` (backslash, n)
and an `Unquote` that unescapes its literal, the payload is the four characters
`p`, `w`, `d`, newline. -/
theorem C14_raw_line_is_unquoted_and_submitted (env : Env) (s : State)
    (session : TgExecutorSession) (chatid : Int) (line u : String)
    (hready : session.Ready = true)
    (hraw : strings.StartsWith (strings.TrimSpace line) "^|" = true)
    (hunquote : env.Unquote
      (if '"' ∈ (escapeNewlines (String.mk ((strings.TrimSpace line).data.drop 2))).data then
        escapeNewlines (String.mk ((strings.TrimSpace line).data.drop 2))
      else "\"" ++ escapeNewlines (String.mk ((strings.TrimSpace line).data.drop 2)) ++ "\"") =
        some u) :
    command_run env s (some session) chatid line =
        some (s.emit (Effect.Exec session.Executor.id u true)) ∧
      (s.emit (Effect.Exec session.Executor.id u true)).trace =
        Effect.Exec session.Executor.id u true :: s.trace ∧
      execCalls (s.emit (Effect.Exec session.Executor.id u true)).trace = execCalls s.trace + 1 ∧
      (∀ (os : shell.OS) (sh : shell.Shell),
        (shellAfter os session.Executor.id sh
            (s.emit (Effect.Exec session.Executor.id u true)).trace).history =
          (shellAfter os session.Executor.id sh s.trace).history) ∧
      (∀ sh : ssh.Ssh,
        (sshAfter session.Executor.id sh
            (s.emit (Effect.Exec session.Executor.id u true)).trace).history =
          (sshAfter session.Executor.id sh s.trace).history) ∧
      (env.Unquote "\"pwd\\n\"" = some (String.mk ['p', 'w', 'd', '\n']) →
        command_run env s (some session) chatid "^|pwd\\n" =
          some (s.emit (Effect.Exec session.Executor.id (String.mk ['p', 'w', 'd', '\n']) true))) := by
  refine ⟨?_, rfl, ?_, ?_, ?_, ?_⟩
  · rw [command_run_raw env s session chatid line hready hraw, hunquote]
  · simp [execCalls, State.emit]
  · intro os sh
    simp [State.emit, shellAfter, shell.Exec]
  · intro sh
    simp [State.emit, sshAfter, ssh.Exec]
  · intro h
    rw [command_run_raw env s session chatid "^|pwd\\n" hready (by decide)]
    rw [show (if '"' ∈ (escapeNewlines (String.mk ((strings.TrimSpace "^|pwd\\n").data.drop 2))).data
        then escapeNewlines (String.mk ((strings.TrimSpace "^|pwd\\n").data.drop 2))
        else "\"" ++ escapeNewlines (String.mk ((strings.TrimSpace "^|pwd\\n").data.drop 2)) ++ "\"") =
        "\"pwd\\n\"" from by decide, h]

/-- C14 at the line `^|pwd\n` (backslash, n) surrounded by blanks, for the
default session and the sample `Unquote`. -/
theorem C14_raw_line_is_unquoted_and_submitted_witness :
    sampleShell.Ready = true ∧
      strings.StartsWith (strings.TrimSpace "  ^|pwd\\n ") "^|" = true ∧
      command_run sampleRawEnv (Start sampleConfig) (some sampleShell) 42 "  ^|pwd\\n " =
        some (State.emit (Start sampleConfig) (Effect.Exec 0 (String.mk ['p', 'w', 'd', '\n']) true)) ∧
      command_run sampleRawEnv (Start sampleConfig) (some sampleShell) 42 "^|pwd\\n" =
        some (State.emit (Start sampleConfig) (Effect.Exec 0 (String.mk ['p', 'w', 'd', '\n']) true)) :=
  ⟨by decide, by decide,
    (C14_raw_line_is_unquoted_and_submitted sampleRawEnv (Start sampleConfig) sampleShell 42 "  ^|pwd\\n "
      (String.mk ['p', 'w', 'd', '\n']) (by decide) (by decide) (by decide)).1,
    (C14_raw_line_is_unquoted_and_submitted sampleRawEnv (Start sampleConfig) sampleShell 42 "  ^|pwd\\n "
      (String.mk ['p', 'w', 'd', '\n']) (by decide) (by decide) (by decide)).2.2.2.2.2
      (by decide)⟩

/-- C15: for a ready session and every line whose trimmed text starts with
`^|`: if `Unquote` rejects the remainder (newlines replaced by backslash-n,
wrapped in double quotes when it holds no double quote), then `command_run`
returns having recorded exactly two more actions, the notice "Invalid raw
input" sent to the output and the closing of the output; no `Exec` call is
recorded, and a `Shell` or `Ssh` executor is as it was, its history included. -/
theorem C15_invalid_raw_line_is_dropped (env : Env) (s : State)
    (session : TgExecutorSession) (chatid : Int) (line : String)
    (hready : session.Ready = true)
    (hraw : strings.StartsWith (strings.TrimSpace line) "^|" = true)
    (hunquote : env.Unquote
      (if '"' ∈ (escapeNewlines (String.mk ((strings.TrimSpace line).data.drop 2))).data then
        escapeNewlines (String.mk ((strings.TrimSpace line).data.drop 2))
      else "\"" ++ escapeNewlines (String.mk ((strings.TrimSpace line).data.drop 2)) ++ "\"") =
        none) :
    ∃ s', command_run env s (some session) chatid line = some s' ∧
      s'.trace = Effect.CloseOutput chatid :: Effect.Output chatid "Invalid raw input" :: s.trace ∧
      execCalls s'.trace = execCalls s.trace ∧
      (∀ (os : shell.OS) (id : Nat) (sh : shell.Shell),
        shellAfter os id sh s'.trace = shellAfter os id sh s.trace) ∧
      (∀ (id : Nat) (sh : ssh.Ssh), sshAfter id sh s'.trace = sshAfter id sh s.trace) ∧
      s'.executorSessions = s.executorSessions ∧ s'.activeSessions = s.activeSessions := by
  refine ⟨(s.emit (Effect.Output chatid "Invalid raw input")).emit (Effect.CloseOutput chatid),
    ?_, rfl, ?_, ?_, ?_, rfl, rfl⟩
  · rw [command_run_raw env s session chatid line hready hraw, hunquote]
  · simp [execCalls, State.emit]
  · intro os id sh
    simp [State.emit, shellAfter]
  · intro id sh
    simp [State.emit, sshAfter]

/-- C15 at the line `^|\q`, whose escape the sample `Unquote` rejects. -/
theorem C15_invalid_raw_line_is_dropped_witness :
    sampleShell.Ready = true ∧ strings.StartsWith (strings.TrimSpace "^|\\q") "^|" = true ∧
      sampleRawEnv.Unquote "\"\\q\"" = none ∧
      ∃ s', command_run sampleRawEnv (Start sampleConfig) (some sampleShell) 42 "^|\\q" = some s' ∧
        s'.trace = [Effect.CloseOutput 42, Effect.Output 42 "Invalid raw input"] :=
  ⟨by decide, by decide, by decide,
    (C15_invalid_raw_line_is_dropped sampleRawEnv (Start sampleConfig) sampleShell 42 "^|\\q"
      (by decide) (by decide) (by decide)).imp (fun _ h => ⟨h.1, h.2.1⟩)⟩

/-- C16: for a ready session, every ASCII letter `x` of either case and every
prefix that is `^`, or `Ctrl-` or `Ctrl+` written in any letter case, when
`ToUpper` gives the upper case of `x`, `command_run` on the prefix followed by
`x` returns having recorded one more action, the call of `Exec` with
`isRaw = true` whose payload is the one character with the code of the upper-case
letter minus 64; that code lies in 1..26 and its encoding is that one byte. -/
theorem C16_letter_gives_control_byte (env : Env) (s : State) (session : TgExecutorSession)
    (chatid : Int) (pre : String) (x : Char)
    (hready : session.Ready = true) (hx : x.isAlpha = true)
    (hpre : pre = "^" ∨ pre.data.map Char.toLower = ['c', 't', 'r', 'l', '-'] ∨
      pre.data.map Char.toLower = ['c', 't', 'r', 'l', '+'])
    (hupper : env.ToUpper (String.mk [x]) = String.mk [x.toUpper]) :
    command_run env s (some session) chatid (pre ++ String.mk [x]) =
        some (s.emit (Effect.Exec session.Executor.id
          (String.mk [Char.ofNat (x.toUpper.toNat - 64)]) true)) ∧
      1 ≤ x.toUpper.toNat - 64 ∧ x.toUpper.toNat - 64 ≤ 26 ∧
      (String.utf8EncodeChar (Char.ofNat (x.toUpper.toNat - 64))).map UInt8.toNat =
        [x.toUpper.toNat - 64] := by
  obtain ⟨-, -, -, -, -, -, -, -, hlo, hhi, henc⟩ := letter_facts x hx
  refine ⟨?_, hlo, hhi, henc⟩
  have hlist : pre.data = ['^'] ∨ ∃ c1 c2 c3 c4 sep, pre.data = [c1, c2, c3, c4, sep] ∧
      (c1 = 'C' ∨ c1 = 'c') ∧ (c2 = 'T' ∨ c2 = 't') ∧ (c3 = 'R' ∨ c3 = 'r') ∧
      (c4 = 'L' ∨ c4 = 'l') ∧ (sep = '-' ∨ sep = '+') := by
    rcases hpre with h | h | h
    · left
      rw [h]
    · right
      obtain ⟨c1, c2, c3, c4, e, k⟩ := ctrl_of_map_toLower pre.data '-' (Or.inl rfl) h
      exact ⟨c1, c2, c3, c4, '-', e, k.1, k.2.1, k.2.2.1, k.2.2.2, Or.inl rfl⟩
    · right
      obtain ⟨c1, c2, c3, c4, e, k⟩ := ctrl_of_map_toLower pre.data '+' (Or.inr rfl) h
      exact ⟨c1, c2, c3, c4, '+', e, k.1, k.2.1, k.2.2.1, k.2.2.2, Or.inr rfl⟩
  have happ : pre ++ String.mk [x] = String.mk (pre.data ++ [x]) := rfl
  rw [happ]
  exact command_run_ctrl env s session chatid pre.data x hready hx hlist hupper

/-- C16 at `^C`, `^c`, `^Z` and `cTrL+c` for the default session: the bytes
0x03, 0x03, 0x1A and 0x03. -/
theorem C16_letter_gives_control_byte_witness :
    command_run sampleRawEnv (Start sampleConfig) (some sampleShell) 42 "^C" =
        some ((Start sampleConfig).emit (Effect.Exec 0 (String.mk [Char.ofNat 0x03]) true)) ∧
      command_run sampleRawEnv (Start sampleConfig) (some sampleShell) 42 "^c" =
        some ((Start sampleConfig).emit (Effect.Exec 0 (String.mk [Char.ofNat 0x03]) true)) ∧
      command_run sampleRawEnv (Start sampleConfig) (some sampleShell) 42 "^Z" =
        some ((Start sampleConfig).emit (Effect.Exec 0 (String.mk [Char.ofNat 0x1A]) true)) ∧
      command_run sampleRawEnv (Start sampleConfig) (some sampleShell) 42 "cTrL+c" =
        some ((Start sampleConfig).emit (Effect.Exec 0 (String.mk [Char.ofNat 0x03]) true)) :=
  ⟨(C16_letter_gives_control_byte sampleRawEnv (Start sampleConfig) sampleShell 42 "^" 'C'
      (by decide) (by decide) (by decide) rfl).1,
    (C16_letter_gives_control_byte sampleRawEnv (Start sampleConfig) sampleShell 42 "^" 'c'
      (by decide) (by decide) (by decide) rfl).1,
    (C16_letter_gives_control_byte sampleRawEnv (Start sampleConfig) sampleShell 42 "^" 'Z'
      (by decide) (by decide) (by decide) rfl).1,
    (C16_letter_gives_control_byte sampleRawEnv (Start sampleConfig) sampleShell 42 "cTrL+" 'c'
      (by decide) (by decide) (by decide) rfl).1⟩

/-- C17, evaluated where it fails: the lines `^1` and `^?` match the
control-sequence pattern, and for the default session `command_run` submits
with `isRaw = true` the characters `1` and `?` themselves, the bytes 0x31 and
0x3F, which are not below 0x20: the mask `0b0111111` keeps bit 5. -/
theorem C17_digit_is_submitted_as_itself :
    CTRL_SEQUENCE_REGEXP "^1" = some "1" ∧
      command_run sampleRawEnv (Start sampleConfig) (some sampleShell) 42 "^1" =
        some ((Start sampleConfig).emit (Effect.Exec 0 "1" true)) ∧
      "1".data.flatMap String.utf8EncodeChar = [0x31] ∧
      command_run sampleRawEnv (Start sampleConfig) (some sampleShell) 42 "^?" =
        some ((Start sampleConfig).emit (Effect.Exec 0 "?" true)) ∧
      "?".data.flatMap String.utf8EncodeChar = [0x3F] ∧
      ¬ (0x31 < 0x20) := by
  decide

/-- C18: when the configuration line splits into tokens and the flag parser
leaves a destination and at most one further argument, `NewExecutor` returns
as follows.  The username is the text before the first `@` of the destination,
or without an `@` the current user name, `root` if that lookup fails; the
hostname is the text after that `@` (the whole destination without one) up to
its first `:`; the port is the number `Atoi` reads after that `:`, or without
a `:` the value of `-p`, or 22 when that is 0 (absent).  An executor with
these three is returned exactly if the port is read, username and hostname are
not empty and the port lies in 1..65535; otherwise an error is returned. -/
theorem C18_destination_is_user_host_port (lib : ssh.Linked)
    (executorConfig : config.ConfigExecutorStruct) (extraOption : String) (tokens : List String)
    (options : ssh.optionsStruct) (destination : String) (more : List String)
    (hsplit : lib.Split
      ((if executorConfig.Config ≠ "" ∧ extraOption ≠ "" then executorConfig.Config ++ " "
        else executorConfig.Config) ++ extraOption) = some tokens)
    (hparse : lib.ParseArgs tokens = some (options, destination :: more))
    (hmore : more.length ≤ 1) :
    let username : String :=
      if '@' ∈ destination.data then String.mk (destination.data.takeWhile (fun c => c ≠ '@'))
      else lib.Current.getD "root"
    let afterAt : List Char :=
      if '@' ∈ destination.data then (destination.data.dropWhile (fun c => c ≠ '@')).drop 1
      else destination.data
    let hostname : String := String.mk (afterAt.takeWhile (fun c => c ≠ ':'))
    let port : Option Int :=
      if ':' ∈ afterAt then strconv.Atoi (String.mk ((afterAt.dropWhile (fun c => c ≠ ':')).drop 1))
      else some (if options.Port = 0 then 22 else options.Port)
    ssh.NewExecutor lib executorConfig extraOption =
      match port with
      | none => none
      | some p =>
        if username ≠ "" ∧ hostname ≠ "" ∧ 0 < p ∧ p ≤ 65535 then
          some { executorConfig := executorConfig, username := username, hostname := hostname,
                 password := executorConfig.Secret, command := more.headD "",
                 options := { options with Port := p } }
        else none := by
  intro username afterAt hostname port
  have hlen : ¬ (more.length + 1 > 2) := by omega
  unfold ssh.NewExecutor
  simp only [hsplit, hparse, hlen, if_false]
  rcases strings.Index_cases destination '@' with ⟨hi, hm, -⟩ | ⟨i, hi, hm, ht, hd⟩
  · simp only [hi, username, afterAt, hostname, port, hm, if_false]
    rcases strings.Index_cases destination ':' with ⟨hj, hn, hT⟩ | ⟨j, hj, hn, ht2, hd2⟩
    · simp only [hj, hn, if_false, hT]
      cases lib.Current <;> by_cases hp : options.Port = 0 <;>
        simp only [hp, if_true, if_false, Option.getD] <;> split_ifs <;> simp_all <;> omega
    · simp only [hj, hn, if_true, ht2, hd2]
      cases lib.Current <;>
        cases strconv.Atoi (String.mk ((destination.data.dropWhile (fun c => c ≠ ':')).drop 1)) <;>
        simp only [Option.getD] <;> split_ifs <;> simp_all <;> omega
  · simp only [hi, username, afterAt, hostname, port, hm, if_true, ht, hd]
    rcases strings.Index_cases
        (String.mk ((destination.data.dropWhile (fun c => c ≠ '@')).drop 1)) ':' with
      ⟨hj, hn, hT⟩ | ⟨j, hj, hn, ht2, hd2⟩
    · dsimp only at hn hT
      simp only [hj, hn, if_false, hT]
      by_cases hp : options.Port = 0 <;>
        simp only [hp, if_true, if_false] <;> split_ifs <;> simp_all
      omega
    · dsimp only at hn ht2 hd2
      simp only [hj, hn, if_true, ht2, hd2]
      generalize strconv.Atoi (String.mk (List.drop 1 (List.dropWhile (fun c => decide (c ≠ ':'))
        (List.drop 1 (List.dropWhile (fun c => decide (c ≠ '@')) destination.data))))) = a
      cases a with
      | none => rfl
      | some p =>
        dsimp only
        split_ifs <;> simp_all
        omega

/-- C18 at the destinations `bob@host:2222` and `host` with the sample
libraries (current user `alice`): (bob, host, 2222) and (alice, host, 22);
`root` when the user lookup fails, and 2200 for `host` when `-p` is 2200. -/
theorem C18_destination_is_user_host_port_witness :
    ssh.NewExecutor sampleLinked { Name := "s", Type' := "ssh", Config := "bob@host:2222" } "" =
        some { executorConfig := { Name := "s", Type' := "ssh", Config := "bob@host:2222" },
               username := "bob", hostname := "host", options := { Port := 2222 } } ∧
      ssh.NewExecutor sampleLinked { Name := "s", Type' := "ssh", Config := "host" } "" =
        some { executorConfig := { Name := "s", Type' := "ssh", Config := "host" },
               username := "alice", hostname := "host", options := { Port := 22 } } ∧
      ssh.NewExecutor { sampleLinked with Current := none }
          { Name := "s", Type' := "ssh", Config := "host" } "" =
        some { executorConfig := { Name := "s", Type' := "ssh", Config := "host" },
               username := "root", hostname := "host", options := { Port := 22 } } ∧
      ssh.NewExecutor { sampleLinked with ParseArgs := fun args => some ({ Port := 2200 }, args) }
          { Name := "s", Type' := "ssh", Config := "host" } "" =
        some { executorConfig := { Name := "s", Type' := "ssh", Config := "host" },
               username := "alice", hostname := "host", options := { Port := 2200 } } :=
  ⟨(C18_destination_is_user_host_port sampleLinked
      { Name := "s", Type' := "ssh", Config := "bob@host:2222" } "" ["bob@host:2222"]
      ({} : ssh.optionsStruct) "bob@host:2222" [] (by decide) (by rfl) (by decide)).trans
      (by decide),
    (C18_destination_is_user_host_port sampleLinked
      { Name := "s", Type' := "ssh", Config := "host" } "" ["host"]
      ({} : ssh.optionsStruct) "host" [] (by decide) (by rfl) (by decide)).trans (by decide),
    (C18_destination_is_user_host_port { sampleLinked with Current := none }
      { Name := "s", Type' := "ssh", Config := "host" } "" ["host"]
      ({} : ssh.optionsStruct) "host" [] (by decide) (by rfl) (by decide)).trans (by decide),
    (C18_destination_is_user_host_port
      { sampleLinked with ParseArgs := fun args => some ({ Port := 2200 }, args) }
      { Name := "s", Type' := "ssh", Config := "host" } "" ["host"]
      ({ Port := 2200 } : ssh.optionsStruct) "host" [] (by decide) (by rfl) (by decide)).trans
      (by decide)⟩

/-- C19, evaluated where it fails: for an argument of the two fields `a0:a1`
the loop over `-R` calls `TCPReverseDynamicForward("0.0.0.0", a1)`, whatever
`a0` is, while the loop over `-D` calls `TCPDynamicForward(a0, a1)`; so `Open`
with `-R 127.0.0.1:80 -D 127.0.0.1:80` binds the reverse forward on 0.0.0.0
port 80 and the dynamic forward on 127.0.0.1 port 80. -/
theorem C19_remote_forward_binds_all_addresses :
    (∀ a0 a1 : String,
        ssh.remoteForwardArgs [a0, a1] =
            some (ssh.Forward.TCPReverseDynamicForward "0.0.0.0" a1) ∧
          ssh.dynamicForwardArgs [a0, a1] = some (ssh.Forward.TCPDynamicForward a0 a1)) ∧
      strings.Split "127.0.0.1:80" ':' = ["127.0.0.1", "80"] ∧
      ssh.openForwards (fun _ => true)
          { RemoteForwards := ["127.0.0.1:80"], DynamicForwards := ["127.0.0.1:80"] } =
        ([ssh.Forward.TCPReverseDynamicForward "0.0.0.0" "80",
          ssh.Forward.TCPDynamicForward "127.0.0.1" "80"], true) :=
  ⟨fun _ _ => ⟨rfl, rfl⟩, by decide, by decide⟩

/-- C20, as the code has it: for every command line, `runBuiltin` reports
`handled = true` exactly if no `;` stands before the last character of the line
(a `;` that ends the line is let through) and the first part that
`SplitFirstAndOthers` cuts off is `cd` or `pwd`. -/
theorem C20_builtin_iff_no_inner_separator (os : shell.OS) (cmdline : String) :
    (shell.runBuiltin os cmdline).2 = true ↔
      ';' ∉ cmdline.data.dropLast ∧
        ((util.SplitFirstAndOthers cmdline).1 = "cd" ∨
          (util.SplitFirstAndOthers cmdline).1 = "pwd") := by
  unfold shell.runBuiltin
  by_cases hg : ';' ∈ cmdline.data.dropLast
  · have hg2 := (shell.separator_guard cmdline.data).mpr hg
    simp only [hg2, and_self, if_true, hg, not_true_eq_false, false_and]
    simp
  · have hg2 : ¬ _ := fun h => hg ((shell.separator_guard cmdline.data).mp h)
    simp only [hg2, if_false, hg, not_false_eq_true, true_and]
    by_cases hcd : (util.SplitFirstAndOthers cmdline).1 = "cd"
    · simp only [hcd, if_true, true_or, iff_true]
      cases os.Cd (util.SplitFirstAndOthers cmdline).2 <;> rfl
    · by_cases hpwd : (util.SplitFirstAndOthers cmdline).1 = "pwd"
      · simp only [hpwd, show ¬ ("pwd" = "cd") from by decide, if_true, if_false, or_true]
      · simp only [hcd, hpwd, if_false, or_self, iff_false]
        simp

/-- C20, a line that is handled with a `;` in it: `pwd ;` is answered by the
builtin `pwd` with the working directory, no process is spawned. -/
theorem C20_trailing_separator_is_handled :
    shell.runBuiltin sampleOS "pwd ;" = ("/root", true) ∧ ';' ∈ "pwd ;".data ∧
      (shell.Exec sampleOS { pty := false } "pwd ;" false).2 = shell.Submitted.builtin "/root" := by
  decide

/-- C20 evaluated: `cd /tmp` and `pwd` are handled, `pwd; ls` and `ls` are not. -/
theorem C20_builtin_iff_no_inner_separator_witness :
    (shell.runBuiltin sampleOS "cd /tmp").2 = true ∧ (shell.runBuiltin sampleOS "pwd").2 = true ∧
      (shell.runBuiltin sampleOS "pwd; ls").2 = false ∧ (shell.runBuiltin sampleOS "ls").2 = false :=
  ⟨(C20_builtin_iff_no_inner_separator sampleOS "cd /tmp").mpr (by decide),
    (C20_builtin_iff_no_inner_separator sampleOS "pwd").mpr (by decide),
    by decide, by decide⟩

/-- C21: `executor.Create` returns the error "no executor of type ... found"
whenever no registered type name equals the configuration's `Type`; and when
`/executor <name>` reaches the constructor (the name is configured, is not the
default, is not the one in use, and has no session yet) and `Create` returns an
error, the command returns with the session table, the active-session map and
the configuration as they were: the failed call and the answer "Failed to
create executor" are all that is recorded. -/
theorem C21_failed_construction_makes_no_session (env : Env) (disk : config.Disk) (s : State)
    (payload : String) (chatid : Int) (ctx : TeleContext) (c : config.ConfigExecutorStruct)
    (err : String)
    (hname : (util.SplitFirstAndOthers payload).1 ≠ "")
    (hnot : ¬ (s.activeSessions.GetActiveSessionName chatid = (util.SplitFirstAndOthers payload).1 ∨
      strings.StartsWith (s.activeSessions.GetActiveSessionName chatid)
        ((util.SplitFirstAndOthers payload).1 ++ "_") = true))
    (hdef : (util.SplitFirstAndOthers payload).1 ≠ config.DEFAULT_EXECUTOR)
    (hcfg : config.GetExecutor s.ConfigData (util.SplitFirstAndOthers payload).1 = some c)
    (hget : GoMap.get s.executorSessions
      (if c.Global then c.Name else sessionKey c.Name chatid) = none)
    (hcreate : executor.Create env.Registry c (util.SplitFirstAndOthers payload).2 =
      Except.error err) :
    (∃ s', handleCommand env disk s
          { Name := "/executor", Payload := payload, Chatid := chatid, C := ctx } = some s' ∧
        s'.executorSessions = s.executorSessions ∧ s'.activeSessions = s.activeSessions ∧
        s'.ConfigData = s.ConfigData ∧ s'.nextId = s.nextId ∧
        s'.trace =
          Effect.Output chatid ("Failed to create executor '" ++ c.Name ++ "': " ++ err) ::
            Effect.Create c.Name (util.SplitFirstAndOthers payload).2 false :: s.trace) ∧
      (∀ (Registry : List executor.RegInfo) (executorConfig : config.ConfigExecutorStruct)
          (extraOption : String),
        (∀ reg ∈ Registry, reg.Name ≠ executorConfig.Type') →
          executor.Create Registry executorConfig extraOption =
            Except.error ("no executor of type '" ++ executorConfig.Type' ++ "' found")) := by
  constructor
  · refine ⟨(s.emit (Effect.Create c.Name (util.SplitFirstAndOthers payload).2 false)).emit
      (Effect.Output chatid ("Failed to create executor '" ++ c.Name ++ "': " ++ err)),
      ?_, rfl, rfl, rfl, rfl, rfl⟩
    rw [handleCommand_executor]
    unfold handleExecutor
    dsimp only
    rw [if_neg hname, if_neg hnot, if_neg hdef, hcfg]
    dsimp only
    rw [newSessionName_eq, hget]
    dsimp only
    rw [hcreate]
  · intro Registry executorConfig extraOption hno
    unfold executor.Create
    have : Registry.find? (fun reg => reg.Name == executorConfig.Type') = none := by
      rw [List.find?_eq_none]
      intro reg hreg
      simpa using hno reg hreg
    rw [this]

/-- C21 at `/executor x` from conversation 42 at the start state: with a
registry whose `ssh` constructor rejects the configuration, and with no `ssh`
type registered at all, the table keeps the default session alone and the
active-session map stays empty. -/
theorem C21_failed_construction_makes_no_session_witness :
    (∃ s', handleCommand
          { sampleEnv with Registry := [{ Name := "ssh", Creator := fun _ _ => Except.error "invalid config" }] }
          {} (Start sampleConfig) { Name := "/executor", Payload := "x", Chatid := 42 } = some s' ∧
        s'.executorSessions = (Start sampleConfig).executorSessions ∧ s'.activeSessions = []) ∧
      (∃ s', handleCommand { sampleEnv with Registry := [] }
          {} (Start sampleConfig) { Name := "/executor", Payload := "x", Chatid := 42 } = some s' ∧
        s'.executorSessions = (Start sampleConfig).executorSessions ∧ s'.activeSessions = [] ∧
        s'.trace.head? = some (Effect.Output 42
          "Failed to create executor 'x': no executor of type 'ssh' found")) :=
  ⟨(C21_failed_construction_makes_no_session
      { sampleEnv with Registry := [{ Name := "ssh", Creator := fun _ _ => Except.error "invalid config" }] }
      {} (Start sampleConfig) "x" 42 {} { Name := "x", Type' := "ssh", Config := "example.org" }
      "invalid config" (by decide) (by decide) (by decide) (by decide) (by decide) rfl).1.imp
      (fun _ h => ⟨h.1, h.2.1, h.2.2.1⟩),
    (C21_failed_construction_makes_no_session { sampleEnv with Registry := [] }
      {} (Start sampleConfig) "x" 42 {} { Name := "x", Type' := "ssh", Config := "example.org" }
      "no executor of type 'ssh' found" (by decide) (by decide) (by decide) (by decide)
      (by decide) rfl).1.imp
      (fun _ h => ⟨h.1, h.2.1, h.2.2.1, by rw [h.2.2.2.2.2]; rfl⟩)⟩

/-- C22: `AddExecutor` returns the error "already exists" when `GetExecutor`
finds the name, which it always does for the internal names `shell` and `pty`;
`DelExecutor` returns an error when `GetExecutor` does not find the name or
finds an internal executor, as it does for `shell` and `pty` when no configured
executor has that name.  In each of these cases the `ConfigData` returned is
the one given, so the executor list and every `GetExecutor` lookup are
unchanged. -/
theorem C22_registry_errors_change_nothing (disk : config.Disk) (cs : config.ConfigStruct) :
    (∀ executor : config.ConfigExecutorStruct,
        (config.GetExecutor cs executor.Name).isSome = true →
          config.AddExecutor disk cs executor =
            (cs, some ("'" ++ executor.Name ++ "' executor already exists"))) ∧
      (∀ executor : config.ConfigExecutorStruct,
        executor.Name = "shell" ∨ executor.Name = "pty" →
          config.AddExecutor disk cs executor =
            (cs, some ("'" ++ executor.Name ++ "' executor already exists"))) ∧
      (∀ name : String, config.GetExecutor cs name = none →
        config.DelExecutor disk cs name = (cs, some ("'" ++ name ++ "' executor does NOT exist"))) ∧
      (∀ (name : String) (executor : config.ConfigExecutorStruct),
        config.GetExecutor cs name = some executor → executor.Internal = true →
          config.DelExecutor disk cs name =
            (cs, some ("'" ++ name ++ "' is a internal executor and can NOT be deleted"))) ∧
      (∀ name : String, name = "shell" ∨ name = "pty" →
        (∀ c ∈ cs.Executors, c.Name ≠ name) →
          config.DelExecutor disk cs name =
            (cs, some ("'" ++ name ++ "' is a internal executor and can NOT be deleted"))) ∧
      (∀ (executor : config.ConfigExecutorStruct) (err : String),
        config.AddExecutor disk cs executor = (cs, some err) →
          (config.AddExecutor disk cs executor).1.Executors = cs.Executors ∧
            config.GetExecutor (config.AddExecutor disk cs executor).1 = config.GetExecutor cs) := by
  have hadd : ∀ executor : config.ConfigExecutorStruct,
      (config.GetExecutor cs executor.Name).isSome = true →
        config.AddExecutor disk cs executor =
          (cs, some ("'" ++ executor.Name ++ "' executor already exists")) := by
    intro executor h
    unfold config.AddExecutor
    rw [if_pos h]
  have hdel : ∀ (name : String) (executor : config.ConfigExecutorStruct),
      config.GetExecutor cs name = some executor → executor.Internal = true →
        config.DelExecutor disk cs name =
          (cs, some ("'" ++ name ++ "' is a internal executor and can NOT be deleted")) := by
    intro name executor h hint
    unfold config.DelExecutor
    rw [h]
    dsimp only
    rw [if_pos hint]
  refine ⟨hadd, ?_, ?_, hdel, ?_, ?_⟩
  · intro executor h
    exact hadd executor (config.GetExecutor_internal_isSome cs _ h)
  · intro name h
    unfold config.DelExecutor
    rw [h]
  · intro name h hno
    obtain ⟨c, hc, hint⟩ := config.GetExecutor_internal cs name h hno
    exact hdel name c hc hint
  · intro executor err h
    rw [h]
    exact ⟨rfl, rfl⟩

/-- C22 evaluated on the sample configuration (executors `g` and `x`): adding
`x` again or `shell`, and deleting `nobody` or `pty`, return errors and the
configuration given. -/
theorem C22_registry_errors_change_nothing_witness :
    config.AddExecutor {} sampleConfig { Name := "x", Type' := "ssh", Config := "other.org" } =
        (sampleConfig, some "'x' executor already exists") ∧
      config.AddExecutor {} sampleConfig { Name := "shell", Type' := "ssh" } =
        (sampleConfig, some "'shell' executor already exists") ∧
      config.DelExecutor {} sampleConfig "nobody" =
        (sampleConfig, some "'nobody' executor does NOT exist") ∧
      config.DelExecutor {} sampleConfig "pty" =
        (sampleConfig, some "'pty' is a internal executor and can NOT be deleted") :=
  ⟨(C22_registry_errors_change_nothing {} sampleConfig).1 _ (by decide),
    (C22_registry_errors_change_nothing {} sampleConfig).2.1 _ (Or.inl rfl),
    (C22_registry_errors_change_nothing {} sampleConfig).2.2.1 "nobody" (by decide),
    (C22_registry_errors_change_nothing {} sampleConfig).2.2.2.2.1 "pty" (Or.inr rfl)
      (by decide)⟩

/-- C23, as the code has it: for every string `s` and chunk size, (1) with a
chunk size of at least 1 `Chunks` returns, and the strings it returns, joined
in order, are exactly `s`; (2) the empty string yields no chunk, whatever the
chunk size; (3) for a non-empty `s` and a chunk size of 0 or below, `Chunks`
panics when the chunk size is 0 or `len(s) - 1` is at least `-2 * chunkSize`,
and otherwise returns `s` as its one chunk; (4) whenever `Chunks` returns, the
joined chunks are `s`. -/
theorem C23_chunks_join_to_the_text (s : String) (chunkSize : Int) :
    (1 ≤ chunkSize →
        ∃ chunks, util.Chunks s chunkSize = some chunks ∧ String.join chunks = s) ∧
      (∀ n : Int, util.Chunks "" n = some []) ∧
      (s ≠ "" → chunkSize ≤ 0 →
        util.Chunks s chunkSize =
          if chunkSize = 0 ∨ -2 * chunkSize ≤ (s.utf8ByteSize : Int) - 1 then none
          else some [s]) ∧
      (∀ (n : Int) (chunks : List String),
        util.Chunks s n = some chunks → String.join chunks = s) := by
  have hjoin : ∀ (n : Int) (chunks : List String),
      util.Chunks s n = some chunks → String.join chunks = s := by
    intro n chunks h
    unfold util.Chunks at h
    dsimp only at h
    rw [String.join_eq]
    split at h
    · rename_i h0
      injection h with h
      subst h
      have : s.utf8ByteSize = 0 := by omega
      rw [util.utf8ByteSize_eq_zero s this]
      rfl
    · split at h
      · injection h with h
        subst h
        simp
      · split at h
        · simp at h
        · split at h
          · simp at h
          · injection h with h
            subst h
            rw [util.ChunksLoop_flatten]
            simp
  refine ⟨?_, ?_, ?_, hjoin⟩
  · intro hsize
    have hsome : ∃ chunks, util.Chunks s chunkSize = some chunks := by
      unfold util.Chunks
      dsimp only
      split
      · exact ⟨_, rfl⟩
      · split
        · exact ⟨_, rfl⟩
        · split
          · omega
          · split
            · rename_i h
              exfalso
              have h1 : (0 : Int) ≤ (s.utf8ByteSize : Int) - 1 := by omega
              have h2 := Int.tdiv_nonneg h1 (show (0 : Int) ≤ chunkSize by omega)
              omega
            · exact ⟨_, rfl⟩
    obtain ⟨chunks, h⟩ := hsome
    exact ⟨chunks, h, hjoin _ _ h⟩
  · intro n
    rfl
  · intro hne hle
    have hlen : (s.utf8ByteSize : Int) ≠ 0 := by
      intro h0
      exact hne (util.utf8ByteSize_eq_zero s (by omega))
    have hpos : (0 : Int) ≤ (s.utf8ByteSize : Int) - 1 := by omega
    unfold util.Chunks
    dsimp only
    rw [if_neg hlen, if_neg (by omega)]
    by_cases h0 : chunkSize = 0
    · rw [if_pos h0, if_pos (Or.inl h0)]
    · have hneg : chunkSize < 0 := by omega
      rw [if_neg h0]
      by_cases hcap : -2 * chunkSize ≤ (s.utf8ByteSize : Int) - 1
      · rw [if_pos ((util.capacity_neg_iff _ _ hpos hneg).mpr hcap), if_pos (Or.inr hcap)]
      · rw [if_neg (fun h => hcap ((util.capacity_neg_iff _ _ hpos hneg).mp h)),
          if_neg (by rintro (h | h); exact h0 h; exact hcap h),
          util.ChunksLoop_of_neg _ hneg _ _ _ _ (by omega)]
        rfl

/-- C23 evaluated: a text of eleven characters, two of them of two bytes, in
chunks of four characters; and the text `ab` with the chunk sizes -1 (returned
whole) and 0 (panic). -/
theorem C23_chunks_join_to_the_text_witness :
    util.Chunks "héllo wörld" 4 = some ["héll", "o wö", "rld"] ∧
      (∃ chunks, util.Chunks "héllo wörld" 4 = some chunks ∧
        String.join chunks = "héllo wörld") ∧
      util.Chunks "ab" (-1) = some ["ab"] ∧ util.Chunks "ab" 0 = none :=
  ⟨by decide, (C23_chunks_join_to_the_text "héllo wörld" 4).1 (by decide),
    ((C23_chunks_join_to_the_text "ab" (-1)).2.2.1 (by decide) (by decide)).trans (by decide),
    ((C23_chunks_join_to_the_text "ab" 0).2.2.1 (by decide) (by decide)).trans (by decide)⟩

/-- C23, chunk sizes for which `Chunks` returns nothing: with the chunk size 0
and a text of two bytes, or -1 and a text of three bytes, the capacity
`(len(s)-1)/chunkSize+1` handed to `make` divides by zero or is negative, and
the call panics; with -1 and two bytes the capacity is 0 and the text is
returned whole. -/
theorem C23_chunks_of_size_zero_panics :
    util.Chunks "ab" 0 = none ∧ util.Chunks "abc" (-1) = none ∧
      util.Chunks "ab" (-1) = some ["ab"] := by
  decide

/-- C24: for every string `s` and every chunk size of at least 1, `Chunks`
returns, every string it returns is non-empty and has at most `chunkSize`
characters, and every returned string but the last has exactly `chunkSize`
characters. -/
theorem C24_chunk_lengths (s : String) (chunkSize : Int) (hsize : 1 ≤ chunkSize) :
    ∃ chunks, util.Chunks s chunkSize = some chunks ∧
      (∀ c ∈ chunks, c ≠ "" ∧ 1 ≤ (c.length : Int) ∧ (c.length : Int) ≤ chunkSize) ∧
      (∀ c ∈ chunks.dropLast, (c.length : Int) = chunkSize) := by
  unfold util.Chunks
  dsimp only
  split
  · exact ⟨[], rfl, by simp, by simp⟩
  · rename_i h0
    split
    · rename_i hge
      refine ⟨[s], rfl, ?_, by simp⟩
      intro c hc
      simp only [List.mem_singleton] at hc
      subst hc
      have hle := util.length_le_utf8ByteSize c
      have hne : c ≠ "" := by
        intro e
        subst e
        exact h0 rfl
      have hpos : 0 < c.length := by
        obtain ⟨l⟩ := c
        cases l with
        | nil => exact absurd rfl hne
        | cons a l => simp [String.length]
      exact ⟨hne, by omega, by omega⟩
    · split
      · omega
      · split
        · rename_i h
          exfalso
          have h1 : (0 : Int) ≤ (s.utf8ByteSize : Int) - 1 := by omega
          have h2 := Int.tdiv_nonneg h1 (show (0 : Int) ≤ chunkSize by omega)
          omega
        · have hdata : s.data ≠ [] := by
            intro e
            apply h0
            obtain ⟨l⟩ := s
            simp only at e
            subst e
            rfl
          obtain ⟨init, last, heq, hinit, hlo, hhi⟩ :=
            util.ChunksLoop_sizes chunkSize hsize s.data [] 0 [] rfl (by omega) (Or.inr hdata)
              (by simp)
          refine ⟨_, rfl, ?_, ?_⟩
          · rw [heq]
            intro c hc
            have hlen : 1 ≤ (c.length : Int) ∧ (c.length : Int) ≤ chunkSize := by
              rcases List.mem_append.mp hc with h | h
              · have := hinit c h
                omega
              · simp only [List.mem_singleton] at h
                subst h
                exact ⟨hlo, hhi⟩
            refine ⟨?_, hlen⟩
            intro e
            subst e
            exact absurd hlen.1 (by decide)
          · rw [heq, List.dropLast_concat]
            exact hinit

/-- C24 evaluated: chunks of four characters of a text of eleven characters. -/
theorem C24_chunk_lengths_witness :
    util.Chunks "héllo wörld" 4 = some ["héll", "o wö", "rld"] ∧
      ∃ chunks, util.Chunks "héllo wörld" 4 = some chunks ∧
        (∀ c ∈ chunks, c ≠ "" ∧ 1 ≤ (c.length : Int) ∧ (c.length : Int) ≤ 4) ∧
        (∀ c ∈ chunks.dropLast, (c.length : Int) = 4) :=
  ⟨by decide, C24_chunk_lengths "héllo wörld" 4 (by decide)⟩

/-- C25, evaluated where it fails: on a line that starts with a vertical tab,
`SplitFirstAndOthers` cuts at the first blank and returns the text before it as
it is, vertical tab included, although `TrimSpace` would remove it; the second
part is trimmed. -/
theorem C25_first_part_is_not_trimmed :
    util.SplitFirstAndOthers "\x0bls  -l " = ("\x0bls", "-l") ∧
      strings.TrimSpace "\x0bls" = "ls" ∧
      strings.TrimSpace (util.SplitFirstAndOthers "\x0bls  -l ").1 ≠
        (util.SplitFirstAndOthers "\x0bls  -l ").1 ∧
      util.SplitFirstAndOthers "\x0bls" = ("ls", "") := by
  decide

/-- C26: for every session whose `Ready` flag is false and every command line,
`command_run` returns having recorded exactly two more actions, the notice
"The executor is not ready ..." sent to the output and the closing of the
output; no `Exec` call is recorded, and the session table and the
active-session map are as they were. -/
theorem C26_not_ready_session_is_not_executed (env : Env) (s : State)
    (session : TgExecutorSession) (chatid : Int) (cmdline : String)
    (hready : session.Ready = false) :
    ∃ s', command_run env s (some session) chatid cmdline = some s' ∧
      s'.trace = Effect.CloseOutput chatid ::
        Effect.Output chatid
          "The executor is not ready (still openning). To stop it, send /close" :: s.trace ∧
      execCalls s'.trace = execCalls s.trace ∧
      s'.executorSessions = s.executorSessions ∧ s'.activeSessions = s.activeSessions := by
  refine ⟨(s.emit (Effect.Output chatid
      "The executor is not ready (still openning). To stop it, send /close")).emit
      (Effect.CloseOutput chatid), ?_, rfl, ?_, rfl, rfl⟩
  · unfold command_run
    simp [hready]
  · simp [execCalls, State.emit]

/-- C26 at the session of `g` that `/executor g` has just created (its `Open()`
has not returned): `pwd` and `^C` are answered with the notice. -/
theorem C26_not_ready_session_is_not_executed_witness :
    sampleGlobal.Ready = false ∧
      (∃ s', command_run sampleRawEnv (Start sampleConfig) (some sampleGlobal) 42 "pwd" = some s' ∧
        s'.trace = [Effect.CloseOutput 42, Effect.Output 42
          "The executor is not ready (still openning). To stop it, send /close"]) ∧
      (∃ s', command_run sampleRawEnv (Start sampleConfig) (some sampleGlobal) 42 "^C" = some s' ∧
        execCalls s'.trace = 0) :=
  ⟨rfl,
    (C26_not_ready_session_is_not_executed sampleRawEnv (Start sampleConfig) sampleGlobal 42
      "pwd" rfl).imp (fun _ h => ⟨h.1, h.2.1⟩),
    (C26_not_ready_session_is_not_executed sampleRawEnv (Start sampleConfig) sampleGlobal 42
      "^C" rfl).imp (fun _ h => ⟨h.1, h.2.2.1⟩)⟩

/-- C27, evaluated where it fails: after `/executor g` (a global executor) and
`/delexecutor g` from conversation 42 the session `g` is closed and gone from
the table while the active-session map still maps 42 to `g`, and the next
`/run` of the conversation dereferences a nil session.  The same entry is left
behind for conversation 7 when 42 and 7 share `g` and 42 sends `/close`, and
when 42 closes the session `x_7` of conversation 7 by name. -/
theorem C27_active_entry_outlives_its_session :
    (run sampleEnv (Start sampleConfig)
        [sampleSwitch,
         Event.command { Name := "/delexecutor", Payload := "g", Chatid := 42 } {}]).map
        (fun s => (s.executorSessions.map Prod.fst, s.activeSessions)) =
      some (["shell"], [(42, "g")]) ∧
    run sampleEnv (Start sampleConfig)
        [sampleSwitch,
         Event.command { Name := "/delexecutor", Payload := "g", Chatid := 42 } {},
         Event.command { Name := "/run", Payload := "pwd", Chatid := 42 } {}] = none ∧
    (run sampleEnv (Start sampleConfig)
        [sampleSwitch,
         Event.command { Name := "/executor", Payload := "g", Chatid := 7 } {},
         Event.command { Name := "/close", Payload := "", Chatid := 42 } {}]).map
        (fun s => (s.executorSessions.map Prod.fst, s.activeSessions)) =
      some (["shell"], [(7, "g")]) ∧
    (run sampleEnv (Start sampleConfig)
        [Event.command { Name := "/executor", Payload := "x", Chatid := 7 } {},
         Event.command { Name := "/close", Payload := "x_7", Chatid := 42 } {}]).map
        (fun s => (s.executorSessions.map Prod.fst, s.activeSessions)) =
      some (["shell"], [(7, "x_7")]) := by
  decide

/-- C28, evaluated where it fails: with the executors `a` and `a_b` configured
and conversation 42 using its session of `a_b`, `/delexecutor a` from
conversation 7 succeeds, closes the executor of the session `a_b_42` (instance
1), removes that session and the active-session entry of 42, tells 42 that its
executor was reset, and leaves `a_b` configured. -/
theorem C28_delexecutor_closes_longer_names :
    (run sampleEnv (Start sampleUnderscore)
        [Event.command { Name := "/executor", Payload := "a_b", Chatid := 42 } {}]).map
        (fun s => ((sessionsOf s "a_b").map Prod.fst, s.activeSessions)) =
      some (["a_b_42"], [(42, "a_b_42")]) ∧
    (run sampleEnv (Start sampleUnderscore)
        [Event.command { Name := "/executor", Payload := "a_b", Chatid := 42 } {},
         Event.command { Name := "/delexecutor", Payload := "a", Chatid := 7 } {}]).map
        (fun s => ((sessionsOf s "a_b").map Prod.fst, s.executorSessions.map Prod.fst,
          s.activeSessions, s.ConfigData.Executors.map (fun e => e.Name))) =
      some ([], ["shell"], [], ["a_b"]) ∧
    (run sampleEnv (Start sampleUnderscore)
        [Event.command { Name := "/executor", Payload := "a_b", Chatid := 42 } {},
         Event.command { Name := "/delexecutor", Payload := "a", Chatid := 7 } {}]).map
        (fun s => s.trace.take 3) =
      some [Effect.Messenger { Chatid := 42, Data := MSG_RESET_EXECUTOR }, Effect.Close 1,
        Effect.Output 7 "Successfully deleted executor a"] := by
  decide

/-- C29, evaluated where it fails: with the executors `a` and `a_b` configured
and conversation 42 using its session `a_b_42` of `a_b`, the command
`/executor a` is answered "Already using a executor" and changes nothing else:
no session of `a` is made and `a_b_42` stays active. -/
theorem C29_already_using_for_longer_name :
    (run sampleEnv (Start sampleUnderscore)
        [Event.command { Name := "/executor", Payload := "a_b", Chatid := 42 } {}]).map
        (fun s => (s.executorSessions.map Prod.fst, s.activeSessions)) =
      some (["shell", "a_b_42"], [(42, "a_b_42")]) ∧
    (run sampleEnv (Start sampleUnderscore)
        [Event.command { Name := "/executor", Payload := "a_b", Chatid := 42 } {},
         Event.command { Name := "/executor", Payload := "a", Chatid := 42 } {}]).map
        (fun s => (s.trace.head?, s.executorSessions.map Prod.fst, s.activeSessions)) =
      some (some (Effect.Output 42 "Already using a executor"), ["shell", "a_b_42"],
        [(42, "a_b_42")]) := by
  decide

/-- C30, as the code has it: `DelExecutorButton` works on the buttons of the
executor `name` (the shell buttons for `shell` and `pty`, else the buttons of
every configured executor of that name) and leaves everything else alone.  A
payload that `strconv.Atoi` reads as a number is an index: a negative one is
the error "invalid payload" and changes nothing, another one removes the
button at that index (none past the end).  Any other payload removes the first
button whose text equals the payload or starts with the payload followed by a
blank (none if there is none).  All other buttons stay in their order.  For
such a payload that is the text of a button, exactly one button is removed, at
or before the first button equal to the payload, and it is that button when no
earlier button starts with the payload and a blank. -/
theorem C30_removes_first_matching_button (disk : config.Disk) (cs : config.ConfigStruct)
    (name payload : String) :
    let update : (List String → List String) → config.ConfigStruct := fun f =>
      if name = "shell" ∨ name = "pty" then
        { cs with ShellExecutorButtons := f cs.ShellExecutorButtons }
      else
        { cs with Executors := cs.Executors.map (fun executor =>
            if executor.Name = name then { executor with Buttons := f executor.Buttons }
            else executor) }
    config.DelExecutorButton disk cs name payload =
        (match strconv.Atoi payload with
          | some index =>
            if index < 0 then (cs, some ("invalid payload '" ++ payload ++ "'"))
            else (update (fun buttons => buttons.eraseIdx index.toNat), disk.WriteConfig)
          | none =>
            (update (fun buttons => buttons.eraseIdx (buttons.findIdx
              (fun s => s == payload || strings.StartsWith s (payload ++ " ")))),
              disk.WriteConfig)) ∧
      (∀ buttons : List String, payload ∈ buttons →
        (buttons.eraseIdx (buttons.findIdx
            (fun s => s == payload || strings.StartsWith s (payload ++ " ")))).length + 1 =
          buttons.length ∧
        buttons.findIdx (fun s => s == payload || strings.StartsWith s (payload ++ " ")) ≤
          buttons.indexOf payload ∧
        ((∀ b ∈ buttons.take (buttons.indexOf payload),
            strings.StartsWith b (payload ++ " ") = false) →
          buttons.eraseIdx (buttons.findIdx
            (fun s => s == payload || strings.StartsWith s (payload ++ " "))) =
            buttons.erase payload)) := by
  intro update
  constructor
  · unfold config.DelExecutorButton
    cases hnum : strconv.Atoi payload with
    | some index =>
      dsimp only
      by_cases hneg : index < 0
      · rw [if_pos (by simpa using hneg), if_pos hneg]
      · rw [if_neg (by simpa using hneg), if_neg hneg]
        have hidx : ∀ buttons, config.removeButton buttons (config.buttonIndex payload buttons) =
            buttons.eraseIdx index.toNat := by
          intro buttons
          rw [config.buttonIndex_of_number _ _ _ hnum,
            config.removeButton_of_nonneg _ _ (by omega)]
        by_cases hn : name = config.DEFAULT_EXECUTOR ∨ name = config.PTY_EXECUTOR
        · have hn2 : name = "shell" ∨ name = "pty" := hn
          simp only [update, if_pos hn, if_pos hn2, hidx]
        · have hn2 : ¬ (name = "shell" ∨ name = "pty") := hn
          simp only [update, if_neg hn, if_neg hn2, hidx]
    | none =>
      simp only [Bool.false_eq_true, if_false]
      by_cases hn : name = config.DEFAULT_EXECUTOR ∨ name = config.PTY_EXECUTOR
      · have hn2 : name = "shell" ∨ name = "pty" := hn
        simp only [update, if_pos hn, if_pos hn2, config.removeButton_buttonIndex _ _ hnum]
      · have hn2 : ¬ (name = "shell" ∨ name = "pty") := hn
        simp only [update, if_neg hn, if_neg hn2, config.removeButton_buttonIndex _ _ hnum]
  · intro buttons hmem
    have hle : buttons.findIdx (fun s => s == payload || strings.StartsWith s (payload ++ " ")) ≤
        buttons.indexOf payload := by
      unfold List.indexOf
      apply List.findIdx_le_findIdx
      intro x _ hx
      simp only [beq_iff_eq] at hx
      simp [hx]
    have hlt : buttons.indexOf payload < buttons.length := List.indexOf_lt_length.mpr hmem
    refine ⟨?_, hle, ?_⟩
    · exact List.length_eraseIdx_add_one (by omega)
    · intro hpre
      rw [config.findIdx_eq_indexOf payload buttons hpre, List.eraseIdx_indexOf_eq_erase]

/-- C30 evaluated: removing the shell button `pwd` and the button `ls` of the
executor `x` by their text, the shell button at index 1 by the payload `1`,
nothing for the index 7, and the error for the payload `-1`. -/
theorem C30_removes_first_matching_button_witness :
    config.DelExecutorButton {} { ShellExecutorButtons := ["ls", "ls -la", "pwd"] } "shell" "pwd" =
        ({ ShellExecutorButtons := ["ls", "ls -la"] }, none) ∧
      config.DelExecutorButton {}
          { Executors := [{ Name := "x", Buttons := ["df", "ls", "ls -la"] },
                          { Name := "y", Buttons := ["ls"] }] } "x" "ls" =
        ({ Executors := [{ Name := "x", Buttons := ["df", "ls -la"] },
                         { Name := "y", Buttons := ["ls"] }] }, none) ∧
      config.DelExecutorButton {} { ShellExecutorButtons := ["ls", "ls -la", "pwd"] } "pty" "1" =
        ({ ShellExecutorButtons := ["ls", "pwd"] }, none) ∧
      config.DelExecutorButton {} { ShellExecutorButtons := ["ls", "ls -la", "pwd"] } "pty" "7" =
        ({ ShellExecutorButtons := ["ls", "ls -la", "pwd"] }, none) ∧
      config.DelExecutorButton {} { ShellExecutorButtons := ["ls", "ls -la", "pwd"] } "pty" "-1" =
        ({ ShellExecutorButtons := ["ls", "ls -la", "pwd"] }, some "invalid payload '-1'") :=
  ⟨(C30_removes_first_matching_button {} { ShellExecutorButtons := ["ls", "ls -la", "pwd"] }
      "shell" "pwd").1.trans (by decide),
    (C30_removes_first_matching_button {}
      { Executors := [{ Name := "x", Buttons := ["df", "ls", "ls -la"] },
                      { Name := "y", Buttons := ["ls"] }] } "x" "ls").1.trans (by decide),
    (C30_removes_first_matching_button {} { ShellExecutorButtons := ["ls", "ls -la", "pwd"] }
      "pty" "1").1.trans (by decide),
    (C30_removes_first_matching_button {} { ShellExecutorButtons := ["ls", "ls -la", "pwd"] }
      "pty" "7").1.trans (by decide),
    (C30_removes_first_matching_button {} { ShellExecutorButtons := ["ls", "ls -la", "pwd"] }
      "pty" "-1").1.trans (by decide)⟩

/-- C30, payloads that are the full text of a button and remove another one:
with the shell buttons `ls -la`, `ls` the payload `ls` removes `ls -la`, the
first button that starts with `ls` and a blank; with the buttons `1`, `ls` the
payload `1` is read as the index 1 and removes `ls`. -/
theorem C30_another_button_is_removed :
    config.DelExecutorButton {} { ShellExecutorButtons := ["ls -la", "ls"] } "shell" "ls" =
        ({ ShellExecutorButtons := ["ls"] }, none) ∧
      ["ls -la", "ls"].erase "ls" = ["ls -la"] ∧
      config.DelExecutorButton {} { ShellExecutorButtons := ["1", "ls"] } "shell" "1" =
        ({ ShellExecutorButtons := ["1"] }, none) ∧
      ["1", "ls"].erase "1" = ["ls"] ∧
      (config.AddExecutorButton {}
          (config.AddExecutorButton {} {} "shell" "ls -la").1 "shell" "ls").1 =
        { ShellExecutorButtons := ["ls -la", "ls"] } := by
  decide

end Tgshell
